import Mathlib

/-!
# Boundary tagging and constraint assignment of the numerical examples

Shallow embedding of the geometry scripts `HyperRectangle.h`, `Rod.h` and
`QuarterHyperCube_Merged.h`.

* `double` values are embedded as exact rationals (`ℚ`), so every comparison
  `std::abs(a - b) < tol` is the exact comparison `|a - b| < tol`.
* A triangulation is a list of active cells; a cell carries its vertices and
  its faces in local numbering; the mutable per-face data (`boundary_id`,
  `manifold_id`) are fields that the passes rewrite.
* `AssertThrow` / `Assert` failures are the `Except.error` result.
-/

/-! ## Enumerators -/

namespace enums

/-- Modelled from the spec: the coordinate enumerator `enums::x/y/z` of the missing
header `numEx-helper_fnc.h` (spec §3, Axis). -/
inductive enum_coord
  | x | y | z
  deriving DecidableEq, Repr

/-- Modelled from the spec: the boundary enumerators `enums::id_boundary_*` of the
missing header (spec §3, Tag: minus-x, plus-x, minus-y, plus-y, minus-z, plus-z). -/
inductive enum_boundary_ids
  | id_boundary_xMinus | id_boundary_xPlus
  | id_boundary_yMinus | id_boundary_yPlus
  | id_boundary_zMinus | id_boundary_zPlus
  deriving DecidableEq, Repr

/-- Modelled from the spec: the boundary-condition selectors `enums::BC_*` of the
missing header; the members are the ones the three source files name. -/
inductive enum_BC
  | BC_none | BC_sym | BC_fix | BC_x0 | BC_y0 | BC_x0_z0
  deriving DecidableEq, Repr

/-- Modelled from the spec: the loading driver of the missing header
(spec §6: "Dirichlet vs. other"). -/
inductive enum_driver
  | Dirichlet | other
  deriving DecidableEq, Repr

end enums

open enums

/-! ## Mesh data -/

/-- A `Point<dim>`; a two-dimensional point has `z = 0`. -/
structure Point where
  x : ℚ
  y : ℚ
  z : ℚ
  deriving DecidableEq

/-- Coordinate access `p[c]`. -/
def Point.coord (p : Point) : enum_coord → ℚ
  | .x => p.x
  | .y => p.y
  | .z => p.z

/-- The value of `types::boundary_id` stored on a face: the state left by the
clearing pass, one of the `enums::id_boundary_*` enumerators, or the
`boundary_id_hole` of the quarter plate (spec §3, Tag). -/
inductive boundary_id
  | cleared
  | id (e : enum_boundary_ids)
  | boundary_id_hole
  deriving DecidableEq, Repr

/-- A face of a cell: centroid, its own vertices, whether it lies at the boundary,
and the two mutable labels. `manifold_id = none` is the flat manifold. -/
structure Face where
  center : Point
  vertices : List Point
  at_boundary : Bool
  boundary_id : boundary_id
  manifold_id : Option ℕ
  deriving DecidableEq

/-- An active cell: `vertices` are the cell's vertices in local numbering
(`cell->vertex(v)`), `faces` the faces in local numbering (`cell->face(f)`);
`tracked` records `set_material_id(enums::tracked_QP)`. -/
structure Cell where
  vertices : List Point
  faces : List Face
  tracked : Bool
  deriving DecidableEq

/-- The active cells of a triangulation, in iteration order. -/
abbrev Triangulation := List Cell

/-- The value of `GeometryInfo<dim>::faces_per_cell`. -/
def faces_per_cell (dim : ℕ) : ℕ := 2 * dim

/-- The value of `GeometryInfo<dim>::vertices_per_face`. -/
def vertices_per_face (dim : ℕ) : ℕ := 2 ^ (dim - 1)

/-- The fatal conditions of the builders. -/
inductive MeshError
  | unidentified_face
  | internal_error
  | not_implemented
  | invalid_notch_geometry
  deriving DecidableEq, Repr

/-- Run a fallible step over a list in order, stopping at the first failure. -/
def forEachM {α ε : Type} (f : α → Except ε α) : List α → Except ε (List α)
  | [] => .ok []
  | a :: as =>
    match f a with
    | .error e => .error e
    | .ok b =>
      match forEachM f as with
      | .error e => .error e
      | .ok bs => .ok (b :: bs)

/-- The value of a step, or the input itself when the step failed. -/
def ok_or {α ε : Type} (r : Except ε α) (a : α) : α :=
  match r with
  | .ok b => b
  | .error _ => a

/-- The loop `for (face = 0; face < n; ++face)` over the faces of one cell:
`step` is applied to the faces with local index `< n`, the others are not visited. -/
def for_faces (n : ℕ) (step : Face → Except MeshError Face) (cell : Cell) :
    Except MeshError Cell :=
  match forEachM step (cell.faces.take n) with
  | .error e => .error e
  | .ok fs => .ok { cell with faces := fs ++ cell.faces.drop n }

/-- The loop over all active cells with the inner loop over the first `n` faces. -/
def for_cells_faces (n : ℕ) (step : Face → Except MeshError Face) (tria : Triangulation) :
    Except MeshError Triangulation :=
  forEachM (for_faces n step) tria

/-- Modelled from the spec: `numEx::clear_boundary_IDs` of the missing helper header,
which resets the tag of every boundary face ("Clear all existing boundary ID's"). -/
def clear_boundary_IDs (tria : Triangulation) : Triangulation :=
  tria.map fun cell =>
    { cell with faces := cell.faces.map fun f =>
        if f.at_boundary then { f with boundary_id := .cleared } else f }

/-! ## HyperRectangle -/

namespace HyperRectangle

/-- The field `parameterCollection::search_tolerance = 1e-12`. -/
def search_tolerance : ℚ := 1 / 10 ^ 12

/-- The body of the boundary-id loop of `make_grid_flat` for one face
(`HyperRectangle.h`, lines 262-288). `body_dimensions` is the namespace-level vector. -/
def set_boundary_id_flat (tol : ℚ) (body_dimensions : enum_coord → ℚ) (f : Face) :
    Except MeshError Face :=
  if f.at_boundary then
    if |f.center.coord .x - 0| < tol then
      .ok { f with boundary_id := .id .id_boundary_xMinus }
    else if |f.center.coord .x - body_dimensions .x| < tol then
      .ok { f with boundary_id := .id .id_boundary_xPlus }
    else if |f.center.coord .y - 0| < tol then
      .ok { f with boundary_id := .id .id_boundary_yMinus }
    else if |f.center.coord .y - body_dimensions .y| < tol then
      .ok { f with boundary_id := .id .id_boundary_yPlus }
    else
      .error .unidentified_face
  else
    .ok f

/-- The boundary-id pass of `make_grid_flat` (lines 256-290): all active cells,
faces `0 .. GeometryInfo<2>::faces_per_cell - 1`. -/
def set_boundary_IDs_flat (tol : ℚ) (body_dimensions : enum_coord → ℚ)
    (tria : Triangulation) : Except MeshError Triangulation :=
  for_cells_faces (faces_per_cell 2) (set_boundary_id_flat tol body_dimensions) tria

end HyperRectangle

/-! ## The classifier as the specification words it -/

/-- The spec's fixed-priority rule (§4.1): walk the tests in priority order, the
first test that passes wins; `none` when no test passes. -/
def first_passing : List (enum_boundary_ids × Bool) → Option enum_boundary_ids
  | [] => none
  | (t, b) :: rest => if b then some t else first_passing rest

/-- The body dimensions `(W, L)` of a flat body as the vector `body_dimensions`. -/
def dims2 (W L : ℚ) : enum_coord → ℚ
  | .x => W
  | .y => L
  | .z => 0

/-! ## The uniform brick -/

/-- Rounding of a rational to the nearest integer, ties to the even one. -/
def round_half_even (x : ℚ) : ℤ :=
  if 2 * (x - ⌊x⌋) < 1 then ⌊x⌋
  else if 1 < 2 * (x - ⌊x⌋) then ⌊x⌋ + 1
  else if ⌊x⌋ % 2 = 0 then ⌊x⌋ else ⌊x⌋ + 1

/-- The `double` (IEEE 754 binary64 number) nearest to `x`, ties to even: with
`e = ⌊log₂ |x|⌋` the significand `x / 2^(e-52)` is rounded to an integer of 53 binary
digits. Overflow and subnormal numbers are left out. -/
def binary64 (x : ℚ) : ℚ :=
  if x = 0 then 0
  else round_half_even (x / 2 ^ (Int.log 2 |x| - 52)) * 2 ^ (Int.log 2 |x| - 52)

/-- Modelled from the spec: vertex `(i, j)` of the uniform subdivision that the toolkit
primitive `GridGenerator::subdivided_hyper_rectangle` (external collaborator, spec §1)
lays between the corners `p1` and `p2` with `nx` by `ny` cells: the primitive forms
`delta = (p2 - p1)/repetitions` and the point `p1 + i*delta_x + j*delta_y`. Every
operation is rounded by `rnd`: `binary64` for the doubles of the program, the identity
for exact arithmetic. -/
def grid_vertex_rounded (rnd : ℚ → ℚ) (nx ny : ℕ) (p1 p2 : Point) (i j : ℕ) : Point :=
  ⟨rnd (p1.x + rnd (i * rnd (rnd (p2.x - p1.x) / nx))),
   rnd (p1.y + rnd (j * rnd (rnd (p2.y - p1.y) / ny))), 0⟩

/-- Modelled from the spec: the centroid `face->center()` of a straight face as the
toolkit forms it, the sum of the two vertices divided by 2, every operation rounded by
`rnd`. -/
def face_center_rounded (rnd : ℚ → ℚ) (a b : Point) : Point :=
  ⟨rnd (rnd (a.x + b.x) / 2), rnd (rnd (a.y + b.y) / 2), rnd (rnd (a.z + b.z) / 2)⟩

/-- A straight face between two vertices with the centroid of `face_center_rounded`:
untagged, flat manifold. -/
def line_face_rounded (rnd : ℚ → ℚ) (a b : Point) (bd : Bool) : Face :=
  { center := face_center_rounded rnd a b, vertices := [a, b], at_boundary := bd,
    boundary_id := .cleared, manifold_id := none }

/-- Modelled from the spec: cell `(i, j)` of the uniform subdivision, in the toolkit's
local numbering: vertices lower-left, lower-right, upper-left, upper-right; faces
left, right, bottom, top; coordinates rounded by `rnd`. A face lies at the boundary when
the cell has no neighbour across it. -/
def grid_cell_rounded (rnd : ℚ → ℚ) (nx ny : ℕ) (p1 p2 : Point) (i j : ℕ) : Cell :=
  { vertices := [grid_vertex_rounded rnd nx ny p1 p2 i j,
                 grid_vertex_rounded rnd nx ny p1 p2 (i + 1) j,
                 grid_vertex_rounded rnd nx ny p1 p2 i (j + 1),
                 grid_vertex_rounded rnd nx ny p1 p2 (i + 1) (j + 1)],
    faces := [line_face_rounded rnd (grid_vertex_rounded rnd nx ny p1 p2 i j)
                (grid_vertex_rounded rnd nx ny p1 p2 i (j + 1)) (decide (i = 0)),
              line_face_rounded rnd (grid_vertex_rounded rnd nx ny p1 p2 (i + 1) j)
                (grid_vertex_rounded rnd nx ny p1 p2 (i + 1) (j + 1)) (decide (i + 1 = nx)),
              line_face_rounded rnd (grid_vertex_rounded rnd nx ny p1 p2 i j)
                (grid_vertex_rounded rnd nx ny p1 p2 (i + 1) j) (decide (j = 0)),
              line_face_rounded rnd (grid_vertex_rounded rnd nx ny p1 p2 i (j + 1))
                (grid_vertex_rounded rnd nx ny p1 p2 (i + 1) (j + 1)) (decide (j + 1 = ny))],
    tracked := false }

/-- Modelled from the spec: the triangulation built by the toolkit primitive
`GridGenerator::subdivided_hyper_rectangle(tria, {nx, ny}, p1, p2)`: the uniform
`nx`-by-`ny` subdivision, cells row by row, coordinates rounded by `rnd`. -/
def subdivided_hyper_rectangle_rounded (rnd : ℚ → ℚ) (nx ny : ℕ) (p1 p2 : Point) :
    Triangulation :=
  (List.range ny).flatMap fun j =>
    (List.range nx).map fun i => grid_cell_rounded rnd nx ny p1 p2 i j

/-- The vertex `(i, j)` of the uniform subdivision in exact arithmetic:
`grid_vertex_rounded` without rounding. -/
def grid_vertex (nx ny : ℕ) (p1 p2 : Point) (i j : ℕ) : Point :=
  ⟨p1.x + i * ((p2.x - p1.x) / nx), p1.y + j * ((p2.y - p1.y) / ny), 0⟩

/-- The centroid of a straight face with end points `a` and `b`. -/
def face_center (a b : Point) : Point :=
  ⟨(a.x + b.x) / 2, (a.y + b.y) / 2, (a.z + b.z) / 2⟩

/-- A straight face between two vertices, as the toolkit hands it out: untagged,
flat manifold. -/
def line_face (a b : Point) (bd : Bool) : Face :=
  { center := face_center a b, vertices := [a, b], at_boundary := bd,
    boundary_id := .cleared, manifold_id := none }

/-- The cell `(i, j)` of the uniform subdivision in exact arithmetic:
`grid_cell_rounded` without rounding. -/
def grid_cell (nx ny : ℕ) (p1 p2 : Point) (i j : ℕ) : Cell :=
  { vertices := [grid_vertex nx ny p1 p2 i j, grid_vertex nx ny p1 p2 (i + 1) j,
                 grid_vertex nx ny p1 p2 i (j + 1), grid_vertex nx ny p1 p2 (i + 1) (j + 1)],
    faces := [line_face (grid_vertex nx ny p1 p2 i j) (grid_vertex nx ny p1 p2 i (j + 1))
                (decide (i = 0)),
              line_face (grid_vertex nx ny p1 p2 (i + 1) j)
                (grid_vertex nx ny p1 p2 (i + 1) (j + 1)) (decide (i + 1 = nx)),
              line_face (grid_vertex nx ny p1 p2 i j) (grid_vertex nx ny p1 p2 (i + 1) j)
                (decide (j = 0)),
              line_face (grid_vertex nx ny p1 p2 i (j + 1))
                (grid_vertex nx ny p1 p2 (i + 1) (j + 1)) (decide (j + 1 = ny))],
    tracked := false }

/-- The uniform `nx`-by-`ny` subdivision in exact arithmetic:
`subdivided_hyper_rectangle_rounded` without rounding. -/
def subdivided_hyper_rectangle (nx ny : ℕ) (p1 p2 : Point) : Triangulation :=
  (List.range ny).flatMap fun j => (List.range nx).map fun i => grid_cell nx ny p1 p2 i j

namespace HyperRectangle

/-- The uniform-brick path of `make_grid_flat` (lines 229-290) for the repetitions
`(nx, ny)`: build the brick between `(0,0)` and `(width, length)`, clear the boundary
ids, run the boundary-id pass against `body_dimensions = (width, length)`. The
coordinates of the brick are rounded by `rnd`. -/
def make_grid_flat_uniform_rounded (rnd : ℚ → ℚ) (tol width length : ℚ) (nx ny : ℕ) :
    Except MeshError Triangulation :=
  set_boundary_IDs_flat tol (dims2 width length)
    (clear_boundary_IDs
      (subdivided_hyper_rectangle_rounded rnd nx ny ⟨0, 0, 0⟩ ⟨width, length, 0⟩))

/-- The uniform-brick path of `make_grid_flat` in exact arithmetic:
`make_grid_flat_uniform_rounded` without rounding. -/
def make_grid_flat_uniform (tol width length : ℚ) (nx ny : ℕ) : Except MeshError Triangulation :=
  set_boundary_IDs_flat tol (dims2 width length)
    (clear_boundary_IDs (subdivided_hyper_rectangle nx ny ⟨0, 0, 0⟩ ⟨width, length, 0⟩))

end HyperRectangle

/-! ## Distances -/

/-- The squared Euclidean distance of two points. -/
def Point.distance_sq (p q : Point) : ℚ :=
  (p.x - q.x) ^ 2 + (p.y - q.y) ^ 2 + (p.z - q.z) ^ 2

/-- The test `std::abs(std::sqrt(d2) - r) < tol` of exact real arithmetic, stated without
the root: `r - tol < sqrt d2` and `sqrt d2 < r + tol`
(see `near_radius_iff_sqrt` for the equivalence). -/
def near_radius (d2 r tol : ℚ) : Prop :=
  (r - tol < 0 ∨ (r - tol) ^ 2 < d2) ∧ (0 < r + tol ∧ d2 < (r + tol) ^ 2)

instance (d2 r tol : ℚ) : Decidable (near_radius d2 r tol) := by
  unfold near_radius
  infer_instance

/-! ## Rod -/

namespace Rod

/-- The field `parameterCollection::search_tolerance = 1e-8`. -/
def search_tolerance : ℚ := 1 / 10 ^ 8

/-- The field `parameterCollection::manifold_id_surf = 10`. -/
def manifold_id_surf : ℕ := 10

/-- The test of the inner vertex loop of the 3D builder (`Rod.h`, lines 176-187):
some vertex `cell->face(face)->vertex(v)`, `v < vertices_per_face`, has
`std::abs(sqrt(x*x + z*z) - radius) < tol`. -/
def face_vertex_on_surface (tol radius : ℚ) (f : Face) : Bool :=
  (f.vertices.take (vertices_per_face 3)).any fun node =>
    decide (near_radius (node.x * node.x + node.z * node.z) radius tol)

/-- The body of the boundary-id loop of the 3D `make_grid` for one face
(`Rod.h`, lines 160-189). No branch raises. -/
def set_boundary_id_3d (tol half_length radius : ℚ) (f : Face) : Except MeshError Face :=
  if f.at_boundary then
    if |f.center.coord .x - 0| < tol then
      .ok { f with boundary_id := .id .id_boundary_xMinus }
    else if |f.center.coord .y - 0| < tol then
      .ok { f with boundary_id := .id .id_boundary_yMinus }
    else if |f.center.coord .z - 0| < tol then
      .ok { f with boundary_id := .id .id_boundary_zMinus }
    else if |f.center.coord .y - half_length| < tol then
      .ok { f with boundary_id := .id .id_boundary_yPlus }
    else if face_vertex_on_surface tol radius f then
      .ok { f with boundary_id := .id .id_boundary_zPlus }
    else
      .ok f
  else
    .ok f

/-- The boundary-id pass of the 3D `make_grid` (lines 154-190). -/
def set_boundary_IDs_3d (tol half_length radius : ℚ) (tria : Triangulation) :
    Except MeshError Triangulation :=
  for_cells_faces (faces_per_cell 3) (set_boundary_id_3d tol half_length radius) tria

/-- The body of the boundary-id loop of the 2D `make_grid` for one face
(`Rod.h`, lines 565-579): four tests, no final `else`. -/
def set_boundary_id_2d (tol half_length radius : ℚ) (f : Face) : Except MeshError Face :=
  if f.at_boundary then
    if |f.center.coord .x - 0| < tol then
      .ok { f with boundary_id := .id .id_boundary_xMinus }
    else if |f.center.coord .x - radius| < tol then
      .ok { f with boundary_id := .id .id_boundary_xPlus }
    else if |f.center.coord .y - 0| < tol then
      .ok { f with boundary_id := .id .id_boundary_yMinus }
    else if |f.center.coord .y - half_length| < tol then
      .ok { f with boundary_id := .id .id_boundary_yPlus }
    else
      .ok f
  else
    .ok f

/-- The boundary-id pass of the 2D `make_grid` (lines 559-580). -/
def set_boundary_IDs_2d (tol half_length radius : ℚ) (tria : Triangulation) :
    Except MeshError Triangulation :=
  for_cells_faces (faces_per_cell 2) (set_boundary_id_2d tol half_length radius) tria

end Rod

/-! ## Quarter plate with hole -/

namespace QuarterHyperCube_Merged

/-- The field `parameterCollection::search_tolerance = 1e-12`. -/
def search_tolerance : ℚ := 1 / 10 ^ 12

/-- The field `parameterCollection::manifold_id_hole = 10`. -/
def manifold_id_hole : ℕ := 10

/-- The vertex loop of the 2D `make_grid` (lines 435-440 and 444-449): some
`cell->vertex(v)` with `v < vertices_per_face` has
`std::abs(distance(centre) - holeRadius) < tol`, `centre = (0,0)`. The loop reads the
vertices of the cell, in the cell's local numbering. -/
def vertex_on_hole_2d (tol holeRadius : ℚ) (cell_vertices : List Point) : Bool :=
  (cell_vertices.take (vertices_per_face 2)).any fun v =>
    decide (near_radius (v.distance_sq ⟨0, 0, 0⟩) holeRadius tol)

/-- The vertex loop of the 3D `make_grid` (lines 637-647 and 651-662): the vertex
`cell->vertex(v)`, `v < vertices_per_face`, is projected to `z = 0` before the distance
from `centre = (0,0,0)` is taken. -/
def vertex_on_hole_3d (tol holeRadius : ℚ) (cell_vertices : List Point) : Bool :=
  (cell_vertices.take (vertices_per_face 3)).any fun v =>
    decide (near_radius (Point.distance_sq ⟨v.x, v.y, 0⟩ ⟨0, 0, 0⟩) holeRadius tol)

/-- The tracking loop under the y-minus branch of the 2D builder (lines 417-426). -/
def vertex_at_hole_foot_2d (tol holeRadius : ℚ) (cell_vertices : List Point) : Bool :=
  (cell_vertices.take (vertices_per_face 2)).any fun v =>
    decide (|v.coord .y - 0| < tol) && decide (|v.coord .x - holeRadius| < tol)

/-- The tracking loop under the y-minus branch of the 3D builder (lines 611-621). -/
def vertex_at_hole_foot_3d (tol holeRadius : ℚ) (cell_vertices : List Point) : Bool :=
  (cell_vertices.take (vertices_per_face 3)).any fun v =>
    decide (|v.coord .y - 0| < tol) && decide (|v.coord .z - 0| < tol)
      && decide (|v.coord .x - holeRadius| < tol)

/-- The manifold part of the loop body (2D lines 444-449, 3D lines 651-662). -/
def set_manifold_id (on_hole : Bool) (f : Face) : Face :=
  if on_hole then { f with manifold_id := some manifold_id_hole } else f

/-- The if-chain "Set boundary IDs" of the 2D `make_grid` for one boundary face
(lines 405-441). `width` is `ratio_width_To_holeRadius = parameter.width`. The result is
the face and whether the cell was marked `tracked_QP`. -/
def set_boundary_id_2d (tol width holeRadius : ℚ) (cell_vertices : List Point) (f : Face) :
    Face × Bool :=
  if |f.center.coord .x - 0| < tol then
    ({ f with boundary_id := .id .id_boundary_xMinus }, false)
  else if |f.center.coord .x - width| < tol then
    ({ f with boundary_id := .id .id_boundary_xPlus }, false)
  else if |f.center.coord .y - 0| < tol then
    ({ f with boundary_id := .id .id_boundary_yMinus },
      vertex_at_hole_foot_2d tol holeRadius cell_vertices)
  else if |f.center.coord .y - width| < tol then
    ({ f with boundary_id := .id .id_boundary_yPlus }, false)
  else if vertex_on_hole_2d tol holeRadius cell_vertices then
    ({ f with boundary_id := .boundary_id_hole }, false)
  else
    (f, false)

/-- The body of the loop of the 2D `make_grid` for one face of one cell (lines 402-450):
for a boundary face the if-chain, then the manifold loop. -/
def set_ids_face_2d (tol width holeRadius : ℚ) (cell_vertices : List Point) (f : Face) :
    Face × Bool :=
  if f.at_boundary then
    ((set_manifold_id (vertex_on_hole_2d tol holeRadius cell_vertices)
        (set_boundary_id_2d tol width holeRadius cell_vertices f).1),
      (set_boundary_id_2d tol width holeRadius cell_vertices f).2)
  else
    (f, false)

/-- The if-chain "Set boundary IDs" of the 3D `make_grid` for one boundary face
(lines 600-648). `half_thickness` is `parameter.thickness/2.0`. -/
def set_boundary_id_3d (tol width half_thickness holeRadius : ℚ) (cell_vertices : List Point)
    (f : Face) : Face × Bool :=
  if |f.center.coord .x - 0| < tol then
    ({ f with boundary_id := .id .id_boundary_xMinus }, false)
  else if |f.center.coord .x - width| < tol then
    ({ f with boundary_id := .id .id_boundary_xPlus }, false)
  else if |f.center.coord .y - 0| < tol then
    ({ f with boundary_id := .id .id_boundary_yMinus },
      vertex_at_hole_foot_3d tol holeRadius cell_vertices)
  else if |f.center.coord .y - width| < tol then
    ({ f with boundary_id := .id .id_boundary_yPlus }, false)
  else if |f.center.coord .z - 0| < tol then
    ({ f with boundary_id := .id .id_boundary_zMinus }, false)
  else if |f.center.coord .z - half_thickness| < tol then
    ({ f with boundary_id := .id .id_boundary_zPlus }, false)
  else if vertex_on_hole_3d tol holeRadius cell_vertices then
    ({ f with boundary_id := .boundary_id_hole }, false)
  else
    (f, false)

/-- The body of the loop of the 3D `make_grid` for one face of one cell (lines 597-663):
for a boundary face the if-chain, then the manifold loop. -/
def set_ids_face_3d (tol width half_thickness holeRadius : ℚ) (cell_vertices : List Point)
    (f : Face) : Face × Bool :=
  if f.at_boundary then
    ((set_manifold_id (vertex_on_hole_3d tol holeRadius cell_vertices)
        (set_boundary_id_3d tol width half_thickness holeRadius cell_vertices f).1),
      (set_boundary_id_3d tol width half_thickness holeRadius cell_vertices f).2)
  else
    (f, false)

/-- The loop over the faces `0 .. n-1` of one cell with a loop body that reads the
cell's vertices and may mark the cell. No loop body of the quarter plate raises. -/
def for_faces_of_cell (n : ℕ) (body : List Point → Face → Face × Bool) (cell : Cell) : Cell :=
  { cell with
    faces := (cell.faces.take n).map (fun f => (body cell.vertices f).1) ++ cell.faces.drop n,
    tracked := cell.tracked || (cell.faces.take n).any fun f => (body cell.vertices f).2 }

/-- The pass "Set boundary IDs and manifolds" of the 2D `make_grid` (lines 397-451). -/
def set_ids_2d (tol width holeRadius : ℚ) (tria : Triangulation) :
    Except MeshError Triangulation :=
  .ok (tria.map (for_faces_of_cell (faces_per_cell 2) (set_ids_face_2d tol width holeRadius)))

/-- The pass "Set boundary IDs and manifolds" of the 3D `make_grid` (lines 592-664). -/
def set_ids_3d (tol width half_thickness holeRadius : ℚ) (tria : Triangulation) :
    Except MeshError Triangulation :=
  .ok (tria.map
    (for_faces_of_cell (faces_per_cell 3) (set_ids_face_3d tol width half_thickness holeRadius)))

end QuarterHyperCube_Merged

/-! ## HyperRectangle, 3D -/

namespace HyperRectangle

/-- The body of the z-tagging loop of the 3D `make_grid` for one face
(`HyperRectangle.h`, lines 508-514). -/
def set_boundary_id_z (tol : ℚ) (body_dimensions : enum_coord → ℚ) (f : Face) :
    Except MeshError Face :=
  if f.at_boundary then
    if |f.center.coord .z - 0| < tol then
      .ok { f with boundary_id := .id .id_boundary_zMinus }
    else if |f.center.coord .z - body_dimensions .z| < tol then
      .ok { f with boundary_id := .id .id_boundary_zPlus }
    else
      .ok f
  else
    .ok f

/-- The z-tagging pass of the 3D `make_grid` (lines 503-515). The face loop of the
source runs `face < GeometryInfo<2>::faces_per_cell`. -/
def set_boundary_IDs_z (tol : ℚ) (body_dimensions : enum_coord → ℚ) (tria : Triangulation) :
    Except MeshError Triangulation :=
  for_cells_faces (faces_per_cell 2) (set_boundary_id_z tol body_dimensions) tria

end HyperRectangle

/-! ## Cell removal -/

/-- The centroid `cell->center()` of a cell: the mean of its vertices. -/
def Cell.center (c : Cell) : Point :=
  ⟨(c.vertices.map Point.x).sum / c.vertices.length,
   (c.vertices.map Point.y).sum / c.vertices.length,
   (c.vertices.map Point.z).sum / c.vertices.length⟩

/-- Modelled from the spec: the toolkit primitive
`GridGenerator::create_triangulation_with_removed_cells` (external collaborator): the
triangulation of the cells that are not in `cells_to_remove`. -/
def create_triangulation_with_removed_cells (tria : Triangulation)
    (cells_to_remove : Cell → Bool) : Triangulation :=
  tria.filter fun c => !cells_to_remove c

/-- A removal step guarded by both assertions
`Assert(cells_to_remove.size() > 0)` and
`Assert(cells_to_remove.size() != tria.n_active_cells())`; the assertions are taken as
executed (debug build of the toolkit). -/
def remove_cells_checked (tria : Triangulation) (cells_to_remove : Cell → Bool) :
    Except MeshError Triangulation :=
  if ¬ ((tria.filter cells_to_remove).length > 0) then .error .internal_error
  else if ¬ ((tria.filter cells_to_remove).length ≠ tria.length) then .error .internal_error
  else .ok (create_triangulation_with_removed_cells tria cells_to_remove)

namespace Rod

/-- The removal step of the 3D `make_grid` (`Rod.h`, lines 134-146): everything outside
the positive octant goes. -/
def remove_outside_octant (tria_full_cylinder : Triangulation) : Except MeshError Triangulation :=
  remove_cells_checked tria_full_cylinder fun cell =>
    decide (cell.center.coord .x < 0) || decide (cell.center.coord .y < 0)
      || decide (cell.center.coord .z < 0)

end Rod

namespace QuarterHyperCube_Merged

/-- First removal step of `make_2d_quarter_plate_with_hole` (lines 129-141): everything
outside the first quadrant goes. -/
def remove_outside_quadrant (tria_plate_hole : Triangulation) : Except MeshError Triangulation :=
  remove_cells_checked tria_plate_hole fun cell =>
    decide (cell.center.coord .x < 0) || decide (cell.center.coord .y < 0)

/-- Removal of the bottom-left cell of the outer plate, `hole_division_fraction == 1`
branch (lines 161-175). -/
def remove_bottom_left (width : ℚ) (tria_plate : Triangulation) : Except MeshError Triangulation :=
  remove_cells_checked tria_plate fun cell =>
    decide (cell.center.coord .x < width / 2) && decide (cell.center.coord .y < width / 2)

/-- Removal of the bottom-left cell of the outer plate, `else` branch (lines 273-285). -/
def remove_bottom_left_internal (internal_width : ℚ) (tria_plate : Triangulation) :
    Except MeshError Triangulation :=
  remove_cells_checked tria_plate fun cell =>
    decide (cell.center.coord .x < internal_width / 2)
      && decide (cell.center.coord .y < internal_width / 2)

/-- The removal condition of the final step (line 223): the cell centre lies beyond
`width/2` in x or in y. -/
def is_dummy_cell (width : ℚ) (cell : Cell) : Bool :=
  decide (cell.center.coord .x > width / 2) || decide (cell.center.coord .y > width / 2)

/-- Final removal of the dummy cells, `hole_division_fraction == 1` branch
(lines 216-228). The source has the single assertion
`Assert(cells_to_remove.size() > 0)` here. -/
def remove_dummy_cells (width : ℚ) (tria_2d : Triangulation) : Except MeshError Triangulation :=
  if ¬ ((tria_2d.filter (is_dummy_cell width)).length > 0) then .error .internal_error
  else .ok (create_triangulation_with_removed_cells tria_2d (is_dummy_cell width))

end QuarterHyperCube_Merged

/-! ## Boundary conditions -/

/-- Modelled from the spec: one call of the missing helpers `numEx::BC_apply`
(`component = some c`, the value given) or `numEx::BC_apply_fix` (`component = none`,
all components held at 0): the face tag, the constrained component and the value
(spec §6, "which DOF components to constrain to 0 (or to the current load increment)
on which face"). -/
structure Constraint where
  boundary : enum_boundary_ids
  component : Option enum_coord
  value : ℚ
  deriving DecidableEq

/-- Modelled from the spec: `numEx::BC_apply(id, component, value, ...)` appends its
constraint to the constraint object. -/
def BC_apply (id : enum_boundary_ids) (component : enum_coord) (value : ℚ)
    (constraints : List Constraint) : List Constraint :=
  constraints ++ [⟨id, some component, value⟩]

/-- Modelled from the spec: `numEx::BC_apply_fix(id, ...)` clamps the face. -/
def BC_apply_fix (id : enum_boundary_ids) (constraints : List Constraint) : List Constraint :=
  constraints ++ [⟨id, none, 0⟩]

/-- Run `step` on the constraints when the condition holds. -/
def when_do (c : Prop) [Decidable c] (step : List Constraint → List Constraint)
    (constraints : List Constraint) : List Constraint :=
  if c then step constraints else constraints

namespace HyperRectangle

/-- The namespace-level constants that `make_constraints` reads. -/
structure Settings where
  loading_direction : enum_coord
  id_boundary_load : enum_boundary_ids
  BC_xMinus : enum_BC
  BC_yPlus : enum_BC
  BC_yMinus : enum_BC
  BC_zMinus : enum_BC
  constrain_sideways_sliding_of_loaded_face : Bool
  apply_sym_constraint_on_top_face : Bool

/-- The values the constants have in `HyperRectangle.h` (lines 32-64). -/
def configured : Settings :=
  { loading_direction := .y
    id_boundary_load := .id_boundary_yPlus
    BC_xMinus := .BC_sym
    BC_yPlus := .BC_none
    BC_yMinus := .BC_sym
    BC_zMinus := .BC_sym
    constrain_sideways_sliding_of_loaded_face := false
    apply_sym_constraint_on_top_face := false }

/-- The function `make_constraints` (`HyperRectangle.h`, lines 105-144), starting from the
constraint object `constraints`. -/
def make_constraints (s : Settings) (dim : ℕ) (driver : enum_driver)
    (current_load_increment : ℚ) (constraints : List Constraint) : List Constraint :=
  let c1 := when_do (s.BC_xMinus = .BC_sym) (BC_apply .id_boundary_xMinus .x 0) constraints
  let c2 :=
    if s.BC_yMinus = .BC_fix then BC_apply_fix .id_boundary_yMinus c1
    else if s.BC_yMinus = .BC_sym then BC_apply .id_boundary_yMinus .y 0 c1
    else c1
  let c3 :=
    if dim = 3 then
      when_do (s.apply_sym_constraint_on_top_face = true) (BC_apply .id_boundary_zPlus .z 0)
        (when_do (s.BC_zMinus = .BC_sym) (BC_apply .id_boundary_zMinus .z 0) c2)
    else c2
  let c4 :=
    when_do (s.constrain_sideways_sliding_of_loaded_face = true ∧ s.BC_yPlus = .BC_x0)
      (BC_apply .id_boundary_yPlus .x 0) c3
  when_do (driver = .Dirichlet)
    (BC_apply s.id_boundary_load s.loading_direction current_load_increment) c4

end HyperRectangle

namespace Rod

/-- The namespace-level constants that `make_constraints` reads. -/
structure Settings where
  loading_direction : enum_coord
  id_boundary_load : enum_boundary_ids
  BC_xMinus : enum_BC
  BC_xPlus : enum_BC
  BC_yPlus : enum_BC

/-- The values the constants have in `Rod.h` (lines 27-46). -/
def configured : Settings :=
  { loading_direction := .y
    id_boundary_load := .id_boundary_yPlus
    BC_xMinus := .BC_x0
    BC_xPlus := .BC_none
    BC_yPlus := .BC_none }

/-- The function `make_constraints` (`Rod.h`, lines 732-770). -/
def make_constraints (s : Settings) (dim : ℕ) (driver : enum_driver)
    (current_load_increment : ℚ) (constraints : List Constraint) : List Constraint :=
  let c1 := when_do (s.BC_xMinus = .BC_x0) (BC_apply .id_boundary_xMinus .x 0) constraints
  let c2 := when_do (s.BC_xPlus = .BC_x0) (BC_apply .id_boundary_xPlus .x 0) c1
  let c3 := BC_apply .id_boundary_yMinus .y 0 c2
  let c4 := when_do (dim = 3) (BC_apply .id_boundary_zMinus .z 0) c3
  let c5 :=
    if s.BC_yPlus = .BC_x0_z0 then
      when_do (dim = 3) (BC_apply .id_boundary_yPlus .z 0) (BC_apply .id_boundary_yPlus .x 0 c4)
    else if s.BC_yPlus = .BC_y0 then BC_apply .id_boundary_yPlus .y 0 c4
    else c4
  when_do (driver = .Dirichlet)
    (BC_apply s.id_boundary_load s.loading_direction current_load_increment) c5

end Rod

namespace QuarterHyperCube_Merged

/-- The namespace-level constants that `make_constraints` reads. -/
structure Settings where
  loading_direction : enum_coord
  id_boundary_load : enum_boundary_ids
  BC_xMinus : enum_BC
  BC_xPlus : enum_BC
  apply_sym_constraint_on_top_face : Bool

/-- The values the constants have in `QuarterHyperCube_Merged.h` (lines 28-45). -/
def configured : Settings :=
  { loading_direction := .y
    id_boundary_load := .id_boundary_yPlus
    BC_xMinus := .BC_sym
    BC_xPlus := .BC_none
    apply_sym_constraint_on_top_face := false }

/-- The function `make_constraints` (`QuarterHyperCube_Merged.h`, lines 56-102). -/
def make_constraints (s : Settings) (dim : ℕ) (driver : enum_driver)
    (current_load_increment : ℚ) (constraints : List Constraint) : List Constraint :=
  let c1 := when_do (s.BC_xMinus = .BC_sym) (BC_apply .id_boundary_xMinus .x 0) constraints
  let c2 := when_do (s.BC_xPlus = .BC_sym) (BC_apply .id_boundary_xPlus .x 0) c1
  let c3 := BC_apply .id_boundary_yMinus .y 0 c2
  let c4 :=
    if dim = 3 then
      when_do (s.apply_sym_constraint_on_top_face = true) (BC_apply .id_boundary_zPlus .z 0)
        (BC_apply .id_boundary_zMinus .z 0 c3)
    else c3
  when_do (driver = .Dirichlet)
    (BC_apply s.id_boundary_load s.loading_direction current_load_increment) c4

end QuarterHyperCube_Merged

/-! ## Specification-side predicates -/

/-- The side a boundary face of the brick `[0,W]x[0,L]` lies on, read off its centroid,
matches its tag. -/
def on_side_with_tag (W L : ℚ) (f : Face) : Prop :=
  (f.center.x = 0 → f.boundary_id = .id .id_boundary_xMinus)
  ∧ (f.center.x = W → f.boundary_id = .id .id_boundary_xPlus)
  ∧ (f.center.y = 0 → f.boundary_id = .id .id_boundary_yMinus)
  ∧ (f.center.y = L → f.boundary_id = .id .id_boundary_yPlus)
  ∧ (f.center.x = 0 ∨ f.center.x = W ∨ f.center.y = 0 ∨ f.center.y = L)

instance (W L : ℚ) (f : Face) : Decidable (on_side_with_tag W L f) := by
  unfold on_side_with_tag
  infer_instance

/-- The body dimensions `(W, L, T)` of a 3D body as the vector `body_dimensions`. -/
def dims3 (W L T : ℚ) : enum_coord → ℚ
  | .x => W
  | .y => L
  | .z => T

/-- Tests the vertices of the face itself against the hole radius (spec §4.1: "any
face vertex lies at distance ≈ target-radius from the curve's center"). -/
def face_vertex_on_hole (tol holeRadius : ℚ) (f : Face) : Bool :=
  f.vertices.any fun v => decide (near_radius (v.distance_sq ⟨0, 0, 0⟩) holeRadius tol)

/-! ## Concrete meshes used as test inputs -/

/-- A quadrilateral cell in the toolkit's local numbering: face 0 joins vertices 0 and 2,
face 1 joins 1 and 3, face 2 joins 0 and 1, face 3 joins 2 and 3. -/
def quad_cell (v0 v1 v2 v3 : Point) (b0 b1 b2 b3 : Bool) : Cell :=
  { vertices := [v0, v1, v2, v3],
    faces := [line_face v0 v2 b0, line_face v1 v3 b1, line_face v0 v1 b2, line_face v2 v3 b3],
    tracked := false }

/-- A cell of a ring mesh around the hole of radius 1, numbered as the toolkit numbers
shell cells: vertices 0 and 1 on the outer ring, vertices 2 and 3 on the hole. Face 3
is the hole edge, face 0 lies on `y = 0`, face 1 on `x = 0`, face 2 is interior. -/
def hole_cell : Cell :=
  quad_cell ⟨2, 0, 0⟩ ⟨0, 2, 0⟩ ⟨1, 0, 0⟩ ⟨0, 1, 0⟩ true true false true

/-- The same quadrilateral numbered the other way round: vertices 0 and 1 on the hole,
face 3 (joining `(2,0)` and `(0,2)`) an outer boundary edge away from the hole. -/
def hole_cell_reversed : Cell :=
  quad_cell ⟨1, 0, 0⟩ ⟨0, 1, 0⟩ ⟨2, 0, 0⟩ ⟨0, 2, 0⟩ true true true true

/-- A planar face of a hexahedron with the four given vertices. -/
def quad_face (a b c d : Point) (bd : Bool) (id : boundary_id) : Face :=
  { center := ⟨(a.x + b.x + c.x + d.x) / 4, (a.y + b.y + c.y + d.y) / 4,
               (a.z + b.z + c.z + d.z) / 4⟩,
    vertices := [a, b, c, d], at_boundary := bd, boundary_id := id, manifold_id := none }

/-- The unit cube as a single hexahedral cell in the toolkit's local numbering (faces
x = 0, x = 1, y = 0, y = 1, z = 0, z = 1), as the extrusion of a one-cell flat mesh
hands it to the z-tagging pass: the side faces carry the tags of the flat mesh, the
bottom and top face carry the id `bottom` resp. `top` that the extrusion left. -/
def unit_hex (bottom top : boundary_id) : Cell :=
  { vertices := [⟨0, 0, 0⟩, ⟨1, 0, 0⟩, ⟨0, 1, 0⟩, ⟨1, 1, 0⟩,
                 ⟨0, 0, 1⟩, ⟨1, 0, 1⟩, ⟨0, 1, 1⟩, ⟨1, 1, 1⟩],
    faces := [quad_face ⟨0, 0, 0⟩ ⟨0, 1, 0⟩ ⟨0, 0, 1⟩ ⟨0, 1, 1⟩ true (.id .id_boundary_xMinus),
              quad_face ⟨1, 0, 0⟩ ⟨1, 1, 0⟩ ⟨1, 0, 1⟩ ⟨1, 1, 1⟩ true (.id .id_boundary_xPlus),
              quad_face ⟨0, 0, 0⟩ ⟨0, 0, 1⟩ ⟨1, 0, 0⟩ ⟨1, 0, 1⟩ true (.id .id_boundary_yMinus),
              quad_face ⟨0, 1, 0⟩ ⟨0, 1, 1⟩ ⟨1, 1, 0⟩ ⟨1, 1, 1⟩ true (.id .id_boundary_yPlus),
              quad_face ⟨0, 0, 0⟩ ⟨1, 0, 0⟩ ⟨0, 1, 0⟩ ⟨1, 1, 0⟩ true bottom,
              quad_face ⟨0, 0, 1⟩ ⟨1, 0, 1⟩ ⟨0, 1, 1⟩ ⟨1, 1, 1⟩ true top],
    tracked := false }

/-- A single square cell `[2,4] x [2,4]`, all of whose faces lie at the boundary. -/
def far_cell : Cell :=
  quad_cell ⟨2, 2, 0⟩ ⟨4, 2, 0⟩ ⟨2, 4, 0⟩ ⟨4, 4, 0⟩ true true true true

/-- The issued constraint at position `i` has the value `current_load_increment`:
`issued` is the constraint list as a function of the load increment the builder is
called with, and whatever that increment is, the value at position `i` is the
increment. A constraint issued with the literal `0` is not of this kind, also when the
increment happens to be `0`. -/
def has_value_current_load_increment (issued : ℚ → List Constraint) (i : ℕ) : Prop :=
  ∀ load : ℚ, ((issued load)[i]?).map Constraint.value = some load

/-- The load statement of the boundary-condition builders for the constraint list
`issued` as a function of the load increment: a constraint with value
`current_load_increment` is issued iff the driver is Dirichlet, a constraint with that
value is the constraint (y-plus, y, `current_load_increment`), there is at most one, and
every other issued constraint has value 0. -/
def load_constraint_statement (driver : enum_driver) (issued : ℚ → List Constraint) : Prop :=
  ((∃ i, has_value_current_load_increment issued i) ↔ driver = .Dirichlet)
  ∧ (∀ i, has_value_current_load_increment issued i →
      ∀ load, (issued load)[i]? = some ⟨.id_boundary_yPlus, some .y, load⟩)
  ∧ (∀ i j, has_value_current_load_increment issued i →
      has_value_current_load_increment issued j → i = j)
  ∧ (∀ i, ¬ has_value_current_load_increment issued i →
      ∀ load c, (issued load)[i]? = some c → c.value = 0)

/-! ## Parameters and notches -/

namespace enums

/-- Modelled from the spec: the notch types `enums::notch_linear`, `enums::notch_round` of
the missing header (spec §3, `notch_type: {linear, round}`). -/
inductive enum_notch_type
  | notch_linear | notch_round
  deriving DecidableEq, Repr

/-- Modelled from the spec: the "special refinement" strategy selector of the missing
header (spec §6); the members are the ones the three source files name. -/
inductive enum_refine_special
  | Mesh_refine_special_standard
  | Mesh_refine_special_innermost
  | Mesh_refine_uniform
  | Mesh_refine_none
  | Mesh_refine_special_Simo
  | Rod_refine_special_uniform
  | Mesh_Rod_Upsetting_tapered
  | Mesh_Rod_ax_ratio_EL
  | Mesh_HyperRectangle_coarse_and_fine_brick
  deriving DecidableEq, Repr

end enums

namespace Parameter

/-- Modelled from the spec: the configuration record `Parameter::GeneralParameters`
(spec §6), with the fields the three source files read. `refine_special` is the value
as the enumerator it is compared with. -/
structure GeneralParameters where
  width : ℚ
  height : ℚ
  thickness : ℚ
  holeRadius : ℚ
  notchWidth : ℚ
  ratio_x : ℚ
  nbr_global_refinements : ℕ
  nbr_holeEdge_refinements : ℕ
  grid_y_repetitions : ℕ
  nbr_elementsInZ : ℕ
  refine_special : enum_refine_special
  driver : enum_driver
  stepwise_global_refinement : Bool

end Parameter

/-- Modelled from the spec: the fields of `numEx::NotchClass` of the missing helper
header, in the order the source passes them to its constructor (spec §3,
NotchSpecification): type, notch length, depth, reference point, tag of the notched
face, outward face normal, loading axis, manifold id. The record is the argument list of
the constructor and, once `NotchClass.construct` has accepted it, the constructed
notch. -/
structure NotchClass where
  notch_type : enum_notch_type
  length : ℚ
  depth : ℚ
  reference_point : Point
  boundary_tag : enum_boundary_ids
  face_normal : Point
  loading_axis : enum_coord
  manifold_id : ℕ
  deriving DecidableEq

/-- Modelled from the spec: the failure condition of the notch (§4.2, failure
semantics): "both variants fail when `half_width ≤ 0`, when `depth < 0`, or (round only)
when `depth > half_width`". -/
def notch_geometry_invalid (notch_type : enum_notch_type) (half_width depth : ℚ) : Prop :=
  half_width ≤ 0 ∨ depth < 0 ∨ (notch_type = .notch_round ∧ depth > half_width)

instance (notch_type : enum_notch_type) (half_width depth : ℚ) :
    Decidable (notch_geometry_invalid notch_type half_width depth) := by
  unfold notch_geometry_invalid
  infer_instance

/-- Modelled from the spec: the constructor of `numEx::NotchClass` of the missing helper
header (§4.2 failure semantics, §8 item 4: "constructing a NotchSpecification with
`depth = 10, half_width = 5` must raise `InvalidNotchGeometry`"): an invalid geometry is
rejected, otherwise the notch is the record of the arguments. The half width is half the
notch length. -/
def NotchClass.construct (arguments : NotchClass) : Except MeshError NotchClass :=
  if notch_geometry_invalid arguments.notch_type (arguments.length / 2) arguments.depth then
    .error .invalid_notch_geometry
  else .ok arguments

/-- Modelled from the spec: the linear notch profile (§4.2),
`Offset(s) = depth · (1 − s/half_width)`, clamped to `[0, depth]`. -/
def linear_offset (depth half_width s : ℚ) : ℚ :=
  max 0 (min depth (depth * (1 - s / half_width)))

/-- Modelled from the spec: the round notch profile (§4.2, §8 item 3). The contour is
the arc of the circle of radius `R` that reaches `reference_radius − depth` at `s = 0`
and meets the undisturbed surface at `s = half_width`; `R − √(R² − s²)` is the height
of that arc above its deepest point, so the inward offset from the undisturbed surface
is `Offset(s) = depth − (R − √(R² − s²))` for `s ≤ half_width`, else 0. The statement
"`o` is `Offset(s)`" is written without the root: `o − depth + R` is the non-negative
number whose square is `R² − s²` (see `is_round_offset_iff_sqrt`). -/
def is_round_offset (depth R half_width s o : ℚ) : Prop :=
  if s ≤ half_width then 0 ≤ o - depth + R ∧ (o - depth + R) ^ 2 = R ^ 2 - s ^ 2 else o = 0

instance (depth R half_width s o : ℚ) : Decidable (is_round_offset depth R half_width s o) := by
  unfold is_round_offset
  infer_instance

/-- The round profile with the formula read as it is printed in spec §4.2 and §8
item 3, `Offset(s) = R − √(R² − s²)` for `s ≤ half_width`, else 0, written without the
root: `R − o` is the non-negative number whose square is `R² − s²` (see
`is_round_offset_as_printed_iff_sqrt`). -/
def is_round_offset_as_printed (R half_width s o : ℚ) : Prop :=
  if s ≤ half_width then o ≤ R ∧ (R - o) ^ 2 = R ^ 2 - s ^ 2 else o = 0

instance (R half_width s o : ℚ) : Decidable (is_round_offset_as_printed R half_width s o) := by
  unfold is_round_offset_as_printed
  infer_instance

/-- Modelled from the spec: the mutation contract of the linear notch (§4.2, §8 item 6)
for one vertex. `s` is the axial distance of the vertex from the reference point along
the loading axis; a vertex of the notched face (in the plane through the reference
point with normal `face_normal`) whose `s` is at most `half_width` is moved against
`face_normal` by `Offset(s)`; every other vertex stays. -/
def notch_vertex_linear (n : NotchClass) (half_width : ℚ) (v : Point) : Point :=
  if (v.x - n.reference_point.x) * n.face_normal.x + (v.y - n.reference_point.y) * n.face_normal.y
      + (v.z - n.reference_point.z) * n.face_normal.z = 0
      ∧ |v.coord n.loading_axis - n.reference_point.coord n.loading_axis| ≤ half_width then
    ⟨v.x - linear_offset n.depth half_width
        |v.coord n.loading_axis - n.reference_point.coord n.loading_axis| * n.face_normal.x,
     v.y - linear_offset n.depth half_width
        |v.coord n.loading_axis - n.reference_point.coord n.loading_axis| * n.face_normal.y,
     v.z - linear_offset n.depth half_width
        |v.coord n.loading_axis - n.reference_point.coord n.loading_axis| * n.face_normal.z⟩
  else v

/-- Modelled from the spec: the helpers `numEx::prepare_tria_for_notching` and
`numEx::notch_body` of the missing header, taken as parameters of the builders. -/
structure NotchHelpers (α : Type) where
  prepare_tria_for_notching : NotchClass → Triangulation → Except MeshError Triangulation
  notch_body : α → Triangulation → Except MeshError Triangulation

namespace Rod

/-- The constant `notch_type` of `Rod.h` (line 38). -/
def notch_type : enum_notch_type := .notch_linear

/-- The local `half_length = parameter.width/2.` (lines 90, 497). -/
def half_length (parameter : Parameter.GeneralParameters) : ℚ := parameter.width / 2

/-- The local `radius = parameter.holeRadius` (lines 91, 498). -/
def radius (parameter : Parameter.GeneralParameters) : ℚ := parameter.holeRadius

/-- The local `half_notch_length = parameter.notchWidth/2.` (lines 92, 499). -/
def half_notch_length (parameter : Parameter.GeneralParameters) : ℚ := parameter.notchWidth / 2

/-- The local `notch_radius = parameter.ratio_x * radius` (lines 93, 500). -/
def notch_radius (parameter : Parameter.GeneralParameters) : ℚ :=
  parameter.ratio_x * radius parameter

/-- The radius `R` of the notch (lines 107-108, 505-506, 808-809) from the locals
`half_notch_length`, `radius`, `notch_radius`, for `radius ≠ notch_radius`; where the two
are equal the source divides by zero, see `R_local`. -/
def R (half_notch_length radius notch_radius : ℚ) : ℚ :=
  (half_notch_length * half_notch_length + (radius - notch_radius) * (radius - notch_radius))
    / (2 * (radius - notch_radius))

/-- The value of the local `R` (lines 107-108, 505-506, 808-809) for every input: the
quotient `R` when `radius ≠ notch_radius`, and no number (`inf` or `NaN` of the
division by zero, which raises nothing) when `radius = notch_radius`. -/
def R_local (half_notch_length radius notch_radius : ℚ) : Option ℚ :=
  if radius - notch_radius = 0 then none else some (R half_notch_length radius notch_radius)

/-- The arguments of the call
`numEx::notch_body(triangulation, half_notch_length, radius, notch_radius, R, notch_type, true)`. -/
structure NotchArgs where
  half_notch_length : ℚ
  radius : ℚ
  notch_radius : ℚ
  R : Option ℚ
  notch_type : enum_notch_type
  notch_rot_sym : Bool
  deriving DecidableEq

/-- The argument list the builders hand to `notch_body` for a parameter record. -/
def notch_args (parameter : Parameter.GeneralParameters) : NotchArgs :=
  { half_notch_length := half_notch_length parameter
    radius := radius parameter
    notch_radius := notch_radius parameter
    R := R_local (half_notch_length parameter) (radius parameter) (notch_radius parameter)
    notch_type := notch_type
    notch_rot_sym := true }

/-- Modelled from the spec: the failure semantics of §4.2 as a property of the missing
helper `notch_body` of the rod: called with an invalid geometry (half width
`half_notch_length`, depth `radius − notch_radius`) it raises `InvalidNotchGeometry` and
returns no mesh. -/
def fails_fast (helpers : NotchHelpers NotchArgs) : Prop :=
  ∀ (arguments : NotchArgs) (tria : Triangulation),
    notch_geometry_invalid arguments.notch_type arguments.half_notch_length
        (arguments.radius - arguments.notch_radius) →
      helpers.notch_body arguments tria = .error .invalid_notch_geometry

/-- Modelled from the spec: notch helpers for the rod that meet the failure semantics of
§4.2: an invalid geometry is rejected before anything is done, a valid one is handed to
`move`, the relocation of the vertices. -/
def validating_helpers (move : NotchArgs → Triangulation → Triangulation) :
    NotchHelpers NotchArgs :=
  { prepare_tria_for_notching := fun _ tria => .ok tria
    notch_body := fun arguments tria =>
      if notch_geometry_invalid arguments.notch_type arguments.half_notch_length
          (arguments.radius - arguments.notch_radius) then .error .invalid_notch_geometry
      else .ok (move arguments tria) }

/-- The local `n_additional_refinements` of the 3D builder (lines 95-101). -/
def n_additional_refinements (parameter : Parameter.GeneralParameters) : ℕ :=
  if parameter.refine_special = .Mesh_refine_special_innermost then 4
  else parameter.nbr_holeEdge_refinements

/-- The assertion `Assert(n_additional_refinements>0, ...)` of the 3D builder (line 115),
taken as executed. -/
def make_grid_3d_assert (parameter : Parameter.GeneralParameters) : Except MeshError Unit :=
  if ¬ (n_additional_refinements parameter > 0) then .error .not_implemented else .ok ()

/-- The guard of the 2D builder (lines 521-524): under `Mesh_refine_special_standard`,
`if (nbr_holeEdge_refinements == 0) AssertThrow(nbr_holeEdge_refinements > 0, ...)`. -/
def make_grid_2d_assert (parameter : Parameter.GeneralParameters) : Except MeshError Unit :=
  if parameter.refine_special = .Mesh_refine_special_standard then
    if parameter.nbr_holeEdge_refinements = 0 then
      if ¬ (parameter.nbr_holeEdge_refinements > 0) then .error .not_implemented else .ok ()
    else .ok ()
  else .ok ()

/-- The notch step of the 3D builder (lines 465-469) on the mesh built so far:
`notch_body` is called with the unchecked argument list unless
`std::abs(parameter.ratio_x - 1.) > 1e-10` fails. -/
def make_grid_3d_notch (helpers : NotchHelpers NotchArgs)
    (parameter : Parameter.GeneralParameters) (tria : Triangulation) :
    Except MeshError Triangulation :=
  if |parameter.ratio_x - 1| > 1 / 10 ^ 10 then helpers.notch_body (notch_args parameter) tria
  else .ok tria

/-- The notch step of the 2D builder (lines 693-702, the branch `if (true)`). -/
def make_grid_2d_notch (helpers : NotchHelpers NotchArgs)
    (parameter : Parameter.GeneralParameters) (tria : Triangulation) :
    Except MeshError Triangulation :=
  helpers.notch_body (notch_args parameter) tria

end Rod

namespace HyperRectangle

/-- The constant `trigger_localisation_by_notching` (line 51). -/
def trigger_localisation_by_notching : Bool := true

/-- The constant `refine_local_isotropic` (line 54). -/
def refine_local_isotropic : Bool := true

/-- The constant `notch_type` (line 65). -/
def notch_type : enum_notch_type := .notch_linear

/-- The constant `notch_twice` (line 66). -/
def notch_twice : Bool := false

/-- The constant `DENP_Laura` (line 67). -/
def DENP_Laura : Bool := false

/-- The constant `Neto_planeStrain` (line 69). -/
def Neto_planeStrain : Bool := true

/-- The constants `manifold_id_notch_left = 10`, `manifold_id_notch_right = 11`
(lines 82-83). -/
def manifold_id_notch_left : ℕ := 10

/-- See `manifold_id_notch_left`. -/
def manifold_id_notch_right : ℕ := 11

/-- The mutable namespace-level variables of `HyperRectangle.h`:
`enums::enum_refine_special refine_special` (line 53) and `body_dimensions` (line 39). -/
structure Globals where
  refine_special : enum_refine_special
  body_dimensions : enum_coord → ℚ

/-- The state of the namespace before the first call: `refine_special` has its
initialiser `enums::Mesh_refine_special_standard`, `body_dimensions` is zero-filled. -/
def initial_globals : Globals :=
  { refine_special := .Mesh_refine_special_standard
    body_dimensions := fun _ => 0 }

/-- The local `notch_offset = DENP_Laura ? 10. : width` (lines 371, 461). -/
def notch_offset (width : ℚ) : ℚ := if DENP_Laura then 10 else width

/-- The local `notch_y_right` (lines 373, 463). -/
def notch_y_right (width length : ℚ) : ℚ :=
  if notch_twice then length / 2 + notch_offset width / 2 else 0

/-- The local `notch_y_left` (lines 374, 464). -/
def notch_y_left (width length : ℚ) : ℚ := length / 2 - notch_offset width / 2

/-- The local `notch_depth = (1.-notch_reduction)*width` (lines 382, 472). -/
def notch_depth (parameter : Parameter.GeneralParameters) : ℚ :=
  (1 - parameter.ratio_x) * parameter.width

/-- The first notch, on the right face (lines 384-385, 474-475). -/
def notch1 (parameter : Parameter.GeneralParameters) : NotchClass :=
  { notch_type := notch_type
    length := parameter.notchWidth
    depth := notch_depth parameter
    reference_point := ⟨parameter.width, notch_y_right parameter.width parameter.height, 0⟩
    boundary_tag := .id_boundary_xPlus
    face_normal := ⟨1, 0, 0⟩
    loading_axis := .y
    manifold_id := manifold_id_notch_right }

/-- The second notch, on the left face (lines 391-392, 481-482). -/
def notch2 (parameter : Parameter.GeneralParameters) : NotchClass :=
  { notch_type := notch_type
    length := parameter.notchWidth
    depth := notch_depth parameter
    reference_point := ⟨0, notch_y_left parameter.width parameter.height, 0⟩
    boundary_tag := .id_boundary_xMinus
    face_normal := ⟨-1, 0, 0⟩
    loading_axis := .y
    manifold_id := manifold_id_notch_left }

/-- The `notch_list` argument that `make_grid` passes to `make_grid_flat`
(lines 395-400, 486-491). -/
def notch_list (parameter : Parameter.GeneralParameters) : List NotchClass :=
  if notch_twice then [notch1 parameter, notch2 parameter] else [notch1 parameter]

/-- The base mesh `make_grid_flat` asks the toolkit for: either the fine brick
`p1 -> p2` merged with the coarse brick `p2 -> p3`, or one uniform brick. -/
inductive BaseMesh
  | coarse_and_fine (repetitions_fine repetitions_coarse : ℕ × ℕ) (p1 p2 p3 : Point)
  | uniform (repetitions : ℕ × ℕ) (p1 p2 : Point)
  deriving DecidableEq

/-- The local `n_elements_in_y_for_homogeneous_mesh` (line 158). -/
def n_elements_in_y_for_homogeneous_mesh (length width : ℚ) (n_x : ℕ) : ℕ :=
  ((n_x : ℤ) * ⌈length / width⌉).toNat

/-- The local `n_elements_in_y_overhead` (line 159). -/
def n_elements_in_y_overhead (length width : ℚ) (n_x : ℕ) : ℕ :=
  ((n_x : ℤ) * ⌈(⌈length / width⌉ : ℚ) - length / width⌉).toNat

/-- The local `length_refined` (lines 165-168). -/
def length_refined (length width : ℚ) : ℚ :=
  if Neto_planeStrain then length / 6 else min (1 * width) (9 / 10 * length)

/-- The base-mesh part of `make_grid_flat` (lines 155-250). `refine_special` is the
namespace-level variable; `unsigned int` products and differences are taken modulo
`2^32` (the product for the fine brick, which the source forms in `double`, by the same
value). -/
def make_grid_flat_base (refine_special : enum_refine_special) (length width : ℚ)
    (n_elements_in_x_for_coarse_mesh n_refine_global n_refine_local : ℕ) : BaseMesh :=
  if refine_special = .Mesh_HyperRectangle_coarse_and_fine_brick then
    let n_fine := (n_elements_in_x_for_coarse_mesh
      + n_elements_in_y_overhead length width n_elements_in_x_for_coarse_mesh) % 2 ^ 32
    let n_coarse := (n_elements_in_y_for_homogeneous_mesh length width
      n_elements_in_x_for_coarse_mesh + 2 ^ 32 - n_fine) % 2 ^ 32
    let coarse_x := (n_elements_in_x_for_coarse_mesh * ((n_refine_global + 1) % 2 ^ 32)) % 2 ^ 32
    let coarse_y := (n_coarse * ((n_refine_global + 1) % 2 ^ 32)) % 2 ^ 32
    let fine_y := (n_fine * 2 ^ (n_refine_local * (if refine_local_isotropic then 0 else 1))
      * ((n_refine_global + 1) % 2 ^ 32)) % 2 ^ 32
    .coarse_and_fine
      (if Neto_planeStrain then (10, 10) else (coarse_x, fine_y))
      (if Neto_planeStrain then (10, 10) else (coarse_x, coarse_y))
      ⟨0, 0, 0⟩ ⟨width, length_refined length width, 0⟩ ⟨0, length, 0⟩
  else
    .uniform
      (if notch_twice && DENP_Laura then (5, 16)
       else ((n_elements_in_x_for_coarse_mesh * ((n_refine_global + 1) % 2 ^ 32)) % 2 ^ 32,
             (n_elements_in_y_for_homogeneous_mesh length width n_elements_in_x_for_coarse_mesh
               * ((n_refine_global + 1) % 2 ^ 32)) % 2 ^ 32))
      ⟨0, 0, 0⟩ ⟨width, length, 0⟩

/-- The notch part of `make_grid_flat` (lines 307-349) on the tagged mesh. The body is
notched only when `notch_list[0].depth > 1e-20`; the round notch is prepared first, the
second notch follows when `notch_twice`. -/
def make_grid_flat_notch (helpers : NotchHelpers NotchClass) :
    List NotchClass → Triangulation → Except MeshError Triangulation
  | [], tria => .ok tria
  | n0 :: rest, tria =>
    if trigger_localisation_by_notching = true ∧ n0.depth > 1 / 10 ^ 20 then
      match (if notch_type = .notch_round then helpers.prepare_tria_for_notching n0 tria
             else .ok tria) with
      | .error e => .error e
      | .ok t1 =>
        match helpers.notch_body n0 t1 with
        | .error e => .error e
        | .ok t2 =>
          if notch_twice = true then
            match rest with
            | [] => .ok t2
            | n1 :: _ =>
              match helpers.prepare_tria_for_notching n1 t2 with
              | .error e => .error e
              | .ok t3 => helpers.notch_body n1 t3
          else .ok t2
    else .ok tria

/-- The two constructor calls of `make_grid` (lines 384-385 and 391-392, 474-475 and
481-482), which run before `make_grid_flat` is called, and the list that is handed to
`make_grid_flat` (lines 395-400, 486-491). -/
def construct_notch_list (parameter : Parameter.GeneralParameters) :
    Except MeshError (List NotchClass) :=
  match NotchClass.construct (notch1 parameter) with
  | .error e => .error e
  | .ok n1 =>
    match NotchClass.construct (notch2 parameter) with
    | .error e => .error e
    | .ok n2 => .ok (if notch_twice then [n1, n2] else [n1])

/-- The notches in `make_grid` (lines 376-400): the constructors run first; only then
`make_grid_flat` builds and tags the flat mesh, here `tria_flat`, and notches it
(lines 307-349). -/
def make_grid_notch (helpers : NotchHelpers NotchClass)
    (parameter : Parameter.GeneralParameters) (tria_flat : Triangulation) :
    Except MeshError Triangulation :=
  match construct_notch_list parameter with
  | .error e => .error e
  | .ok notch_list => make_grid_flat_notch helpers notch_list tria_flat

/-- What a call of `make_grid` leaves behind and asks for: the namespace variables after
the call and the base mesh requested from the toolkit. -/
structure GridCall where
  globals : Globals
  base : BaseMesh

/-- The 2D `make_grid` (lines 357-400) up to the base mesh: the namespace variable
`refine_special` is assigned from the parameter record (line 363), then
`make_grid_flat` reads it. -/
def make_grid_2d (g : Globals) (parameter : Parameter.GeneralParameters) : GridCall :=
  { globals := { refine_special := parameter.refine_special
                 body_dimensions := fun c =>
                   match c with
                   | .x => parameter.width
                   | .y => parameter.height
                   | .z => g.body_dimensions .z }
    base := make_grid_flat_base parameter.refine_special parameter.height parameter.width
      parameter.grid_y_repetitions parameter.nbr_global_refinements
      parameter.nbr_holeEdge_refinements }

/-- The 3D `make_grid` (lines 447-491) up to the flat base mesh: `refine_special` is not
assigned, `make_grid_flat` reads the namespace variable as it stands. -/
def make_grid_3d (g : Globals) (parameter : Parameter.GeneralParameters) : GridCall :=
  { globals := { refine_special := g.refine_special
                 body_dimensions := fun c =>
                   match c with
                   | .x => parameter.width
                   | .y => parameter.height
                   | .z => parameter.thickness }
    base := make_grid_flat_base g.refine_special parameter.height parameter.width
      parameter.grid_y_repetitions parameter.nbr_global_refinements
      parameter.nbr_holeEdge_refinements }

end HyperRectangle

namespace QuarterHyperCube_Merged

/-- The value `int(5 - parameter.nbr_global_refinements)` (line 695): the difference is
taken in `unsigned int` (modulo `2^32`) and then read as a 32-bit signed integer. -/
def int_5_minus (nbr_global_refinements : ℕ) : ℤ :=
  if (5 + 2 ^ 32 - nbr_global_refinements % 2 ^ 32) % 2 ^ 32 < 2 ^ 31 then
    (((5 + 2 ^ 32 - nbr_global_refinements % 2 ^ 32) % 2 ^ 32 : ℕ) : ℤ)
  else (((5 + 2 ^ 32 - nbr_global_refinements % 2 ^ 32) % 2 ^ 32 : ℕ) : ℤ) - 2 ^ 32

/-- The number of iterations of the loop
`for (refine_counter = 0; int(refine_counter) < std::max(0, int(5 - n)); ++refine_counter)`
(line 695). -/
def n_special_refinement_loops (nbr_global_refinements : ℕ) : ℕ :=
  (max 0 (int_5_minus nbr_global_refinements)).toNat

/-- The number of special refinement passes of the tracked cell in the 3D `make_grid`
(lines 687-712); `refine_special_is_1` is the test `parameter.refine_special==1`. -/
def n_special_refinements (refine_special_is_1 : Bool) (nbr_global_refinements : ℕ) : ℕ :=
  if refine_special_is_1 then n_special_refinement_loops nbr_global_refinements else 0

end QuarterHyperCube_Merged

/-- The notch of the end-to-end scenario (spec §8 item 6): a linear notch of depth 0.5
on the face `x = 2` of the 2-by-10 rectangle, centred at `y = 5`, band along `y`; its
half width is 1. -/
def end_to_end_notch : NotchClass :=
  { notch_type := .notch_linear
    length := 2
    depth := 1 / 2
    reference_point := ⟨2, 5, 0⟩
    boundary_tag := .id_boundary_xPlus
    face_normal := ⟨1, 0, 0⟩
    loading_axis := .y
    manifold_id := 11 }

/-! ## Parameter records used as test inputs -/

/-- A rod of length 100 and radius 20 with a notch of length 10 (half width 5) that
reduces the radius to one half (depth 10); one additional refinement. -/
def deep_notch_parameters : Parameter.GeneralParameters :=
  { width := 100, height := 0, thickness := 0, holeRadius := 20, notchWidth := 10,
    ratio_x := 1 / 2, nbr_global_refinements := 0, nbr_holeEdge_refinements := 1,
    grid_y_repetitions := 1, nbr_elementsInZ := 1,
    refine_special := .Mesh_refine_special_standard, driver := .Dirichlet,
    stepwise_global_refinement := false }

/-- A 2-by-10 plate of thickness 1 (and a rod of radius 5) with `ratio_x = 3/2`, so that
the notch depth `(1 - ratio_x) * width` is `-1`. -/
def negative_depth_parameters : Parameter.GeneralParameters :=
  { width := 2, height := 10, thickness := 1, holeRadius := 5, notchWidth := 1,
    ratio_x := 3 / 2, nbr_global_refinements := 0, nbr_holeEdge_refinements := 1,
    grid_y_repetitions := 2, nbr_elementsInZ := 1,
    refine_special := .Mesh_refine_special_standard, driver := .Dirichlet,
    stepwise_global_refinement := false }

/-- A rod of length 100 and radius 5 without reduction of the radius (`ratio_x = 1`) and
with `notchWidth = 0`; one additional refinement. -/
def no_reduction_parameters : Parameter.GeneralParameters :=
  { width := 100, height := 0, thickness := 0, holeRadius := 5, notchWidth := 0,
    ratio_x := 1, nbr_global_refinements := 0, nbr_holeEdge_refinements := 1,
    grid_y_repetitions := 1, nbr_elementsInZ := 1,
    refine_special := .Mesh_refine_special_standard, driver := .Dirichlet,
    stepwise_global_refinement := false }

/-- A 2-by-10 plate (and a rod of radius 5) with `ratio_x = -1` and `notchWidth = 0`. -/
def negative_ratio_parameters : Parameter.GeneralParameters :=
  { width := 2, height := 10, thickness := 1, holeRadius := 5, notchWidth := 0,
    ratio_x := -1, nbr_global_refinements := 0, nbr_holeEdge_refinements := 1,
    grid_y_repetitions := 2, nbr_elementsInZ := 1,
    refine_special := .Mesh_refine_special_standard, driver := .Dirichlet,
    stepwise_global_refinement := false }

/-- A 2-by-10 plate of thickness 1 that asks for the coarse-and-fine brick. -/
def coarse_and_fine_parameters : Parameter.GeneralParameters :=
  { width := 2, height := 10, thickness := 1, holeRadius := 0, notchWidth := 1,
    ratio_x := 9 / 10, nbr_global_refinements := 0, nbr_holeEdge_refinements := 0,
    grid_y_repetitions := 2, nbr_elementsInZ := 1,
    refine_special := .Mesh_HyperRectangle_coarse_and_fine_brick, driver := .Dirichlet,
    stepwise_global_refinement := false }

/-! ## Rod: shifting the refinement layers -/

/-- The difference `a - b` of two `unsigned int` values: exact when `b ≤ a`, wrapped
around by `2^32` otherwise. -/
def usub (a b : ℕ) : ℕ := if b ≤ a then a - b else a + 2 ^ 32 - b

/-- The indices of a loop `for (i = a; i <= b; i++)`. -/
def loop_range (a b : ℕ) : List ℕ := (List.range (b + 1 - a)).map fun j => a + j

/-- Modelled from the spec: one call `numEx::shift_vertex_layer(triangulation,
initial_pos, new_pos, y)` of the missing helper header: the layer of vertices at
`y = initial_pos` is moved to `y = new_pos`. -/
structure LayerShift where
  initial_pos : ℚ
  new_pos : ℚ
  deriving DecidableEq

namespace Rod

/-- The constant `n_max_of_elements_in_the_coarse_area = 6` (lines 104, 502; the default
argument of line 792). -/
def n_max_of_elements_in_the_coarse_area : ℤ := 6

/-- The local `nbr_of_y_cells = 4 + n_additional_refinements` (lines 252, 621, 928); the
sum is taken without overflow. -/
def nbr_of_y_cells (n : ℕ) : ℕ := 4 + n

/-- The initial value of `nbr_of_coarse_y_cells`,
`std::min(int(std::ceil(nbr_of_y_cells/2.)), n_max_of_elements_in_the_coarse_area)`
(lines 253, 622, 929); the `int` is converted to `unsigned int` modulo `2^32`. -/
def nbr_of_coarse_y_cells (n_max : ℤ) (n : ℕ) : ℕ :=
  ((min ⌈((nbr_of_y_cells n : ℕ) : ℚ) / 2⌉ n_max) % 2 ^ 32).toNat

/-- The local `nbr_of_fine_y_cells = nbr_of_y_cells - nbr_of_coarse_y_cells`
(lines 254, 623, 930). -/
def nbr_of_fine_y_cells (n_max : ℤ) (n : ℕ) : ℕ :=
  usub (nbr_of_y_cells n) (nbr_of_coarse_y_cells n_max n)

/-- The first loop (lines 257-262): `i = 1..3`, the coarsest layers. -/
def coarse_shifts (C : ℕ) (half_length half_notch_length : ℚ) : List LayerShift :=
  (loop_range 1 3).map fun i =>
    { initial_pos := half_length * (usub 4 i : ℕ) / 4
      new_pos := (usub C i : ℕ) / (C : ℚ) * (half_length - half_notch_length)
        + half_notch_length }

/-- The second loop (lines 265-271), guarded by `nbr_of_coarse_y_cells > 4`:
`i = 3..nbr_of_coarse_y_cells-2`, further layers taken from the local refinements. -/
def additional_coarse_shifts (C : ℕ) (half_length half_notch_length : ℚ) : List LayerShift :=
  if C > 4 then
    (loop_range 3 (usub C 2)).map fun i =>
      { initial_pos := half_length * 1 / 2 ^ i
        new_pos := (usub (usub C 1) i : ℕ) / (C : ℚ) * (half_length - half_notch_length)
          + half_notch_length }
  else []

/-- The value of `nbr_of_coarse_y_cells` after the "small trick" (lines 274-275). -/
def nbr_of_coarse_y_cells_for_notch (C n : ℕ) : ℕ := if n ≤ 2 then 4 else C

/-- The third loop (lines 278-283): `i = nbr_of_coarse_y_cells-1 .. n+2`, the layers
inside the notch length. `C` is `nbr_of_coarse_y_cells` at that point, `F` is
`nbr_of_fine_y_cells`. -/
def notch_shifts (C F n : ℕ) (half_length half_notch_length : ℚ) : List LayerShift :=
  (loop_range (usub C 1) (n + 2)).map fun i =>
    { initial_pos := half_length * 1 / 2 ^ i
      new_pos := (usub (usub (nbr_of_y_cells n) 1) i : ℕ) / (F : ℚ) * half_notch_length }

/-- All calls of `shift_vertex_layer` of the layer shifting (lines 248-283, 619-652,
924-959), in order, for `n` additional refinements in y. -/
def layer_shifts (n_max : ℤ) (n : ℕ) (half_length half_notch_length : ℚ) : List LayerShift :=
  coarse_shifts (nbr_of_coarse_y_cells n_max n) half_length half_notch_length
  ++ additional_coarse_shifts (nbr_of_coarse_y_cells n_max n) half_length half_notch_length
  ++ notch_shifts (nbr_of_coarse_y_cells_for_notch (nbr_of_coarse_y_cells n_max n) n)
      (nbr_of_fine_y_cells n_max n) n half_length half_notch_length

/-- The targets `new_pos` of the layer shifting, in order. -/
def shift_targets (n_max : ℤ) (n : ℕ) (half_length half_notch_length : ℚ) : List ℚ :=
  (layer_shifts n_max n half_length half_notch_length).map LayerShift.new_pos

/-- The value stored in `cell_size_innermost` (line 286): the last `new_pos`; the
initial value `9e9` would remain only if no shift took place. -/
def cell_size_innermost (n_max : ℤ) (n : ℕ) (half_length half_notch_length : ℚ) : ℚ :=
  (shift_targets n_max n half_length half_notch_length).getLastD 9000000000

end Rod

/-- The coarse targets as the statement words them: `half_notch_length +
k·(half_length − half_notch_length)/C` for `k = C-1` down to `0`. -/
def coarse_targets (C : ℕ) (half_length half_notch_length : ℚ) : List ℚ :=
  (List.range C).map fun j =>
    half_notch_length + ((C - 1 - j : ℕ) : ℚ) * (half_length - half_notch_length) / C

/-- The notch targets as the statement words them: `k·half_notch_length/F` for
`k = F-1` down to `1`. -/
def fine_targets (F : ℕ) (half_notch_length : ℚ) : List ℚ :=
  (List.range (F - 1)).map fun j => ((F - 1 - j : ℕ) : ℚ) * half_notch_length / F

/-! ## Quarter plate: the step sizes of the outer plate -/

/-- The value of `std::accumulate(v.begin(), v.end(), 0.0)`: the entries are added from
the left, starting at `0`. -/
def accumulate (v : List ℚ) : ℚ := v.foldl (fun acc s => acc + s) 0

namespace QuarterHyperCube_Merged

/-- The local `internal_width = hole_diameter + hole_division_fraction*(width -
hole_diameter)` of `make_2d_quarter_plate_with_hole` (lines 113-116), with
`width = 2.0*half_width` and `hole_diameter = 2.0*hole_radius`. -/
def internal_width (half_width hole_radius hole_division_fraction : ℚ) : ℚ :=
  2 * hole_radius + hole_division_fraction * (2 * half_width - 2 * hole_radius)

/-- The local `n_subs = std::max(1.0, std::ceil(remaining/(internal_width/2.0)))`
(lines 245, 259), a `double` of value at least `1` stored in an `unsigned int`;
`remaining` is `width_remaining` resp. `length_remaining`. The quotient is the exact
one; it stands for the source's only where `internal_width` is non-zero. -/
def n_subs (remaining internal_width : ℚ) : ℕ :=
  (max 1 ⌈remaining / (internal_width / 2)⌉).toNat

/-- The vector `subdivision_width` resp. `subdivision_length` (lines 242-248, 255-262):
`internal_width/2.0`, then `n_subs` times `remaining/n_subs`, where
`remaining = (extent - internal_width)/2.0` and `extent` is `width` resp. `length`. -/
def subdivision (extent internal_width : ℚ) : List ℚ :=
  internal_width / 2 ::
    List.replicate (n_subs ((extent - internal_width) / 2) internal_width)
      ((extent - internal_width) / 2 / (n_subs ((extent - internal_width) / 2) internal_width : ℕ))

/-- One of the two blocks "for width" / "for length" (lines 241-252, 254-266) with its
checks: `Assert(n_subs>0, ExcInternalError())` and
`AssertThrow(std::abs(sum - extent/2.0) < 1e-12, ExcInternalError())`. -/
def checked_subdivision (extent internal_width : ℚ) : Except MeshError (List ℚ) :=
  if ¬ n_subs ((extent - internal_width) / 2) internal_width > 0 then .error .internal_error
  else if |accumulate (subdivision extent internal_width) - extent / 2| < 1 / 10 ^ 12 then
    .ok (subdivision extent internal_width)
  else .error .internal_error

/-- The vector `step_sizes` handed to `subdivided_hyper_rectangle` in the branch
`hole_division_fraction != 1` (lines 239-266): the step sizes for the width, then those
for the length. -/
def step_sizes (half_length half_width hole_radius hole_division_fraction : ℚ) :
    Except MeshError (List (List ℚ)) :=
  match checked_subdivision (2 * half_width)
      (internal_width half_width hole_radius hole_division_fraction) with
  | .error e => .error e
  | .ok subdivision_width =>
    match checked_subdivision (2 * half_length)
        (internal_width half_width hole_radius hole_division_fraction) with
    | .error e => .error e
    | .ok subdivision_length => .ok [subdivision_width, subdivision_length]

/-! ## Quarter plate 2D: the local refinement passes -/

/-- The refine flag that a local refinement pass sets on the cells it selects before
`execute_coarsening_and_refinement`: `set_refine_flag()` (isotropic) or
`set_refine_flag(RefinementCase<dim>::cut_x)`. -/
inductive RefinementCase
  | isotropic_refinement
  | cut_x
  deriving DecidableEq, Repr

/-- The calls of `execute_coarsening_and_refinement` of the 2D `make_grid`
(lines 486-543), in order, each with the flag its pass sets: under the guard
`nbr_holeEdge_refinements > 0` one isotropic pass (lines 488-501), then the loop
`refine_counter = 0 .. < nbr_holeEdge_refinements-1` of `cut_x` passes (lines 504-542). -/
def local_refinement_passes (nbr_holeEdge_refinements : ℕ) : List RefinementCase :=
  if nbr_holeEdge_refinements > 0 then
    .isotropic_refinement ::
      (List.range (usub nbr_holeEdge_refinements 1)).map fun _ => .cut_x
  else []

end QuarterHyperCube_Merged

namespace HyperRectangle

/-- The local `length_refined` as declared (line 165):
`std::min(1.*width, 0.9*length)`, before the `Neto_planeStrain` override. -/
def length_refined_declared (length width : ℚ) : ℚ := min (1 * width) (9 / 10 * length)

end HyperRectangle

/-! ## Quarter plate: the removal steps in order -/

/-- Modelled from the spec: the toolkit primitive `GridGenerator::merge_triangulations`
(external collaborator): the mesh that holds the cells of both meshes. -/
def merge_triangulations (tria_1 tria_2 : Triangulation) : Triangulation := tria_1 ++ tria_2

namespace QuarterHyperCube_Merged

/-- The removal steps of `make_2d_quarter_plate_with_hole` in the branch
`hole_division_fraction == 1`, in order (lines 129-141, 161-175, 179-181, 216-228):
the quarter of the plate with the hole is cut out of `tria_plate_hole`, the mesh of
`hyper_cube_with_cylindrical_hole`; the bottom-left cell is cut out of `tria_plate`, the
refined `hyper_rectangle`; the two are merged; the dummy cells are removed. `width` is
the local `width = 2.0*half_width`. The global refinement between the merge and the final
removal (lines 205-214, toolkit) is left out, as for `nbr_global_refinements = 0`. -/
def remove_cells_fraction_one (width : ℚ) (tria_plate_hole tria_plate : Triangulation) :
    Except MeshError Triangulation :=
  match remove_outside_quadrant tria_plate_hole with
  | .error e => .error e
  | .ok tria_quarter_plate_hole =>
    match remove_bottom_left width tria_plate with
    | .error e => .error e
    | .ok tria_cut_plate =>
      remove_dummy_cells width (merge_triangulations tria_quarter_plate_hole tria_cut_plate)

end QuarterHyperCube_Merged

/-- The mirror image of `hole_cell` in the third quadrant. -/
def hole_cell_mirrored : Cell :=
  quad_cell ⟨-2, 0, 0⟩ ⟨0, -2, 0⟩ ⟨-1, 0, 0⟩ ⟨0, -1, 0⟩ true true false true

/-! # Theorems -/

/-! ## Generic facts about the loops -/

theorem forEachM_ok_map {α ε : Type} (f : α → Except ε α) (g : α → α) (l : List α)
    (h : ∀ a ∈ l, f a = .ok (g a)) : forEachM f l = .ok (l.map g) := by
  induction l with
  | nil => rfl
  | cons a as ih =>
    have ha := h a (List.mem_cons_self a as)
    have hrest := ih (fun b hb => h b (List.mem_cons_of_mem a hb))
    simp [forEachM, ha, hrest]

theorem forEachM_error_iff {α ε : Type} (f : α → Except ε α) (l : List α) :
    (∃ e, forEachM f l = .error e) ↔ ∃ a ∈ l, ∃ e, f a = .error e := by
  induction l with
  | nil => simp [forEachM]
  | cons a as ih =>
    cases hfa : f a with
    | error e => simp [forEachM, hfa]
    | ok b =>
      cases hrest : forEachM f as with
      | error e =>
        have h1 : ∃ a ∈ as, ∃ e, f a = .error e := ih.mp ⟨e, hrest⟩
        obtain ⟨a1, ha1, e1, he1⟩ := h1
        simp only [forEachM, hfa, hrest, List.mem_cons]
        exact ⟨fun _ => ⟨a1, Or.inr ha1, e1, he1⟩, fun _ => ⟨e, rfl⟩⟩
      | ok bs =>
        have h1 : ¬ ∃ a ∈ as, ∃ e, f a = .error e := by
          intro hex
          obtain ⟨e, he⟩ := ih.mpr hex
          rw [hrest] at he
          cases he
        simp only [forEachM, hfa, hrest, List.mem_cons]
        constructor
        · rintro ⟨e, he⟩
          cases he
        · rintro ⟨a1, ha1 | ha1, e1, he1⟩
          · subst ha1
            rw [hfa] at he1
            cases he1
          · exact absurd ⟨a1, ha1, e1, he1⟩ h1

/-! ## HyperRectangle: the boundary-id pass of `make_grid_flat` -/

/-- The four tests of the flat classifier in the priority order of the source. -/
theorem set_boundary_id_flat_eq_first_passing (tol : ℚ) (bd : enum_coord → ℚ) (f : Face)
    (hb : f.at_boundary = true) :
    HyperRectangle.set_boundary_id_flat tol bd f =
      match first_passing
        [(.id_boundary_xMinus, decide (|f.center.x - 0| < tol)),
         (.id_boundary_xPlus, decide (|f.center.x - bd .x| < tol)),
         (.id_boundary_yMinus, decide (|f.center.y - 0| < tol)),
         (.id_boundary_yPlus, decide (|f.center.y - bd .y| < tol))] with
      | some t => .ok { f with boundary_id := .id t }
      | none => .error .unidentified_face := by
  simp only [HyperRectangle.set_boundary_id_flat, hb, if_true, first_passing, Point.coord,
    decide_eq_true_eq]
  split_ifs <;> rfl

/-- C1: for every boundary face, body dimensions `(W, L)` and the tolerance 1e-12, the
boundary-id pass of `make_grid_flat` assigns the tag of the first passing test in the
order x-minus, x-plus, y-minus, y-plus (and raises when none passes); a centroid at
`(1e-13, 1e-13)` passes both the x-minus and the y-minus test and is tagged x-minus. -/
theorem C1_flat_first_passing_test_wins (W L : ℚ) (f : Face) (hb : f.at_boundary = true) :
    (HyperRectangle.set_boundary_id_flat HyperRectangle.search_tolerance (dims2 W L) f =
      match first_passing
        [(.id_boundary_xMinus, decide (|f.center.x - 0| < HyperRectangle.search_tolerance)),
         (.id_boundary_xPlus, decide (|f.center.x - W| < HyperRectangle.search_tolerance)),
         (.id_boundary_yMinus, decide (|f.center.y - 0| < HyperRectangle.search_tolerance)),
         (.id_boundary_yPlus, decide (|f.center.y - L| < HyperRectangle.search_tolerance))] with
      | some t => .ok { f with boundary_id := .id t }
      | none => .error .unidentified_face)
    ∧ (f.center.x = 1 / 10 ^ 13 → f.center.y = 1 / 10 ^ 13 →
        |f.center.x - 0| < HyperRectangle.search_tolerance
        ∧ |f.center.y - 0| < HyperRectangle.search_tolerance
        ∧ HyperRectangle.set_boundary_id_flat HyperRectangle.search_tolerance (dims2 W L) f =
            .ok { f with boundary_id := .id .id_boundary_xMinus }) := by
  refine ⟨set_boundary_id_flat_eq_first_passing _ _ f hb, ?_⟩
  intro hx hy
  have h1 : |f.center.x - 0| < HyperRectangle.search_tolerance := by
    rw [hx]; norm_num [HyperRectangle.search_tolerance, abs_lt]
  have h2 : |f.center.y - 0| < HyperRectangle.search_tolerance := by
    rw [hy]; norm_num [HyperRectangle.search_tolerance, abs_lt]
  refine ⟨h1, h2, ?_⟩
  simp only [HyperRectangle.set_boundary_id_flat, hb, if_true, Point.coord, h1]

/-- C1 at the spec's test point: the boundary face with centroid `(1e-13, 1e-13)` of a
2-by-10 body. -/
theorem C1_flat_first_passing_test_wins_witness :
    HyperRectangle.set_boundary_id_flat HyperRectangle.search_tolerance (dims2 2 10)
        ⟨⟨1 / 10 ^ 13, 1 / 10 ^ 13, 0⟩, [], true, .cleared, none⟩ =
      .ok ⟨⟨1 / 10 ^ 13, 1 / 10 ^ 13, 0⟩, [], true, .id .id_boundary_xMinus, none⟩ :=
  ((C1_flat_first_passing_test_wins 2 10
      ⟨⟨1 / 10 ^ 13, 1 / 10 ^ 13, 0⟩, [], true, .cleared, none⟩ rfl).2 rfl rfl).2.2

/-- The flat classifier raises exactly on boundary faces that fail all four tests. -/
theorem set_boundary_id_flat_error_iff (tol : ℚ) (bd : enum_coord → ℚ) (f : Face) :
    (∃ e, HyperRectangle.set_boundary_id_flat tol bd f = .error e) ↔
      (f.at_boundary = true ∧ ¬ |f.center.x - 0| < tol ∧ ¬ |f.center.x - bd .x| < tol
        ∧ ¬ |f.center.y - 0| < tol ∧ ¬ |f.center.y - bd .y| < tol) := by
  unfold HyperRectangle.set_boundary_id_flat
  simp only [Point.coord]
  split_ifs <;> simp_all

theorem for_faces_error_iff (n : ℕ) (step : Face → Except MeshError Face) (cell : Cell) :
    (∃ e, for_faces n step cell = .error e) ↔
      ∃ f ∈ cell.faces.take n, ∃ e, step f = .error e := by
  rw [← forEachM_error_iff]
  unfold for_faces
  cases forEachM step (cell.faces.take n) with
  | error e => simp
  | ok fs => simp

/-- C3: `make_grid_flat` raises the unidentified-face error for a face if and only if
the face is at the boundary and its centroid fails all four tests (the error is the
only one raised); a boundary face passing at least one test gets exactly one tag; the
whole pass raises exactly when some visited face is such a face. -/
theorem C3_flat_raises_iff_all_tests_fail (tol : ℚ) (bd : enum_coord → ℚ) (f : Face)
    (tria : Triangulation) :
    (HyperRectangle.set_boundary_id_flat tol bd f = .error .unidentified_face ↔
      (f.at_boundary = true ∧ ¬ |f.center.x - 0| < tol ∧ ¬ |f.center.x - bd .x| < tol
        ∧ ¬ |f.center.y - 0| < tol ∧ ¬ |f.center.y - bd .y| < tol))
    ∧ (∀ e, HyperRectangle.set_boundary_id_flat tol bd f = .error e → e = .unidentified_face)
    ∧ (f.at_boundary = true →
        (|f.center.x - 0| < tol ∨ |f.center.x - bd .x| < tol
          ∨ |f.center.y - 0| < tol ∨ |f.center.y - bd .y| < tol) →
        ∃! t : enum_boundary_ids,
          HyperRectangle.set_boundary_id_flat tol bd f = .ok { f with boundary_id := .id t })
    ∧ ((∃ e, HyperRectangle.set_boundary_IDs_flat tol bd tria = .error e) ↔
        ∃ cell ∈ tria, ∃ g ∈ cell.faces.take 4,
          g.at_boundary = true ∧ ¬ |g.center.x - 0| < tol ∧ ¬ |g.center.x - bd .x| < tol
            ∧ ¬ |g.center.y - 0| < tol ∧ ¬ |g.center.y - bd .y| < tol) := by
  have honly : ∀ e, HyperRectangle.set_boundary_id_flat tol bd f = .error e →
      e = .unidentified_face := by
    intro e
    unfold HyperRectangle.set_boundary_id_flat
    split_ifs <;> intro h <;> cases h
    rfl
  refine ⟨?_, honly, ?_, ?_⟩
  · rw [← set_boundary_id_flat_error_iff]
    constructor
    · intro h; exact ⟨_, h⟩
    · rintro ⟨e, he⟩
      rw [honly e he] at he
      exact he
  · intro hb hsome
    have hfp := set_boundary_id_flat_eq_first_passing tol bd f hb
    have hne : ¬ ∃ e, HyperRectangle.set_boundary_id_flat tol bd f = .error e := by
      rw [set_boundary_id_flat_error_iff]
      rintro ⟨-, h1, h2, h3, h4⟩
      rcases hsome with h | h | h | h
      · exact h1 h
      · exact h2 h
      · exact h3 h
      · exact h4 h
    cases hfirst : first_passing
        [(enum_boundary_ids.id_boundary_xMinus, decide (|f.center.x - 0| < tol)),
         (.id_boundary_xPlus, decide (|f.center.x - bd .x| < tol)),
         (.id_boundary_yMinus, decide (|f.center.y - 0| < tol)),
         (.id_boundary_yPlus, decide (|f.center.y - bd .y| < tol))] with
    | none =>
      rw [hfirst] at hfp
      exact absurd ⟨_, hfp⟩ hne
    | some t =>
      rw [hfirst] at hfp
      refine ⟨t, hfp, ?_⟩
      intro t2 ht2
      rw [hfp] at ht2
      have := congrArg (fun r => match r with
        | Except.ok (g : Face) => g.boundary_id
        | Except.error _ => boundary_id.cleared) ht2
      simp at this
      exact this.symm
  · unfold HyperRectangle.set_boundary_IDs_flat for_cells_faces
    rw [forEachM_error_iff]
    simp only [for_faces_error_iff, set_boundary_id_flat_error_iff, faces_per_cell]

/-- C3 at a boundary face with centroid `(0, 5)` of a 2-by-10 body. -/
theorem C3_flat_raises_iff_all_tests_fail_witness :
    ∃! t : enum_boundary_ids,
      HyperRectangle.set_boundary_id_flat (1 / 10 ^ 12) (dims2 2 10)
          ⟨⟨0, 5, 0⟩, [], true, .cleared, none⟩ =
        .ok { (⟨⟨0, 5, 0⟩, [], true, .cleared, none⟩ : Face) with boundary_id := .id t } :=
  (C3_flat_raises_iff_all_tests_fail (1 / 10 ^ 12) (dims2 2 10)
    ⟨⟨0, 5, 0⟩, [], true, .cleared, none⟩ []).2.2.1 rfl (Or.inl (by norm_num))

/-! ## HyperRectangle: tag coverage on the uniform brick -/

theorem forEachM_ok_of_forall {α ε : Type} (f : α → Except ε α) (l : List α)
    (h : ∀ a ∈ l, ∃ b, f a = .ok b) :
    forEachM f l = .ok (l.map fun a => ok_or (f a) a) := by
  apply forEachM_ok_map
  intro a ha
  obtain ⟨b, hb⟩ := h a ha
  simp [hb, ok_or]

theorem brick_arith (W eps : ℚ) (nx i : ℕ) (hW : 0 < W) (hi : i < nx)
    (heps : eps ≤ W / (2 * nx)) :
    eps ≤ ((i : ℚ) * (W / nx) + ((i : ℚ) + 1) * (W / nx)) / 2 ∧
    eps ≤ W - ((i : ℚ) * (W / nx) + ((i : ℚ) + 1) * (W / nx)) / 2 ∧
    eps < W ∧ (nx : ℚ) * (W / nx) = W := by
  have hn : (0 : ℚ) < nx := by exact_mod_cast (Nat.zero_lt_of_lt hi)
  have hi' : (i : ℚ) + 1 ≤ nx := by exact_mod_cast hi
  have hi0 : (0 : ℚ) ≤ i := by positivity
  have hd : 0 < W / (2 * nx) := by positivity
  have h2 : W / nx = 2 * (W / (2 * nx)) := by field_simp; ring
  have hWd : (nx : ℚ) * (W / nx) = W := by field_simp
  rw [h2] at hWd ⊢
  generalize W / (2 * nx) = d at *
  have hid : 0 ≤ (i : ℚ) * d := mul_nonneg hi0 hd.le
  have hnd : 0 ≤ ((nx : ℚ) - (i + 1)) * d := mul_nonneg (sub_nonneg.mpr hi') hd.le
  refine ⟨by nlinarith, by nlinarith, by nlinarith, hWd⟩

/-- A boundary face with centroid on `x = 0` is tagged x-minus. -/
theorem flat_face_x0 (tol W L : ℚ) (f : Face) (hb : f.at_boundary = true) (htol : 0 < tol)
    (hx : f.center.x = 0) :
    HyperRectangle.set_boundary_id_flat tol (dims2 W L) f =
      .ok { f with boundary_id := .id .id_boundary_xMinus } := by
  simp [HyperRectangle.set_boundary_id_flat, hb, Point.coord, hx, htol]

/-- A boundary face with centroid on `x = W` is tagged x-plus when `tol ≤ W`. -/
theorem flat_face_xW (tol W L : ℚ) (f : Face) (hb : f.at_boundary = true) (htol : 0 < tol)
    (hW : tol ≤ W) (hx : f.center.x = W) :
    HyperRectangle.set_boundary_id_flat tol (dims2 W L) f =
      .ok { f with boundary_id := .id .id_boundary_xPlus } := by
  have h1 : ¬ |W| < tol := by
    rw [abs_of_pos (lt_of_lt_of_le htol hW)]; exact not_lt.mpr hW
  simp [HyperRectangle.set_boundary_id_flat, hb, Point.coord, hx, htol, h1, dims2]

/-- A boundary face with centroid on `y = 0`, away from both x sides, is tagged y-minus. -/
theorem flat_face_y0 (tol W L : ℚ) (f : Face) (hb : f.at_boundary = true) (htol : 0 < tol)
    (hx1 : tol ≤ f.center.x) (hx2 : tol ≤ W - f.center.x) (hy : f.center.y = 0) :
    HyperRectangle.set_boundary_id_flat tol (dims2 W L) f =
      .ok { f with boundary_id := .id .id_boundary_yMinus } := by
  have h1 : ¬ |f.center.x| < tol := by
    rw [abs_of_pos (lt_of_lt_of_le htol hx1)]; exact not_lt.mpr hx1
  have h2 : ¬ |f.center.x - W| < tol := by
    rw [abs_sub_comm, abs_of_pos (lt_of_lt_of_le htol hx2)]; exact not_lt.mpr hx2
  simp [HyperRectangle.set_boundary_id_flat, hb, Point.coord, hy, htol, h1, h2, dims2]

/-- A boundary face with centroid on `y = L`, away from both x sides, is tagged y-plus. -/
theorem flat_face_yL (tol W L : ℚ) (f : Face) (hb : f.at_boundary = true) (htol : 0 < tol)
    (hx1 : tol ≤ f.center.x) (hx2 : tol ≤ W - f.center.x) (hL : tol ≤ L)
    (hy : f.center.y = L) :
    HyperRectangle.set_boundary_id_flat tol (dims2 W L) f =
      .ok { f with boundary_id := .id .id_boundary_yPlus } := by
  have h1 : ¬ |f.center.x| < tol := by
    rw [abs_of_pos (lt_of_lt_of_le htol hx1)]; exact not_lt.mpr hx1
  have h2 : ¬ |f.center.x - W| < tol := by
    rw [abs_sub_comm, abs_of_pos (lt_of_lt_of_le htol hx2)]; exact not_lt.mpr hx2
  have h3 : ¬ |L| < tol := by
    rw [abs_of_pos (lt_of_lt_of_le htol hL)]; exact not_lt.mpr hL
  simp [HyperRectangle.set_boundary_id_flat, hb, Point.coord, hy, htol, h1, h2, h3, dims2]

theorem step_line_face (tol W L : ℚ) (tag : enum_boundary_ids) (a b : Point) (bd : Bool)
    (h : bd = true →
      HyperRectangle.set_boundary_id_flat tol (dims2 W L) (line_face a b true) =
        .ok { line_face a b true with boundary_id := .id tag }) :
    HyperRectangle.set_boundary_id_flat tol (dims2 W L) (line_face a b bd) =
      .ok (if bd = true then { line_face a b bd with boundary_id := .id tag }
           else line_face a b bd) := by
  cases bd with
  | false => simp [HyperRectangle.set_boundary_id_flat, line_face]
  | true => simpa using h rfl

theorem grid_center_x_side (W L : ℚ) (nx ny i j j2 : ℕ) :
    (face_center (grid_vertex nx ny ⟨0, 0, 0⟩ ⟨W, L, 0⟩ i j)
      (grid_vertex nx ny ⟨0, 0, 0⟩ ⟨W, L, 0⟩ i j2)).x = (i : ℚ) * (W / nx) := by
  simp only [face_center, grid_vertex]
  ring

theorem grid_center_y_side (W L : ℚ) (nx ny i i2 j : ℕ) :
    (face_center (grid_vertex nx ny ⟨0, 0, 0⟩ ⟨W, L, 0⟩ i j)
      (grid_vertex nx ny ⟨0, 0, 0⟩ ⟨W, L, 0⟩ i2 j)).y = (j : ℚ) * (L / ny) := by
  simp only [face_center, grid_vertex]
  ring

theorem grid_center_x_mid (W L : ℚ) (nx ny i j : ℕ) :
    (face_center (grid_vertex nx ny ⟨0, 0, 0⟩ ⟨W, L, 0⟩ i j)
      (grid_vertex nx ny ⟨0, 0, 0⟩ ⟨W, L, 0⟩ (i + 1) j)).x =
      ((i : ℚ) * (W / nx) + ((i : ℚ) + 1) * (W / nx)) / 2 := by
  simp only [face_center, grid_vertex]
  push_cast
  ring

theorem grid_center_y_mid (W L : ℚ) (nx ny i j : ℕ) :
    (face_center (grid_vertex nx ny ⟨0, 0, 0⟩ ⟨W, L, 0⟩ i j)
      (grid_vertex nx ny ⟨0, 0, 0⟩ ⟨W, L, 0⟩ i (j + 1))).y =
      ((j : ℚ) * (L / ny) + ((j : ℚ) + 1) * (L / ny)) / 2 := by
  simp only [face_center, grid_vertex]
  push_cast
  ring

/-- The cell `(i, j)` of the brick after the boundary-id loop: each boundary face
carries the tag of its side, everything else is untouched. -/
theorem grid_cell_pass (W L eps : ℚ) (nx ny i j : ℕ) (hW : 0 < W) (hL : 0 < L)
    (hi : i < nx) (hj : j < ny) (heps : 0 < eps)
    (hx : eps ≤ W / (2 * nx)) (hy : eps ≤ L / (2 * ny)) :
    ∃ t0 t1 t2 t3 : boundary_id,
      for_faces (faces_per_cell 2) (HyperRectangle.set_boundary_id_flat eps (dims2 W L))
          (grid_cell nx ny ⟨0, 0, 0⟩ ⟨W, L, 0⟩ i j) =
        .ok { grid_cell nx ny ⟨0, 0, 0⟩ ⟨W, L, 0⟩ i j with
              faces :=
                [{ line_face (grid_vertex nx ny ⟨0, 0, 0⟩ ⟨W, L, 0⟩ i j)
                     (grid_vertex nx ny ⟨0, 0, 0⟩ ⟨W, L, 0⟩ i (j + 1)) (decide (i = 0))
                   with boundary_id := t0 },
                 { line_face (grid_vertex nx ny ⟨0, 0, 0⟩ ⟨W, L, 0⟩ (i + 1) j)
                     (grid_vertex nx ny ⟨0, 0, 0⟩ ⟨W, L, 0⟩ (i + 1) (j + 1))
                     (decide (i + 1 = nx))
                   with boundary_id := t1 },
                 { line_face (grid_vertex nx ny ⟨0, 0, 0⟩ ⟨W, L, 0⟩ i j)
                     (grid_vertex nx ny ⟨0, 0, 0⟩ ⟨W, L, 0⟩ (i + 1) j) (decide (j = 0))
                   with boundary_id := t2 },
                 { line_face (grid_vertex nx ny ⟨0, 0, 0⟩ ⟨W, L, 0⟩ i (j + 1))
                     (grid_vertex nx ny ⟨0, 0, 0⟩ ⟨W, L, 0⟩ (i + 1) (j + 1))
                     (decide (j + 1 = ny))
                   with boundary_id := t3 }] }
      ∧ t0 = (if i = 0 then .id .id_boundary_xMinus else .cleared)
      ∧ t1 = (if i + 1 = nx then .id .id_boundary_xPlus else .cleared)
      ∧ t2 = (if j = 0 then .id .id_boundary_yMinus else .cleared)
      ∧ t3 = (if j + 1 = ny then .id .id_boundary_yPlus else .cleared) := by
  obtain ⟨hx1, hx2, hxW, hnx⟩ := brick_arith W eps nx i hW hi hx
  obtain ⟨hy1, hy2, hyL, hny⟩ := brick_arith L eps ny j hL hj hy
  have e0 := step_line_face eps W L .id_boundary_xMinus
    (grid_vertex nx ny ⟨0, 0, 0⟩ ⟨W, L, 0⟩ i j)
    (grid_vertex nx ny ⟨0, 0, 0⟩ ⟨W, L, 0⟩ i (j + 1)) (decide (i = 0)) (by
      intro hb
      have hi0 : i = 0 := of_decide_eq_true hb
      apply flat_face_x0 eps W L _ rfl heps
      show (face_center _ _).x = 0
      rw [grid_center_x_side, hi0]
      simp)
  have e1 := step_line_face eps W L .id_boundary_xPlus
    (grid_vertex nx ny ⟨0, 0, 0⟩ ⟨W, L, 0⟩ (i + 1) j)
    (grid_vertex nx ny ⟨0, 0, 0⟩ ⟨W, L, 0⟩ (i + 1) (j + 1)) (decide (i + 1 = nx)) (by
      intro hb
      have hi1 : i + 1 = nx := of_decide_eq_true hb
      apply flat_face_xW eps W L _ rfl heps hxW.le
      show (face_center _ _).x = W
      rw [grid_center_x_side, hi1, hnx])
  have e2 := step_line_face eps W L .id_boundary_yMinus
    (grid_vertex nx ny ⟨0, 0, 0⟩ ⟨W, L, 0⟩ i j)
    (grid_vertex nx ny ⟨0, 0, 0⟩ ⟨W, L, 0⟩ (i + 1) j) (decide (j = 0)) (by
      intro hb
      have hj0 : j = 0 := of_decide_eq_true hb
      apply flat_face_y0 eps W L _ rfl heps
      · show eps ≤ (face_center _ _).x
        rw [grid_center_x_mid]; exact hx1
      · show eps ≤ W - (face_center _ _).x
        rw [grid_center_x_mid]; exact hx2
      · show (face_center _ _).y = 0
        rw [grid_center_y_side, hj0]
        simp)
  have e3 := step_line_face eps W L .id_boundary_yPlus
    (grid_vertex nx ny ⟨0, 0, 0⟩ ⟨W, L, 0⟩ i (j + 1))
    (grid_vertex nx ny ⟨0, 0, 0⟩ ⟨W, L, 0⟩ (i + 1) (j + 1)) (decide (j + 1 = ny)) (by
      intro hb
      have hj1 : j + 1 = ny := of_decide_eq_true hb
      apply flat_face_yL eps W L _ rfl heps
      · show eps ≤ (face_center _ _).x
        rw [grid_center_x_mid]; exact hx1
      · show eps ≤ W - (face_center _ _).x
        rw [grid_center_x_mid]; exact hx2
      · exact hyL.le
      · show (face_center _ _).y = L
        rw [grid_center_y_side, hj1, hny])
  refine ⟨_, _, _, _, ?_, rfl, rfl, rfl, rfl⟩
  simp only [for_faces, grid_cell, faces_per_cell, List.take, forEachM, e0, e1, e2, e3,
    List.drop, List.append_nil]
  congr 2
  simp only [decide_eq_true_eq, List.cons.injEq, and_true]
  refine ⟨?_, ?_, ?_, ?_⟩ <;> split_ifs <;> simp_all [line_face]

theorem on_side_x0 (W L : ℚ) (f : Face) (hW : 0 < W) (hx : f.center.x = 0)
    (hy1 : 0 < f.center.y) (hy2 : f.center.y < L)
    (ht : f.boundary_id = .id .id_boundary_xMinus) : on_side_with_tag W L f := by
  refine ⟨fun _ => ht, fun h => ?_, fun h => ?_, fun h => ?_, Or.inl hx⟩
  · rw [hx] at h; exact absurd h hW.ne
  · rw [h] at hy1; exact absurd hy1 (lt_irrefl _)
  · rw [h] at hy2; exact absurd hy2 (lt_irrefl _)

theorem on_side_xW (W L : ℚ) (f : Face) (hW : 0 < W) (hx : f.center.x = W)
    (hy1 : 0 < f.center.y) (hy2 : f.center.y < L)
    (ht : f.boundary_id = .id .id_boundary_xPlus) : on_side_with_tag W L f := by
  refine ⟨fun h => ?_, fun _ => ht, fun h => ?_, fun h => ?_, Or.inr (Or.inl hx)⟩
  · rw [hx] at h; exact absurd h hW.ne'
  · rw [h] at hy1; exact absurd hy1 (lt_irrefl _)
  · rw [h] at hy2; exact absurd hy2 (lt_irrefl _)

theorem on_side_y0 (W L : ℚ) (f : Face) (hL : 0 < L) (hy : f.center.y = 0)
    (hx1 : 0 < f.center.x) (hx2 : f.center.x < W)
    (ht : f.boundary_id = .id .id_boundary_yMinus) : on_side_with_tag W L f := by
  refine ⟨fun h => ?_, fun h => ?_, fun _ => ht, fun h => ?_, Or.inr (Or.inr (Or.inl hy))⟩
  · rw [h] at hx1; exact absurd hx1 (lt_irrefl _)
  · rw [h] at hx2; exact absurd hx2 (lt_irrefl _)
  · rw [hy] at h; exact absurd h hL.ne

theorem on_side_yL (W L : ℚ) (f : Face) (hL : 0 < L) (hy : f.center.y = L)
    (hx1 : 0 < f.center.x) (hx2 : f.center.x < W)
    (ht : f.boundary_id = .id .id_boundary_yPlus) : on_side_with_tag W L f := by
  refine ⟨fun h => ?_, fun h => ?_, fun h => ?_, fun _ => ht, Or.inr (Or.inr (Or.inr hy))⟩
  · rw [h] at hx1; exact absurd hx1 (lt_irrefl _)
  · rw [h] at hx2; exact absurd hx2 (lt_irrefl _)
  · rw [hy] at h; exact absurd h hL.ne'

theorem mem_subdivided_hyper_rectangle (nx ny : ℕ) (p1 p2 : Point) (c : Cell)
    (hc : c ∈ subdivided_hyper_rectangle nx ny p1 p2) :
    ∃ i j, i < nx ∧ j < ny ∧ c = grid_cell nx ny p1 p2 i j := by
  simp only [subdivided_hyper_rectangle, List.mem_flatMap, List.mem_map, List.mem_range] at hc
  obtain ⟨j, hj, i, hi, rfl⟩ := hc
  exact ⟨i, j, hi, hj, rfl⟩

theorem clear_boundary_IDs_brick (nx ny : ℕ) (p1 p2 : Point) :
    clear_boundary_IDs (subdivided_hyper_rectangle nx ny p1 p2) =
      subdivided_hyper_rectangle nx ny p1 p2 := by
  unfold clear_boundary_IDs
  conv_rhs => rw [← List.map_id (subdivided_hyper_rectangle nx ny p1 p2)]
  apply List.map_congr_left
  intro c hc
  obtain ⟨i, j, -, -, rfl⟩ := mem_subdivided_hyper_rectangle nx ny p1 p2 c hc
  simp only [grid_cell, line_face, List.map, id]
  congr 1
  simp only [List.cons.injEq, and_true]
  refine ⟨?_, ?_, ?_, ?_⟩ <;> split_ifs <;> rfl

/-- Without rounding the brick is the brick of exact arithmetic. -/
theorem make_grid_flat_uniform_rounded_id (tol W L : ℚ) (nx ny : ℕ) :
    HyperRectangle.make_grid_flat_uniform_rounded (fun x => x) tol W L nx ny
      = HyperRectangle.make_grid_flat_uniform tol W L nx ny := rfl

/-- Without rounding the brick is the brick of exact arithmetic. -/
theorem subdivided_hyper_rectangle_rounded_id (nx ny : ℕ) (p1 p2 : Point) :
    subdivided_hyper_rectangle_rounded (fun x => x) nx ny p1 p2
      = subdivided_hyper_rectangle nx ny p1 p2 := rfl

/-- Rounding to the nearest integer gives `m` when `x` is nearer to `m` than `1/2`. -/
theorem round_half_even_eq (x : ℚ) (m : ℤ) (hlo : 2 * (m : ℚ) - 1 < 2 * x)
    (hhi : 2 * x < 2 * (m : ℚ) + 1) : round_half_even x = m := by
  have h1 : m - 1 ≤ ⌊x⌋ := by
    rw [Int.le_floor]
    push_cast
    linarith
  have h2 : ⌊x⌋ < m + 1 := by
    rw [Int.floor_lt]
    push_cast
    linarith
  have hcase : ⌊x⌋ = m ∨ ⌊x⌋ = m - 1 := by omega
  unfold round_half_even
  rcases hcase with h | h
  · rw [h, if_pos (by linarith)]
  · rw [h]
    have hfalse : ¬ 2 * (x - ((m - 1 : ℤ) : ℚ)) < 1 := by
      push_cast
      linarith
    have htrue : 1 < 2 * (x - ((m - 1 : ℤ) : ℚ)) := by
      push_cast
      linarith
    rw [if_neg hfalse, if_pos htrue]
    omega

/-- The double nearest to a positive `x` with `2^e ≤ x < 2^(e+1)` whose significand is
nearer to `m` than `1/2`. -/
theorem binary64_eq (x : ℚ) (e m : ℤ) (hx : 0 < x) (h1 : (2 : ℚ) ^ e ≤ x)
    (h2 : x < (2 : ℚ) ^ (e + 1))
    (hlo : 2 * (m : ℚ) - 1 < 2 * (x / 2 ^ (e - 52)))
    (hhi : 2 * (x / 2 ^ (e - 52)) < 2 * (m : ℚ) + 1) :
    binary64 x = m * 2 ^ (e - 52) := by
  have hlog : Int.log 2 |x| = e := by
    rw [abs_of_pos hx]
    have ha : e ≤ Int.log 2 x :=
      (Int.zpow_le_iff_le_log (by norm_num) hx).mp (by exact_mod_cast h1)
    have hb : Int.log 2 x < e + 1 :=
      (Int.lt_zpow_iff_log_lt (by norm_num) hx).mp (by exact_mod_cast h2)
    omega
  unfold binary64
  rw [if_neg hx.ne', hlog, round_half_even_eq _ m hlo hhi]

/-- The pass raises the error of the face it stops at. -/
theorem forEachM_error_mem {α ε : Type} (f : α → Except ε α) (l : List α) (e : ε)
    (h : forEachM f l = .error e) : ∃ a ∈ l, f a = .error e := by
  induction l with
  | nil => simp [forEachM] at h
  | cons a as ih =>
    cases hfa : f a with
    | error e1 =>
      simp only [forEachM, hfa] at h
      cases h
      exact ⟨a, List.mem_cons_self _ _, hfa⟩
    | ok b =>
      cases hrest : forEachM f as with
      | error e1 =>
        simp only [forEachM, hfa, hrest] at h
        cases h
        obtain ⟨a1, ha1, he1⟩ := ih hrest
        exact ⟨a1, List.mem_cons_of_mem _ ha1, he1⟩
      | ok bs =>
        simp only [forEachM, hfa, hrest] at h
        cases h

/-- The boundary-id pass of `make_grid_flat` raises no error but the unidentified-face
error. -/
theorem set_boundary_IDs_flat_error (tol : ℚ) (bd : enum_coord → ℚ) (tria : Triangulation)
    (e : MeshError) (h : HyperRectangle.set_boundary_IDs_flat tol bd tria = .error e) :
    e = .unidentified_face := by
  unfold HyperRectangle.set_boundary_IDs_flat for_cells_faces at h
  obtain ⟨cell, -, hcell⟩ := forEachM_error_mem _ _ _ h
  unfold for_faces at hcell
  cases hfaces : forEachM (HyperRectangle.set_boundary_id_flat tol bd)
      (cell.faces.take (faces_per_cell 2)) with
  | error e1 =>
    rw [hfaces] at hcell
    cases hcell
    obtain ⟨f, -, hf⟩ := forEachM_error_mem _ _ _ hfaces
    unfold HyperRectangle.set_boundary_id_flat at hf
    split_ifs at hf
    all_goals cases hf
    rfl
  | ok fs =>
    rw [hfaces] at hcell
    cases hcell

/-- C2 (counterexample): the body of width `100000` and length `1` with `11` by `1`
cells and the tolerance `1e-12` of the source, which is below
`min(W/(2 nx), L/(2 ny))`. In doubles the toolkit's vertices on the right side have
`x = 11·(100000/11) = 100000 − 2⁻³⁶`, `1.46e-11` off the body dimension; the right
face of the last cell has its centroid there, at `y = 1/2`, fails all four tests, and
the pass raises the unidentified-face error. -/
theorem C2_counterexample_double_brick :
    ((0 : ℚ) < 100000 ∧ (0 : ℚ) < 1 ∧ 1 ≤ 11 ∧ 1 ≤ 1 ∧ 0 < HyperRectangle.search_tolerance
      ∧ HyperRectangle.search_tolerance
        ≤ min (100000 / (2 * ((11 : ℕ) : ℚ))) (1 / (2 * ((1 : ℕ) : ℚ))))
    ∧ (grid_vertex_rounded binary64 11 1 ⟨0, 0, 0⟩ ⟨100000, 1, 0⟩ 11 0).x
        = 100000 - 1 / 2 ^ 36
    ∧ HyperRectangle.make_grid_flat_uniform_rounded binary64
        HyperRectangle.search_tolerance 100000 1 11 1 = .error .unidentified_face := by
  have hW : binary64 100000 = 100000 := by
    rw [binary64_eq 100000 16 6871947673600000 (by norm_num) (by norm_num) (by norm_num)
      (by norm_num) (by norm_num)]
    norm_num
  have hdx : binary64 (100000 / 11) = 4997780126254545 / 2 ^ 39 := by
    rw [binary64_eq (100000 / 11) 13 4997780126254545 (by norm_num) (by norm_num)
      (by norm_num) (by norm_num) (by norm_num)]
    norm_num
  have hX : binary64 (11 * (4997780126254545 / 2 ^ 39)) = 100000 - 1 / 2 ^ 36 := by
    rw [binary64_eq (11 * (4997780126254545 / 2 ^ 39)) 16 6871947673599999 (by norm_num)
      (by norm_num) (by norm_num) (by norm_num) (by norm_num)]
    norm_num
  have hXX : binary64 (100000 - 1 / 2 ^ 36) = 100000 - 1 / 2 ^ 36 := by
    rw [binary64_eq (100000 - 1 / 2 ^ 36) 16 6871947673599999 (by norm_num)
      (by norm_num) (by norm_num) (by norm_num) (by norm_num)]
    norm_num
  have h2X : binary64 (100000 - 1 / 2 ^ 36 + (100000 - 1 / 2 ^ 36))
      = 100000 - 1 / 2 ^ 36 + (100000 - 1 / 2 ^ 36) := by
    rw [binary64_eq (100000 - 1 / 2 ^ 36 + (100000 - 1 / 2 ^ 36)) 17 6871947673599999
      (by norm_num) (by norm_num) (by norm_num) (by norm_num) (by norm_num)]
    norm_num
  have h0 : binary64 0 = 0 := by
    unfold binary64
    rw [if_pos rfl]
  have h1 : binary64 1 = 1 := by
    rw [binary64_eq 1 0 4503599627370496 (by norm_num) (by norm_num) (by norm_num)
      (by norm_num) (by norm_num)]
    norm_num
  have hhalf : binary64 (1 / 2) = 1 / 2 := by
    rw [binary64_eq (1 / 2) (-1) 4503599627370496 (by norm_num) (by norm_num)
      (by norm_num) (by norm_num) (by norm_num)]
    norm_num
  have hv0 : grid_vertex_rounded binary64 11 1 ⟨0, 0, 0⟩ ⟨100000, 1, 0⟩ 11 0
      = ⟨100000 - 1 / 2 ^ 36, 0, 0⟩ := by
    simp only [grid_vertex_rounded, sub_zero, zero_add, Nat.cast_ofNat, Nat.cast_one,
      Nat.cast_zero, div_one, zero_mul, hW, hdx, hX, hXX, h0, h1]
  have hv1 : grid_vertex_rounded binary64 11 1 ⟨0, 0, 0⟩ ⟨100000, 1, 0⟩ 11 1
      = ⟨100000 - 1 / 2 ^ 36, 1, 0⟩ := by
    simp only [grid_vertex_rounded, sub_zero, zero_add, Nat.cast_ofNat, Nat.cast_one,
      Nat.cast_zero, div_one, one_mul, hW, hdx, hX, hXX, h0, h1]
  have hc : face_center_rounded binary64 ⟨100000 - 1 / 2 ^ 36, 0, 0⟩
      ⟨100000 - 1 / 2 ^ 36, 1, 0⟩ = ⟨100000 - 1 / 2 ^ 36, 1 / 2, 0⟩ := by
    have e : (100000 - 1 / 2 ^ 36 + (100000 - 1 / 2 ^ 36) : ℚ) / 2 = 100000 - 1 / 2 ^ 36 := by
      ring
    simp only [face_center_rounded, h2X, e, hXX, zero_add, h1, hhalf, h0, zero_div]
  refine ⟨⟨by norm_num, by norm_num, by norm_num, by norm_num,
    by norm_num [HyperRectangle.search_tolerance],
    by norm_num [HyperRectangle.search_tolerance]⟩, by rw [hv0], ?_⟩
  have hex : ∃ e, HyperRectangle.make_grid_flat_uniform_rounded binary64
      HyperRectangle.search_tolerance 100000 1 11 1 = .error e := by
    unfold HyperRectangle.make_grid_flat_uniform_rounded HyperRectangle.set_boundary_IDs_flat
      for_cells_faces clear_boundary_IDs
    rw [forEachM_error_iff]
    have hmem : grid_cell_rounded binary64 11 1 ⟨0, 0, 0⟩ ⟨100000, 1, 0⟩ 10 0
        ∈ subdivided_hyper_rectangle_rounded binary64 11 1 ⟨0, 0, 0⟩ ⟨100000, 1, 0⟩ := by
      simp only [subdivided_hyper_rectangle_rounded, List.mem_flatMap, List.mem_map,
        List.mem_range]
      exact ⟨0, by norm_num, 10, by norm_num, rfl⟩
    refine ⟨_, List.mem_map_of_mem _ hmem, ?_⟩
    rw [for_faces_error_iff]
    refine ⟨{ line_face_rounded binary64
          (grid_vertex_rounded binary64 11 1 ⟨0, 0, 0⟩ ⟨100000, 1, 0⟩ 11 0)
          (grid_vertex_rounded binary64 11 1 ⟨0, 0, 0⟩ ⟨100000, 1, 0⟩ 11 1) true with
        boundary_id := .cleared }, ?_, ?_⟩
    · simp [grid_cell_rounded, faces_per_cell, line_face_rounded]
    · rw [set_boundary_id_flat_error_iff]
      simp only [line_face_rounded, hv0, hv1, hc, dims2]
      norm_num [HyperRectangle.search_tolerance, abs_lt]
  obtain ⟨e, he⟩ := hex
  rw [he, set_boundary_IDs_flat_error _ _ _ e he]

/-- C2 (amended): tag coverage on the rectangle in exact arithmetic. For `W, L > 0`,
`nx, ny ≥ 1` and `0 < eps ≤ min (W/(2 nx)) (L/(2 ny))` the uniform-brick path of
`make_grid_flat` with body dimensions `(W, L)`, run on the brick whose vertices are
computed without rounding, does not raise, changes nothing but the tags of boundary
faces, and every boundary face carries exactly the tag of the side it lies on
(x = 0: x-minus, x = W: x-plus, y = 0: y-minus, y = L: y-plus). -/
theorem C2_tag_coverage_exact_arithmetic (W L eps : ℚ) (nx ny : ℕ) (hW : 0 < W) (hL : 0 < L)
    (_hnx : 1 ≤ nx) (_hny : 1 ≤ ny) (heps : 0 < eps)
    (hmin : eps ≤ min (W / (2 * nx)) (L / (2 * ny))) :
    ∃ tria, HyperRectangle.make_grid_flat_uniform_rounded (fun x => x) eps W L nx ny = .ok tria
      ∧ tria.length = nx * ny
      ∧ clear_boundary_IDs tria =
          clear_boundary_IDs
            (subdivided_hyper_rectangle_rounded (fun x => x) nx ny ⟨0, 0, 0⟩ ⟨W, L, 0⟩)
      ∧ ∀ cell ∈ tria, ∀ f ∈ cell.faces, f.at_boundary = true → on_side_with_tag W L f := by
  show ∃ tria, HyperRectangle.make_grid_flat_uniform eps W L nx ny = .ok tria
    ∧ tria.length = nx * ny
    ∧ clear_boundary_IDs tria =
        clear_boundary_IDs (subdivided_hyper_rectangle nx ny ⟨0, 0, 0⟩ ⟨W, L, 0⟩)
    ∧ ∀ cell ∈ tria, ∀ f ∈ cell.faces, f.at_boundary = true → on_side_with_tag W L f
  have hx : eps ≤ W / (2 * nx) := le_trans hmin (min_le_left _ _)
  have hy : eps ≤ L / (2 * ny) := le_trans hmin (min_le_right _ _)
  have hall : ∀ c ∈ subdivided_hyper_rectangle nx ny ⟨0, 0, 0⟩ ⟨W, L, 0⟩,
      ∃ c', for_faces (faces_per_cell 2)
        (HyperRectangle.set_boundary_id_flat eps (dims2 W L)) c = .ok c' := by
    intro c hc
    obtain ⟨i, j, hi, hj, rfl⟩ := mem_subdivided_hyper_rectangle _ _ _ _ c hc
    obtain ⟨t0, t1, t2, t3, h, -⟩ := grid_cell_pass W L eps nx ny i j hW hL hi hj heps hx hy
    exact ⟨_, h⟩
  have hrun := forEachM_ok_of_forall _ _ hall
  refine ⟨(subdivided_hyper_rectangle nx ny ⟨0, 0, 0⟩ ⟨W, L, 0⟩).map (fun a =>
      ok_or (for_faces (faces_per_cell 2)
        (HyperRectangle.set_boundary_id_flat eps (dims2 W L)) a) a), ?_, ?_, ?_, ?_⟩
  · unfold HyperRectangle.make_grid_flat_uniform HyperRectangle.set_boundary_IDs_flat
      for_cells_faces
    rw [clear_boundary_IDs_brick]
    exact hrun
  · simp [subdivided_hyper_rectangle, List.length_flatMap, Function.comp_def]
    ring
  · rw [clear_boundary_IDs_brick]
    unfold clear_boundary_IDs
    rw [List.map_map]
    conv_rhs => rw [← List.map_id (subdivided_hyper_rectangle nx ny ⟨0, 0, 0⟩ ⟨W, L, 0⟩)]
    apply List.map_congr_left
    intro c hc
    obtain ⟨i, j, hi, hj, rfl⟩ := mem_subdivided_hyper_rectangle _ _ _ _ c hc
    obtain ⟨t0, t1, t2, t3, h, rfl, rfl, rfl, rfl⟩ :=
      grid_cell_pass W L eps nx ny i j hW hL hi hj heps hx hy
    simp only [Function.comp, h, id, ok_or]
    simp only [grid_cell, line_face, List.map]
    congr 1
    simp only [List.cons.injEq, and_true]
    refine ⟨?_, ?_, ?_, ?_⟩ <;> split_ifs <;> simp_all
  · intro cell hcell f hf hb
    rw [List.mem_map] at hcell
    obtain ⟨c, hc, rfl⟩ := hcell
    obtain ⟨i, j, hi, hj, rfl⟩ := mem_subdivided_hyper_rectangle _ _ _ _ c hc
    obtain ⟨t0, t1, t2, t3, h, h0, h1, h2, h3⟩ :=
      grid_cell_pass W L eps nx ny i j hW hL hi hj heps hx hy
    obtain ⟨hx1, hx2, -, hnx'⟩ := brick_arith W eps nx i hW hi hx
    obtain ⟨hy1, hy2, -, hny'⟩ := brick_arith L eps ny j hL hj hy
    rw [h] at hf
    simp only [ok_or, List.mem_cons, List.mem_singleton, List.not_mem_nil, or_false] at hf
    rcases hf with rfl | rfl | rfl | rfl
    · have hi0 : i = 0 := of_decide_eq_true hb
      apply on_side_x0 W L _ hW
      · show (face_center _ _).x = 0
        rw [grid_center_x_side, hi0]; simp
      · show 0 < (face_center _ _).y
        rw [grid_center_y_mid]; linarith
      · show (face_center _ _).y < L
        rw [grid_center_y_mid]; linarith
      · show t0 = _
        rw [h0, if_pos hi0]
    · have hi1 : i + 1 = nx := of_decide_eq_true hb
      apply on_side_xW W L _ hW
      · show (face_center _ _).x = W
        rw [grid_center_x_side, hi1, hnx']
      · show 0 < (face_center _ _).y
        rw [grid_center_y_mid]; linarith
      · show (face_center _ _).y < L
        rw [grid_center_y_mid]; linarith
      · show t1 = _
        rw [h1, if_pos hi1]
    · have hj0 : j = 0 := of_decide_eq_true hb
      apply on_side_y0 W L _ hL
      · show (face_center _ _).y = 0
        rw [grid_center_y_side, hj0]; simp
      · show 0 < (face_center _ _).x
        rw [grid_center_x_mid]; linarith
      · show (face_center _ _).x < W
        rw [grid_center_x_mid]; linarith
      · show t2 = _
        rw [h2, if_pos hj0]
    · have hj1 : j + 1 = ny := of_decide_eq_true hb
      apply on_side_yL W L _ hL
      · show (face_center _ _).y = L
        rw [grid_center_y_side, hj1, hny']
      · show 0 < (face_center _ _).x
        rw [grid_center_x_mid]; linarith
      · show (face_center _ _).x < W
        rw [grid_center_x_mid]; linarith
      · show t3 = _
        rw [h3, if_pos hj1]

/-- C2 (amended) for the 2-by-10 body with 2 by 5 cells and the tolerance 1e-12. -/
theorem C2_tag_coverage_exact_arithmetic_witness :
    ((0 : ℚ) < 2 ∧ (0 : ℚ) < 10 ∧ 1 ≤ 2 ∧ 1 ≤ 5 ∧ (0 : ℚ) < 1 / 10 ^ 12
      ∧ (1 / 10 ^ 12 : ℚ) ≤ min (2 / (2 * ((2 : ℕ) : ℚ))) (10 / (2 * ((5 : ℕ) : ℚ))))
    ∧ ∃ tria, HyperRectangle.make_grid_flat_uniform_rounded (fun x => x) (1 / 10 ^ 12) 2 10 2 5
        = .ok tria
      ∧ tria.length = 2 * 5
      ∧ clear_boundary_IDs tria =
          clear_boundary_IDs
            (subdivided_hyper_rectangle_rounded (fun x => x) 2 5 ⟨0, 0, 0⟩ ⟨2, 10, 0⟩)
      ∧ ∀ cell ∈ tria, ∀ f ∈ cell.faces, f.at_boundary = true → on_side_with_tag 2 10 f :=
  ⟨⟨by norm_num, by norm_num, by norm_num, by norm_num, by norm_num, by norm_num⟩,
    C2_tag_coverage_exact_arithmetic 2 10 (1 / 10 ^ 12) 2 5 (by norm_num) (by norm_num)
      (by norm_num) (by norm_num) (by norm_num) (by norm_num)⟩

/-! ## The distance test -/

/-- The rational test `near_radius` is the test `|sqrt d2 - r| < tol` over the reals. -/
theorem near_radius_iff_sqrt (d2 r tol : ℚ) :
    near_radius d2 r tol ↔ |Real.sqrt (d2 : ℝ) - (r : ℝ)| < (tol : ℝ) := by
  unfold near_radius
  rw [abs_lt]
  have hs : 0 ≤ Real.sqrt (d2 : ℝ) := Real.sqrt_nonneg _
  have e1 : (r - tol < 0 ∨ (r - tol) ^ 2 < d2) ↔ -(tol : ℝ) < Real.sqrt (d2 : ℝ) - r := by
    by_cases hneg : r - tol < 0
    · have : ((r : ℝ) - tol) < 0 := by exact_mod_cast hneg
      simp only [hneg, true_or, true_iff]
      linarith
    · have hnn : (0 : ℝ) ≤ (r : ℝ) - tol := by
        have := not_lt.mp hneg
        exact_mod_cast this
      simp only [hneg, false_or]
      have hiff := Real.lt_sqrt hnn (y := (d2 : ℝ))
      constructor
      · intro h
        have h' : ((r : ℝ) - tol) ^ 2 < (d2 : ℝ) := by exact_mod_cast h
        have := hiff.mpr h'
        linarith
      · intro h
        have h' : (r : ℝ) - tol < Real.sqrt d2 := by linarith
        have := hiff.mp h'
        exact_mod_cast this
  have e2 : (0 < r + tol ∧ d2 < (r + tol) ^ 2) ↔ Real.sqrt (d2 : ℝ) - r < tol := by
    constructor
    · rintro ⟨hpos, h⟩
      have hpos' : (0 : ℝ) < (r : ℝ) + tol := by exact_mod_cast hpos
      have h' : (d2 : ℝ) < ((r : ℝ) + tol) ^ 2 := by exact_mod_cast h
      have := (Real.sqrt_lt' hpos').mpr h'
      linarith
    · intro h
      have hpos' : (0 : ℝ) < (r : ℝ) + tol := by linarith
      have h' := (Real.sqrt_lt' hpos').mp (by linarith : Real.sqrt (d2 : ℝ) < (r : ℝ) + tol)
      exact ⟨by exact_mod_cast hpos', by exact_mod_cast h'⟩
  rw [e1, e2]

/-! ## Rod and quarter plate: faces that match no test -/

theorem for_cells_faces_never_raises (n : ℕ) (step : Face → Except MeshError Face)
    (hstep : ∀ f e, step f ≠ .error e) (tria : Triangulation) (e : MeshError) :
    for_cells_faces n step tria ≠ .error e := by
  intro h
  have h1 : ∃ e, forEachM (for_faces n step) tria = .error e := ⟨e, h⟩
  rw [forEachM_error_iff] at h1
  obtain ⟨c, -, e1, he1⟩ := h1
  obtain ⟨f, -, e2, he2⟩ := (for_faces_error_iff n step c).mp ⟨e1, he1⟩
  exact hstep f e2 he2

theorem rod_3d_step_never_raises (tol half_length radius : ℚ) (f : Face) (e : MeshError) :
    Rod.set_boundary_id_3d tol half_length radius f ≠ .error e := by
  unfold Rod.set_boundary_id_3d
  split_ifs <;> intro h <;> cases h

theorem rod_2d_step_never_raises (tol half_length radius : ℚ) (f : Face) (e : MeshError) :
    Rod.set_boundary_id_2d tol half_length radius f ≠ .error e := by
  unfold Rod.set_boundary_id_2d
  split_ifs <;> intro h <;> cases h

/-- C4 (counterexample): in the 3D rod builder with `half_length = 10`, `radius = 5`, the
boundary face with centroid `(1,1,1)` and single vertex `(1,1,1)` matches no plane test
and no surface-vertex test; the loop body raises nothing and the face keeps the cleared
boundary id. -/
theorem C4_counterexample_rod_face_left_untagged :
    (¬ |(1 : ℚ) - 0| < Rod.search_tolerance ∧ ¬ |(1 : ℚ) - 10| < Rod.search_tolerance
      ∧ Rod.face_vertex_on_surface Rod.search_tolerance 5
          ⟨⟨1, 1, 1⟩, [⟨1, 1, 1⟩], true, .cleared, none⟩ = false)
    ∧ Rod.set_boundary_id_3d Rod.search_tolerance 10 5
          ⟨⟨1, 1, 1⟩, [⟨1, 1, 1⟩], true, .cleared, none⟩ =
        .ok ⟨⟨1, 1, 1⟩, [⟨1, 1, 1⟩], true, .cleared, none⟩ := by
  have h1 : ¬ |(1 : ℚ) - 0| < Rod.search_tolerance := by
    norm_num [Rod.search_tolerance, abs_lt]
  have h2 : ¬ |(1 : ℚ) - 10| < Rod.search_tolerance := by
    norm_num [Rod.search_tolerance, abs_lt]
  have h3 : Rod.face_vertex_on_surface Rod.search_tolerance 5
      ⟨⟨1, 1, 1⟩, [⟨1, 1, 1⟩], true, .cleared, none⟩ = false := by
    norm_num [Rod.face_vertex_on_surface, vertices_per_face, near_radius, Rod.search_tolerance]
  refine ⟨⟨h1, h2, h3⟩, ?_⟩
  simp only [Rod.set_boundary_id_3d, Point.coord, h1, h2, h3, if_true, if_false]
  rfl

/-- C4 (amended): in the rod builders (2D, 3D) and the quarter-plate builders (2D, 3D) a
boundary face that matches none of the coordinate-plane tests of its builder and none of
the vertex tests of the loop is returned unchanged, so it keeps the boundary id the
clearing left, and none of the four passes raises an error on any triangulation. The
tests on `z` are hypotheses of the 3D builders only. -/
theorem C4_unmatched_face_is_left_as_cleared (tol half_length radius width half_thickness
    holeRadius : ℚ) (cell_vertices : List Point) (f : Face) (tria : Triangulation)
    (hb : f.at_boundary = true)
    (hx0 : ¬ |f.center.x - 0| < tol) (hy0 : ¬ |f.center.y - 0| < tol) :
    (¬ |f.center.z - 0| < tol → ¬ |f.center.y - half_length| < tol →
        Rod.face_vertex_on_surface tol radius f = false →
        Rod.set_boundary_id_3d tol half_length radius f = .ok f)
    ∧ (¬ |f.center.x - radius| < tol → ¬ |f.center.y - half_length| < tol →
        Rod.set_boundary_id_2d tol half_length radius f = .ok f)
    ∧ (¬ |f.center.x - width| < tol → ¬ |f.center.y - width| < tol →
        QuarterHyperCube_Merged.vertex_on_hole_2d tol holeRadius cell_vertices = false →
        QuarterHyperCube_Merged.set_ids_face_2d tol width holeRadius cell_vertices f
          = (f, false))
    ∧ (¬ |f.center.x - width| < tol → ¬ |f.center.y - width| < tol →
        ¬ |f.center.z - 0| < tol → ¬ |f.center.z - half_thickness| < tol →
        QuarterHyperCube_Merged.vertex_on_hole_3d tol holeRadius cell_vertices = false →
        QuarterHyperCube_Merged.set_ids_face_3d tol width half_thickness holeRadius
          cell_vertices f = (f, false))
    ∧ (∀ e, Rod.set_boundary_IDs_3d tol half_length radius tria ≠ .error e)
    ∧ (∀ e, Rod.set_boundary_IDs_2d tol half_length radius tria ≠ .error e)
    ∧ (∀ e, QuarterHyperCube_Merged.set_ids_2d tol width holeRadius tria ≠ .error e)
    ∧ (∀ e, QuarterHyperCube_Merged.set_ids_3d tol width half_thickness holeRadius tria
          ≠ .error e) := by
  refine ⟨?_, ?_, ?_, ?_, ?_, ?_, ?_, ?_⟩
  · intro hz0 hyL hv
    simp only [Rod.set_boundary_id_3d, Point.coord, hb, hx0, hy0, hz0, hyL, hv, ↓reduceIte,
      Bool.false_eq_true]
  · intro hxR hyL
    simp only [Rod.set_boundary_id_2d, Point.coord, hb, hx0, hy0, hxR, hyL, ↓reduceIte]
  · intro hxW hyW hv
    simp only [QuarterHyperCube_Merged.set_ids_face_2d,
      QuarterHyperCube_Merged.set_boundary_id_2d, QuarterHyperCube_Merged.set_manifold_id,
      Point.coord, hb, hx0, hy0, hxW, hyW, hv, ↓reduceIte, Bool.false_eq_true]
  · intro hxW hyW hz0 hzT hv
    simp only [QuarterHyperCube_Merged.set_ids_face_3d,
      QuarterHyperCube_Merged.set_boundary_id_3d, QuarterHyperCube_Merged.set_manifold_id,
      Point.coord, hb, hx0, hy0, hz0, hxW, hyW, hzT, hv, ↓reduceIte, Bool.false_eq_true]
  · intro e
    exact for_cells_faces_never_raises _ _ (rod_3d_step_never_raises _ _ _) tria e
  · intro e
    exact for_cells_faces_never_raises _ _ (rod_2d_step_never_raises _ _ _) tria e
  · intro e h
    cases h
  · intro e h
    cases h

/-- C4 (amended) in a rod with `half_length = 10`, `radius = 5` and a quarter plate of
width 100 with a hole of radius 1: at the 2D face with centroid `(1,1)` (so `z = 0`) the
2D rod pass and the 2D quarter-plate pass return the face unchanged, and at the 3D face
with centroid `(1,1,1)` the 3D rod pass does. -/
theorem C4_unmatched_face_is_left_as_cleared_witness :
    (Rod.set_boundary_id_2d (1 / 10 ^ 8) 10 5 ⟨⟨1, 1, 0⟩, [⟨1, 1, 0⟩], true, .cleared, none⟩ =
        .ok ⟨⟨1, 1, 0⟩, [⟨1, 1, 0⟩], true, .cleared, none⟩
      ∧ QuarterHyperCube_Merged.set_ids_face_2d (1 / 10 ^ 8) 100 1 [⟨1, 1, 0⟩]
          ⟨⟨1, 1, 0⟩, [⟨1, 1, 0⟩], true, .cleared, none⟩ =
        (⟨⟨1, 1, 0⟩, [⟨1, 1, 0⟩], true, .cleared, none⟩, false))
    ∧ Rod.set_boundary_id_3d (1 / 10 ^ 8) 10 5 ⟨⟨1, 1, 1⟩, [⟨1, 1, 1⟩], true, .cleared, none⟩ =
        .ok ⟨⟨1, 1, 1⟩, [⟨1, 1, 1⟩], true, .cleared, none⟩ :=
  ⟨⟨(C4_unmatched_face_is_left_as_cleared (1 / 10 ^ 8) 10 5 100 1 1 [⟨1, 1, 0⟩]
        ⟨⟨1, 1, 0⟩, [⟨1, 1, 0⟩], true, .cleared, none⟩ [] rfl
        (by norm_num [abs_lt]) (by norm_num [abs_lt])).2.1
        (by norm_num [abs_lt]) (by norm_num [abs_lt]),
      (C4_unmatched_face_is_left_as_cleared (1 / 10 ^ 8) 10 5 100 1 1 [⟨1, 1, 0⟩]
        ⟨⟨1, 1, 0⟩, [⟨1, 1, 0⟩], true, .cleared, none⟩ [] rfl
        (by norm_num [abs_lt]) (by norm_num [abs_lt])).2.2.1
        (by norm_num [abs_lt]) (by norm_num [abs_lt])
        (by norm_num [QuarterHyperCube_Merged.vertex_on_hole_2d, vertices_per_face,
          near_radius, Point.distance_sq])⟩,
    (C4_unmatched_face_is_left_as_cleared (1 / 10 ^ 8) 10 5 100 1 1 []
      ⟨⟨1, 1, 1⟩, [⟨1, 1, 1⟩], true, .cleared, none⟩ [] rfl
      (by norm_num [abs_lt]) (by norm_num [abs_lt])).1
      (by norm_num [abs_lt]) (by norm_num [abs_lt])
      (by norm_num [Rod.face_vertex_on_surface, vertices_per_face, near_radius])⟩

/-! ## Quarter plate: which vertices the hole test reads -/

theorem forEachM_length {α ε : Type} (f : α → Except ε α) (l l2 : List α)
    (h : forEachM f l = .ok l2) : l2.length = l.length := by
  induction l generalizing l2 with
  | nil =>
    simp only [forEachM] at h
    cases h
    rfl
  | cons a as ih =>
    simp only [forEachM] at h
    cases hfa : f a with
    | error e => rw [hfa] at h; cases h
    | ok b =>
      rw [hfa] at h
      cases hrest : forEachM f as with
      | error e => rw [hrest] at h; cases h
      | ok bs =>
        rw [hrest] at h
        cases h
        simp [ih bs hrest]

/-- The faces with local index `≥ n` are not touched by a face loop that stops at `n`. -/
theorem for_faces_drop (n : ℕ) (step : Face → Except MeshError Face) (cell c2 : Cell)
    (h : for_faces n step cell = .ok c2) : c2.faces.drop n = cell.faces.drop n := by
  unfold for_faces at h
  cases hrun : forEachM step (cell.faces.take n) with
  | error e => rw [hrun] at h; cases h
  | ok fs =>
    rw [hrun] at h
    cases h
    have hlen := forEachM_length step _ _ hrun
    by_cases hn : n ≤ cell.faces.length
    · have hfs : fs.length = n := by rw [hlen, List.length_take]; omega
      show (fs ++ cell.faces.drop n).drop n = cell.faces.drop n
      rw [List.drop_append_of_le_length (by omega), List.drop_of_length_le (by omega)]
      rfl
    · have hd : cell.faces.drop n = [] := List.drop_of_length_le (by omega)
      show (fs ++ cell.faces.drop n).drop n = cell.faces.drop n
      rw [hd, List.append_nil]
      apply List.drop_of_length_le
      rw [hlen, List.length_take]
      omega

/-- C6 (code evaluated at the failing input): the face loop of the z-tagging pass stops
at `GeometryInfo<2>::faces_per_cell = 4`, so faces 4 and 5 of every hexahedron come out
as they went in; for the unit cube, whose face 4 is a boundary face with centroid
`z = 0` and whose face 5 is a boundary face with centroid `z = thickness`, the pass
returns the mesh unchanged, whatever ids the two faces carried, and so neither face
receives z-minus or z-plus from it. -/
theorem C6_z_pass_skips_faces_4_and_5 :
    (∀ (tol : ℚ) (bd : enum_coord → ℚ) (cell c2 : Cell),
        for_faces (faces_per_cell 2) (HyperRectangle.set_boundary_id_z tol bd) cell = .ok c2 →
        c2.faces.drop 4 = cell.faces.drop 4)
    ∧ (∀ bottom top : boundary_id,
        HyperRectangle.set_boundary_IDs_z HyperRectangle.search_tolerance (dims3 1 1 1)
          [unit_hex bottom top] = .ok [unit_hex bottom top])
    ∧ (∀ bottom top : boundary_id, ∃ f4 f5 : Face,
        (unit_hex bottom top).faces.drop 4 = [f4, f5]
        ∧ f4.at_boundary = true ∧ |f4.center.z - 0| < HyperRectangle.search_tolerance
        ∧ f4.boundary_id = bottom
        ∧ f5.at_boundary = true ∧ |f5.center.z - 1| < HyperRectangle.search_tolerance
        ∧ f5.boundary_id = top) := by
  refine ⟨?_, ?_, ?_⟩
  · intro tol bd cell c2 h
    exact for_faces_drop _ _ cell c2 h
  · intro bottom top
    simp only [HyperRectangle.set_boundary_IDs_z, for_cells_faces, forEachM, for_faces,
      faces_per_cell, unit_hex, List.take, List.drop, HyperRectangle.set_boundary_id_z,
      quad_face, Point.coord, dims3]
    norm_num [abs_lt, HyperRectangle.search_tolerance]
  · intro bottom top
    refine ⟨_, _, rfl, rfl, ?_, rfl, rfl, ?_, rfl⟩
    · norm_num [quad_face, abs_lt, HyperRectangle.search_tolerance]
    · norm_num [quad_face, abs_lt, HyperRectangle.search_tolerance]

/-! ## Rod 3D: order of the plane tests -/

/-- The plane tests of the 3D rod in the order of the source. -/
theorem rod_3d_eq_first_passing (tol half_length radius : ℚ) (f : Face)
    (hb : f.at_boundary = true) :
    Rod.set_boundary_id_3d tol half_length radius f =
      match first_passing
        [(.id_boundary_xMinus, decide (|f.center.x - 0| < tol)),
         (.id_boundary_yMinus, decide (|f.center.y - 0| < tol)),
         (.id_boundary_zMinus, decide (|f.center.z - 0| < tol)),
         (.id_boundary_yPlus, decide (|f.center.y - half_length| < tol))] with
      | some t => .ok { f with boundary_id := .id t }
      | none =>
        if Rod.face_vertex_on_surface tol radius f = true then
          .ok { f with boundary_id := .id .id_boundary_zPlus }
        else .ok f := by
  simp only [Rod.set_boundary_id_3d, hb, if_true, first_passing, Point.coord,
    decide_eq_true_eq]
  split_ifs <;> rfl

/-- C7 (counterexample): in a rod with `half_length = 10` the boundary face with centroid
`(5, 10, 0)` passes the y-plus and the z-minus test; the fixed priority order restricted
to the rod's planes (x-minus, y-minus, y-plus, z-minus) yields y-plus, the 3D rod
classifier tags the face z-minus. -/
theorem C7_counterexample_rod_tags_z_minus :
    |(10 : ℚ) - 10| < Rod.search_tolerance ∧ |(0 : ℚ) - 0| < Rod.search_tolerance
    ∧ first_passing
        [(.id_boundary_xMinus, decide (|(5 : ℚ) - 0| < Rod.search_tolerance)),
         (.id_boundary_yMinus, decide (|(10 : ℚ) - 0| < Rod.search_tolerance)),
         (.id_boundary_yPlus, decide (|(10 : ℚ) - 10| < Rod.search_tolerance)),
         (.id_boundary_zMinus, decide (|(0 : ℚ) - 0| < Rod.search_tolerance))]
        = some .id_boundary_yPlus
    ∧ Rod.set_boundary_id_3d Rod.search_tolerance 10 5
          ⟨⟨5, 10, 0⟩, [], true, .cleared, none⟩ =
        .ok ⟨⟨5, 10, 0⟩, [], true, .id .id_boundary_zMinus, none⟩ := by
  have h1 : ¬ |(5 : ℚ) - 0| < Rod.search_tolerance := by
    norm_num [Rod.search_tolerance, abs_lt]
  have h2 : ¬ |(10 : ℚ) - 0| < Rod.search_tolerance := by
    norm_num [Rod.search_tolerance, abs_lt]
  have h3 : |(10 : ℚ) - 10| < Rod.search_tolerance := by
    norm_num [Rod.search_tolerance]
  have h4 : |(0 : ℚ) - 0| < Rod.search_tolerance := by
    norm_num [Rod.search_tolerance]
  refine ⟨h3, h4, ?_, ?_⟩
  · simp only [first_passing, h1, h2, h3, decide_False, decide_True]
    rfl
  · simp only [Rod.set_boundary_id_3d, Point.coord, h1, h2, h4, ↓reduceIte]

/-- C7 (amended): for every boundary face the plane tests of the 3D rod classifier return
the tag of the first passing test in the order x-minus, y-minus, z-minus, y-plus; this
is the tag of the order x-minus, y-minus, y-plus, z-minus whenever the centroid does not
pass both the z-minus and the y-plus test; a centroid that fails x-minus and y-minus and
is within the tolerance of both `y = half_length` and `z = 0` is tagged z-minus. -/
theorem C7_rod_plane_tests_order (tol half_length radius : ℚ) (f : Face)
    (hb : f.at_boundary = true) :
    (Rod.set_boundary_id_3d tol half_length radius f =
      match first_passing
        [(.id_boundary_xMinus, decide (|f.center.x - 0| < tol)),
         (.id_boundary_yMinus, decide (|f.center.y - 0| < tol)),
         (.id_boundary_zMinus, decide (|f.center.z - 0| < tol)),
         (.id_boundary_yPlus, decide (|f.center.y - half_length| < tol))] with
      | some t => .ok { f with boundary_id := .id t }
      | none =>
        if Rod.face_vertex_on_surface tol radius f = true then
          .ok { f with boundary_id := .id .id_boundary_zPlus }
        else .ok f)
    ∧ (¬ (|f.center.z - 0| < tol ∧ |f.center.y - half_length| < tol) →
        first_passing
          [(.id_boundary_xMinus, decide (|f.center.x - 0| < tol)),
           (.id_boundary_yMinus, decide (|f.center.y - 0| < tol)),
           (.id_boundary_zMinus, decide (|f.center.z - 0| < tol)),
           (.id_boundary_yPlus, decide (|f.center.y - half_length| < tol))] =
        first_passing
          [(.id_boundary_xMinus, decide (|f.center.x - 0| < tol)),
           (.id_boundary_yMinus, decide (|f.center.y - 0| < tol)),
           (.id_boundary_yPlus, decide (|f.center.y - half_length| < tol)),
           (.id_boundary_zMinus, decide (|f.center.z - 0| < tol))])
    ∧ (¬ |f.center.x - 0| < tol → ¬ |f.center.y - 0| < tol →
        |f.center.z - 0| < tol → |f.center.y - half_length| < tol →
        Rod.set_boundary_id_3d tol half_length radius f =
          .ok { f with boundary_id := .id .id_boundary_zMinus }) := by
  refine ⟨rod_3d_eq_first_passing tol half_length radius f hb, ?_, ?_⟩
  · intro hnot
    simp only [first_passing, decide_eq_true_eq]
    split_ifs <;> first | rfl | (exfalso; exact hnot ⟨by assumption, by assumption⟩)
  · intro h1 h2 h3 _
    simp only [Rod.set_boundary_id_3d, Point.coord, hb, h1, h2, h3, ↓reduceIte]

/-- C7 (amended) at the boundary face with centroid `(5, 10, 0)`, `half_length = 10`. -/
theorem C7_rod_plane_tests_order_witness :
    Rod.set_boundary_id_3d (1 / 10 ^ 8) 10 5 ⟨⟨5, 10, 0⟩, [], true, .cleared, none⟩ =
      .ok ⟨⟨5, 10, 0⟩, [], true, .id .id_boundary_zMinus, none⟩ :=
  (C7_rod_plane_tests_order (1 / 10 ^ 8) 10 5 ⟨⟨5, 10, 0⟩, [], true, .cleared, none⟩ rfl).2.2
    (by norm_num [abs_lt]) (by norm_num [abs_lt]) (by norm_num) (by norm_num)

/-! ## Cell removal -/

/-- A removal step with both assertions fails exactly on the empty and on the complete
set of cells to remove. -/
theorem remove_cells_checked_error_iff (tria : Triangulation) (p : Cell → Bool) :
    (∃ e, remove_cells_checked tria p = .error e) ↔
      ((tria.filter p).length = 0 ∨ (tria.filter p).length = tria.length) := by
  unfold remove_cells_checked
  by_cases h0 : (tria.filter p).length = 0
  · simp [h0]
  · by_cases h1 : (tria.filter p).length = tria.length
    · have hpos : (tria.filter p).length > 0 := Nat.pos_of_ne_zero h0
      simp [h1]
    · have hpos : (tria.filter p).length > 0 := Nat.pos_of_ne_zero h0
      simp [h0, h1, hpos]

/-- A removal step with both assertions that succeeds hands on the cells that were not
selected, and there is one. -/
theorem remove_cells_checked_ok (tria out : Triangulation) (p : Cell → Bool)
    (h : remove_cells_checked tria p = .ok out) :
    out = tria.filter (fun c => !p c) ∧ ∃ c ∈ out, p c = false := by
  unfold remove_cells_checked at h
  split_ifs at h with h0 h1
  cases h
  have hlt : (tria.filter p).length < tria.length :=
    lt_of_le_of_ne (List.length_filter_le p tria) (by simpa using h1)
  obtain ⟨c, hc, hpc⟩ := List.length_filter_lt_length_iff_exists.mp hlt
  have hpc' : p c = false := by simpa using hpc
  refine ⟨rfl, c, ?_, hpc'⟩
  unfold create_triangulation_with_removed_cells
  rw [List.mem_filter]
  exact ⟨hc, by simp [hpc']⟩

/-- The final removal of the dummy cells fails exactly on the empty set. -/
theorem remove_dummy_cells_error_iff (width : ℚ) (tria : Triangulation) :
    (∃ e, QuarterHyperCube_Merged.remove_dummy_cells width tria = .error e) ↔
      (tria.filter (QuarterHyperCube_Merged.is_dummy_cell width)).length = 0 := by
  unfold QuarterHyperCube_Merged.remove_dummy_cells
  by_cases h0 : (tria.filter (QuarterHyperCube_Merged.is_dummy_cell width)).length = 0
  · simp [h0]
  · have hpos : (tria.filter (QuarterHyperCube_Merged.is_dummy_cell width)).length > 0 :=
      Nat.pos_of_ne_zero h0
    simp [h0, hpos]

/-- C9: with the configured constants `HyperRectangle::make_constraints` issues for
`dim = 3` exactly the symmetry constraints (x-minus, x, 0), (y-minus, y, 0),
(z-minus, z, 0), followed for a Dirichlet driver by the load constraint on
`id_boundary_load` in the loading direction; for `dim = 2` the same list without the
z constraint. -/
theorem C9_hyper_rectangle_constraints (driver : enum_driver) (load : ℚ) :
    HyperRectangle.make_constraints HyperRectangle.configured 3 driver load [] =
        [⟨.id_boundary_xMinus, some .x, 0⟩, ⟨.id_boundary_yMinus, some .y, 0⟩,
         ⟨.id_boundary_zMinus, some .z, 0⟩]
        ++ (if driver = .Dirichlet then
              [⟨HyperRectangle.configured.id_boundary_load,
                some HyperRectangle.configured.loading_direction, load⟩]
            else [])
    ∧ HyperRectangle.make_constraints HyperRectangle.configured 2 driver load [] =
        [⟨.id_boundary_xMinus, some .x, 0⟩, ⟨.id_boundary_yMinus, some .y, 0⟩]
        ++ (if driver = .Dirichlet then
              [⟨HyperRectangle.configured.id_boundary_load,
                some HyperRectangle.configured.loading_direction, load⟩]
            else [])
    ∧ HyperRectangle.configured.id_boundary_load = .id_boundary_yPlus
    ∧ HyperRectangle.configured.loading_direction = .y := by
  cases driver <;>
    simp [HyperRectangle.make_constraints, HyperRectangle.configured, when_do, BC_apply]

/-- The symmetry constraints the three builders issue with their configured constants. -/
theorem make_constraints_configured (dim : ℕ) (driver : enum_driver) (load : ℚ) :
    HyperRectangle.make_constraints HyperRectangle.configured dim driver load [] =
        (if dim = 3 then
          [⟨.id_boundary_xMinus, some .x, 0⟩, ⟨.id_boundary_yMinus, some .y, 0⟩,
           ⟨.id_boundary_zMinus, some .z, 0⟩]
         else [⟨.id_boundary_xMinus, some .x, 0⟩, ⟨.id_boundary_yMinus, some .y, 0⟩])
        ++ (if driver = .Dirichlet then [⟨.id_boundary_yPlus, some .y, load⟩] else [])
    ∧ Rod.make_constraints Rod.configured dim driver load [] =
        (if dim = 3 then
          [⟨.id_boundary_xMinus, some .x, 0⟩, ⟨.id_boundary_yMinus, some .y, 0⟩,
           ⟨.id_boundary_zMinus, some .z, 0⟩]
         else [⟨.id_boundary_xMinus, some .x, 0⟩, ⟨.id_boundary_yMinus, some .y, 0⟩])
        ++ (if driver = .Dirichlet then [⟨.id_boundary_yPlus, some .y, load⟩] else [])
    ∧ QuarterHyperCube_Merged.make_constraints QuarterHyperCube_Merged.configured dim driver
          load [] =
        (if dim = 3 then
          [⟨.id_boundary_xMinus, some .x, 0⟩, ⟨.id_boundary_yMinus, some .y, 0⟩,
           ⟨.id_boundary_zMinus, some .z, 0⟩]
         else [⟨.id_boundary_xMinus, some .x, 0⟩, ⟨.id_boundary_yMinus, some .y, 0⟩])
        ++ (if driver = .Dirichlet then [⟨.id_boundary_yPlus, some .y, load⟩] else []) := by
  by_cases hd : dim = 3 <;> cases driver <;>
    simp [HyperRectangle.make_constraints, HyperRectangle.configured, Rod.make_constraints,
      Rod.configured, QuarterHyperCube_Merged.make_constraints,
      QuarterHyperCube_Merged.configured, when_do, BC_apply, hd]

/-- The position of the load constraint in a list of zero-valued constraints followed,
for a Dirichlet driver, by the constraint with the load increment. -/
theorem has_value_current_load_increment_iff (S : List Constraint)
    (hS : ∀ c ∈ S, c.value = 0) (driver : enum_driver) (i : ℕ) :
    has_value_current_load_increment
        (fun load => S ++ (if driver = .Dirichlet then [⟨.id_boundary_yPlus, some .y, load⟩]
          else [])) i
      ↔ driver = .Dirichlet ∧ i = S.length := by
  unfold has_value_current_load_increment
  constructor
  · intro h
    have h1 := h 1
    by_cases hi : i < S.length
    · rw [List.getElem?_append_left hi, List.getElem?_eq_getElem hi] at h1
      have h0 := hS _ (List.getElem_mem hi)
      simp only [Option.map_some'] at h1
      rw [h0] at h1
      norm_num at h1
    · have hi' : S.length ≤ i := not_lt.mp hi
      rw [List.getElem?_append_right hi'] at h1
      by_cases hd : driver = .Dirichlet
      · refine ⟨hd, ?_⟩
        rw [if_pos hd] at h1
        by_contra hne
        have hpos : 0 < i - S.length := by omega
        obtain ⟨k, hk⟩ : ∃ k, i - S.length = k + 1 := ⟨i - S.length - 1, by omega⟩
        rw [hk] at h1
        simp at h1
      · rw [if_neg hd] at h1
        simp at h1
  · rintro ⟨hd, rfl⟩ load
    beta_reduce
    rw [if_pos hd, List.getElem?_append_right (le_refl _)]
    simp

/-- The load statement for a list of zero-valued constraints followed, for a Dirichlet
driver, by the constraint (y-plus, y, load increment). -/
theorem load_statement_of_shape (S : List Constraint) (hS : ∀ c ∈ S, c.value = 0)
    (driver : enum_driver) :
    load_constraint_statement driver
      (fun load => S ++ (if driver = .Dirichlet then [⟨.id_boundary_yPlus, some .y, load⟩]
        else [])) := by
  have key := has_value_current_load_increment_iff S hS driver
  refine ⟨?_, ?_, ?_, ?_⟩
  · constructor
    · rintro ⟨i, hi⟩
      exact ((key i).mp hi).1
    · intro hd
      exact ⟨S.length, (key S.length).mpr ⟨hd, rfl⟩⟩
  · intro i hi load
    obtain ⟨hd, rfl⟩ := (key i).mp hi
    beta_reduce
    rw [if_pos hd, List.getElem?_append_right (le_refl _)]
    simp
  · intro i j hi hj
    rw [((key i).mp hi).2, ((key j).mp hj).2]
  · intro i hi load c hc
    beta_reduce at hc
    by_cases hlt : i < S.length
    · rw [List.getElem?_append_left hlt, List.getElem?_eq_getElem hlt] at hc
      cases hc
      exact hS _ (List.getElem_mem hlt)
    · have hi' : S.length ≤ i := not_lt.mp hlt
      rw [List.getElem?_append_right hi'] at hc
      by_cases hd : driver = .Dirichlet
      · have hne : i ≠ S.length := fun h => hi ((key i).mpr ⟨hd, h⟩)
        obtain ⟨k, hk⟩ : ∃ k, i - S.length = k + 1 := ⟨i - S.length - 1, by omega⟩
        rw [if_pos hd, hk] at hc
        simp at hc
      · rw [if_neg hd] at hc
        simp at hc

/-- C10: in each of the three `make_constraints` functions, for every dimension, a
constraint with value `current_load_increment` is issued iff the driver is Dirichlet, it
is the single constraint (y-plus, y, `current_load_increment`), and every other issued
constraint has value 0; the issued list is the symmetry constraints, issued with the
literal 0 whatever the load increment is, followed for a Dirichlet driver by
(y-plus, y, `current_load_increment`). -/
theorem C10_load_constraint_iff_dirichlet (dim : ℕ) (driver : enum_driver) :
    (load_constraint_statement driver
        (fun load => HyperRectangle.make_constraints HyperRectangle.configured dim driver
          load [])
      ∧ load_constraint_statement driver
        (fun load => Rod.make_constraints Rod.configured dim driver load [])
      ∧ load_constraint_statement driver
        (fun load => QuarterHyperCube_Merged.make_constraints
          QuarterHyperCube_Merged.configured dim driver load []))
    ∧ (∃ sym : List Constraint, (∀ c ∈ sym, c.value = 0)
        ∧ ∀ load : ℚ,
          HyperRectangle.make_constraints HyperRectangle.configured dim driver load [] =
            sym ++ (if driver = .Dirichlet then [⟨.id_boundary_yPlus, some .y, load⟩] else [])
          ∧ Rod.make_constraints Rod.configured dim driver load [] =
            sym ++ (if driver = .Dirichlet then [⟨.id_boundary_yPlus, some .y, load⟩] else [])
          ∧ QuarterHyperCube_Merged.make_constraints QuarterHyperCube_Merged.configured dim
              driver load [] =
            sym ++ (if driver = .Dirichlet then [⟨.id_boundary_yPlus, some .y, load⟩]
                    else [])) := by
  have hS : ∀ c ∈ (if dim = 3 then
      [(⟨.id_boundary_xMinus, some .x, 0⟩ : Constraint), ⟨.id_boundary_yMinus, some .y, 0⟩,
       ⟨.id_boundary_zMinus, some .z, 0⟩]
      else [⟨.id_boundary_xMinus, some .x, 0⟩, ⟨.id_boundary_yMinus, some .y, 0⟩]),
      c.value = 0 := by
    intro c hc
    split_ifs at hc <;> simp at hc <;> rcases hc with rfl | rfl | rfl <;> rfl
  have h1 : (fun load => HyperRectangle.make_constraints HyperRectangle.configured dim driver
      load []) = fun load => _ := funext fun load => (make_constraints_configured dim driver load).1
  have h2 : (fun load => Rod.make_constraints Rod.configured dim driver load [])
      = fun load => _ := funext fun load => (make_constraints_configured dim driver load).2.1
  have h3 : (fun load => QuarterHyperCube_Merged.make_constraints
      QuarterHyperCube_Merged.configured dim driver load [])
      = fun load => _ := funext fun load => (make_constraints_configured dim driver load).2.2
  refine ⟨⟨?_, ?_, ?_⟩, _, hS, fun load => make_constraints_configured dim driver load⟩
  · rw [h1]
    exact load_statement_of_shape _ hS driver
  · rw [h2]
    exact load_statement_of_shape _ hS driver
  · rw [h3]
    exact load_statement_of_shape _ hS driver

/-! ## Rod: the notch radius -/

theorem rod_R_eq (h radius notch_radius : ℚ) :
    Rod.R h radius notch_radius =
      (h ^ 2 + (radius - notch_radius) ^ 2) / (2 * (radius - notch_radius)) := by
  unfold Rod.R
  ring

/-- C11: for `half_notch_length = h > 0` and depth `d = radius - notch_radius > 0` the
notch radius computed by `Rod::make_grid` is `R = (h² + d²)/(2d)`, it satisfies
`(R - d)² + h² = R²`, and the circle of radius `R` about the point at distance `R`
outward from the deepest notch point `(notch_radius, 0)` passes through the deepest
point and through the point `(radius, h)` of the undisturbed surface. -/
theorem C11_notch_radius_circle (h radius notch_radius : ℚ) (hh : 0 < h)
    (hd : 0 < radius - notch_radius) :
    Rod.R h radius notch_radius =
        (h ^ 2 + (radius - notch_radius) ^ 2) / (2 * (radius - notch_radius))
    ∧ (Rod.R h radius notch_radius - (radius - notch_radius)) ^ 2 + h ^ 2 =
        Rod.R h radius notch_radius ^ 2
    ∧ Point.distance_sq ⟨notch_radius + Rod.R h radius notch_radius, 0, 0⟩
        ⟨notch_radius, 0, 0⟩ = Rod.R h radius notch_radius ^ 2
    ∧ Point.distance_sq ⟨notch_radius + Rod.R h radius notch_radius, 0, 0⟩
        ⟨radius, h, 0⟩ = Rod.R h radius notch_radius ^ 2
    ∧ 0 < Rod.R h radius notch_radius := by
  have hne : radius - notch_radius ≠ 0 := hd.ne'
  have hR := rod_R_eq h radius notch_radius
  have hcirc : (Rod.R h radius notch_radius - (radius - notch_radius)) ^ 2 + h ^ 2 =
      Rod.R h radius notch_radius ^ 2 := by
    rw [hR]
    field_simp
    ring
  refine ⟨hR, hcirc, ?_, ?_, ?_⟩
  · simp only [Point.distance_sq]
    ring
  · simp only [Point.distance_sq]
    rw [← hcirc]
    ring
  · rw [hR]
    positivity

/-- C11 for `h = 3`, `radius = 10`, `notch_radius = 9` (`d = 1`, `R = 5`). -/
theorem C11_notch_radius_circle_witness :
    Rod.R 3 10 9 = (3 ^ 2 + (10 - 9) ^ 2) / (2 * (10 - 9))
    ∧ (Rod.R 3 10 9 - (10 - 9)) ^ 2 + 3 ^ 2 = Rod.R 3 10 9 ^ 2
    ∧ Point.distance_sq ⟨9 + Rod.R 3 10 9, 0, 0⟩ ⟨9, 0, 0⟩ = Rod.R 3 10 9 ^ 2
    ∧ Point.distance_sq ⟨9 + Rod.R 3 10 9, 0, 0⟩ ⟨10, 3, 0⟩ = Rod.R 3 10 9 ^ 2
    ∧ 0 < Rod.R 3 10 9 :=
  C11_notch_radius_circle 3 10 9 (by norm_num) (by norm_num)

theorem rod_R_sub_half_width (h radius notch_radius : ℚ) (hd : 0 < radius - notch_radius) :
    Rod.R h radius notch_radius - h =
      (h - (radius - notch_radius)) ^ 2 / (2 * (radius - notch_radius)) := by
  have hne : radius - notch_radius ≠ 0 := hd.ne'
  rw [rod_R_eq]
  field_simp
  ring

theorem rod_R_sub_depth (h radius notch_radius : ℚ) (hd : 0 < radius - notch_radius) :
    Rod.R h radius notch_radius - (radius - notch_radius) =
      (h - (radius - notch_radius)) * (h + (radius - notch_radius))
        / (2 * (radius - notch_radius)) := by
  have hne : radius - notch_radius ≠ 0 := hd.ne'
  rw [rod_R_eq]
  field_simp
  ring

/-- The circle identity of the notch radius and its positivity. -/
theorem rod_R_circle (h radius notch_radius : ℚ) (hh : 0 < h)
    (hd : 0 < radius - notch_radius) :
    (Rod.R h radius notch_radius - (radius - notch_radius)) ^ 2 + h ^ 2 =
        Rod.R h radius notch_radius ^ 2
    ∧ 0 < Rod.R h radius notch_radius := by
  have hne : radius - notch_radius ≠ 0 := hd.ne'
  have hR := rod_R_eq h radius notch_radius
  refine ⟨?_, ?_⟩
  · rw [hR]
    field_simp
    ring
  · rw [hR]
    positivity

/-- The notch radius is at least the depth exactly for `depth ≤ half_width`. -/
theorem rod_R_ge_depth_iff (h radius notch_radius : ℚ) (hh : 0 < h)
    (hd : 0 < radius - notch_radius) :
    radius - notch_radius ≤ Rod.R h radius notch_radius ↔ radius - notch_radius ≤ h := by
  have h2d : 0 < 2 * (radius - notch_radius) := by linarith
  have e2 := rod_R_sub_depth h radius notch_radius hd
  have hsum : 0 < h + (radius - notch_radius) := by linarith
  constructor
  · intro hR
    have h0 : 0 ≤ (h - (radius - notch_radius)) * (h + (radius - notch_radius))
        / (2 * (radius - notch_radius)) := by rw [← e2]; linarith
    have h1 : 0 ≤ (h - (radius - notch_radius)) * (h + (radius - notch_radius)) := by
      have := mul_nonneg h0 h2d.le
      rwa [div_mul_cancel₀ _ h2d.ne'] at this
    by_contra hcon
    have hneg : h - (radius - notch_radius) < 0 := by linarith [not_le.mp hcon]
    have := mul_neg_of_neg_of_pos hneg hsum
    linarith
  · intro hdh
    have h0 : 0 ≤ (h - (radius - notch_radius)) * (h + (radius - notch_radius))
        / (2 * (radius - notch_radius)) :=
      div_nonneg (mul_nonneg (by linarith) hsum.le) h2d.le
    linarith

/-- C12 (counterexample): for `half_width = 1` and `depth = 2` (radius 3, notch radius 1)
`Rod::make_grid` computes `R = 5/4 ≥ half_width` although `depth > half_width`. -/
theorem C12_counterexample_deep_notch :
    Rod.R 1 3 1 = 5 / 4 ∧ (1 : ℚ) ≤ Rod.R 1 3 1 ∧ ¬ ((3 : ℚ) - 1 ≤ 1)
    ∧ ¬ ((1 : ℚ) ≤ Rod.R 1 3 1 ↔ (3 : ℚ) - 1 ≤ 1) := by
  have h : Rod.R 1 3 1 = 5 / 4 := by norm_num [Rod.R]
  rw [h]
  norm_num

/-- C12 (amended): for every `half_width > 0` and `depth > 0`, with `R` as computed by
`Rod::make_grid`, `R ≥ half_width` always holds, with equality exactly when
`depth = half_width`; the condition that holds exactly when `depth ≤ half_width` is
`R ≥ depth`. -/
theorem C12_radius_validity (h radius notch_radius : ℚ) (hh : 0 < h)
    (hd : 0 < radius - notch_radius) :
    h ≤ Rod.R h radius notch_radius
    ∧ (Rod.R h radius notch_radius = h ↔ radius - notch_radius = h)
    ∧ (radius - notch_radius ≤ Rod.R h radius notch_radius ↔ radius - notch_radius ≤ h) := by
  have h2d : 0 < 2 * (radius - notch_radius) := by linarith
  have e1 := rod_R_sub_half_width h radius notch_radius hd
  have hsq : 0 ≤ (h - (radius - notch_radius)) ^ 2 / (2 * (radius - notch_radius)) :=
    div_nonneg (sq_nonneg _) h2d.le
  refine ⟨by linarith, ?_, ?_⟩
  · constructor
    · intro hR
      have h0 : (h - (radius - notch_radius)) ^ 2 / (2 * (radius - notch_radius)) = 0 := by
        rw [← e1, hR, sub_self]
      rcases div_eq_zero_iff.mp h0 with h1 | h1
      · have := pow_eq_zero_iff (two_ne_zero) |>.mp h1
        linarith
      · exact absurd h1 h2d.ne'
    · intro hdh
      have h0 : Rod.R h radius notch_radius - h = 0 := by
        rw [e1, hdh, sub_self]
        simp
      linarith
  · exact rod_R_ge_depth_iff h radius notch_radius hh hd

/-- C12 (amended) for `half_width = 1`, `depth = 2`. -/
theorem C12_radius_validity_witness :
    (1 : ℚ) ≤ Rod.R 1 3 1
    ∧ (Rod.R 1 3 1 = 1 ↔ (3 : ℚ) - 1 = 1)
    ∧ ((3 : ℚ) - 1 ≤ Rod.R 1 3 1 ↔ (3 : ℚ) - 1 ≤ 1) :=
  C12_radius_validity 1 3 1 (by norm_num) (by norm_num)

/-! ## The notch profiles -/

/-- The rational statement `is_round_offset_as_printed` is `o = R − √(R² − s²)` over the
reals, inside the band and where the root is real. -/
theorem is_round_offset_as_printed_iff_sqrt (R half_width s o : ℚ) (hs : s ≤ half_width)
    (hroot : 0 ≤ R ^ 2 - s ^ 2) :
    is_round_offset_as_printed R half_width s o ↔
      (o : ℝ) = (R : ℝ) - Real.sqrt ((R : ℝ) ^ 2 - (s : ℝ) ^ 2) := by
  unfold is_round_offset_as_printed
  rw [if_pos hs]
  have hroot' : (0 : ℝ) ≤ (R : ℝ) ^ 2 - (s : ℝ) ^ 2 := by exact_mod_cast hroot
  constructor
  · rintro ⟨hle, hsq⟩
    have hle' : (0 : ℝ) ≤ (R : ℝ) - o := by
      have : (o : ℝ) ≤ R := by exact_mod_cast hle
      linarith
    have hsq' : ((R : ℝ) - o) ^ 2 = (R : ℝ) ^ 2 - (s : ℝ) ^ 2 := by exact_mod_cast hsq
    rw [← hsq', Real.sqrt_sq hle']
    ring
  · intro ho
    have hsqrt : Real.sqrt ((R : ℝ) ^ 2 - (s : ℝ) ^ 2) = (R : ℝ) - o := by linarith
    have hnn : (0 : ℝ) ≤ (R : ℝ) - o := by rw [← hsqrt]; exact Real.sqrt_nonneg _
    have hsq : ((R : ℝ) - o) ^ 2 = (R : ℝ) ^ 2 - (s : ℝ) ^ 2 := by
      rw [← hsqrt, Real.sq_sqrt hroot']
    refine ⟨?_, ?_⟩
    · have : (o : ℝ) ≤ R := by linarith
      exact_mod_cast this
    · exact_mod_cast hsq

/-- Inside the band the offset is the depth less the height that the printed formula
gives. -/
theorem is_round_offset_iff_as_printed (depth R half_width s o : ℚ) (hs : s ≤ half_width) :
    is_round_offset depth R half_width s o ↔
      is_round_offset_as_printed R half_width s (depth - o) := by
  unfold is_round_offset is_round_offset_as_printed
  rw [if_pos hs, if_pos hs]
  have e : R - (depth - o) = o - depth + R := by ring
  rw [e]
  constructor
  · rintro ⟨h1, h2⟩
    exact ⟨by linarith, h2⟩
  · rintro ⟨h1, h2⟩
    exact ⟨by linarith, h2⟩

/-- The rational statement `is_round_offset` is `o = depth − (R − √(R² − s²))` over the
reals, inside the band and where the root is real. -/
theorem is_round_offset_iff_sqrt (depth R half_width s o : ℚ) (hs : s ≤ half_width)
    (hroot : 0 ≤ R ^ 2 - s ^ 2) :
    is_round_offset depth R half_width s o ↔
      (o : ℝ) = (depth : ℝ) - ((R : ℝ) - Real.sqrt ((R : ℝ) ^ 2 - (s : ℝ) ^ 2)) := by
  rw [is_round_offset_iff_as_printed depth R half_width s o hs,
    is_round_offset_as_printed_iff_sqrt R half_width s (depth - o) hs hroot]
  push_cast
  constructor <;> intro h <;> linarith

theorem linear_offset_antitone (depth half_width s t : ℚ) (hw : 0 < half_width)
    (hd : 0 ≤ depth) (hst : s ≤ t) :
    linear_offset depth half_width t ≤ linear_offset depth half_width s := by
  unfold linear_offset
  apply max_le_max le_rfl
  apply min_le_min le_rfl
  apply mul_le_mul_of_nonneg_left _ hd
  have : s / half_width ≤ t / half_width := div_le_div_of_nonneg_right hst hw.le
  linarith

theorem linear_offset_in_band (depth half_width s : ℚ) (hw : 0 < half_width)
    (hd : 0 ≤ depth) (hs0 : 0 ≤ s) (hs1 : s ≤ half_width) :
    linear_offset depth half_width s = depth * (1 - s / half_width) := by
  unfold linear_offset
  have h1 : s / half_width ≤ 1 := (div_le_one hw).mpr hs1
  have h0 : 0 ≤ s / half_width := div_nonneg hs0 hw.le
  have hle : depth * (1 - s / half_width) ≤ depth := by nlinarith
  have hnn : 0 ≤ depth * (1 - s / half_width) := mul_nonneg hd (by linarith)
  rw [min_eq_right hle, max_eq_right hnn]

/-- C15 (counterexample): in the end-to-end scenario the vertex `(2, 4)` has axial
distance 1 = half_width from the notch centre, `Offset(1) = 0`, and the vertex keeps
`x = 2`; it does not move to `x = 1.5`. -/
theorem C15_counterexample_band_edge_vertex :
    linear_offset (1 / 2) 1 |(4 : ℚ) - 5| = 0
    ∧ notch_vertex_linear end_to_end_notch 1 ⟨2, 4, 0⟩ = ⟨2, 4, 0⟩
    ∧ (notch_vertex_linear end_to_end_notch 1 ⟨2, 4, 0⟩).x ≠ 3 / 2 := by
  have h0 : linear_offset (1 / 2) 1 |(4 : ℚ) - 5| = 0 := by
    norm_num [linear_offset, abs_of_neg]
  have h1 : notch_vertex_linear end_to_end_notch 1 ⟨2, 4, 0⟩ = ⟨2, 4, 0⟩ := by
    unfold notch_vertex_linear
    simp only [end_to_end_notch, Point.coord, h0]
    norm_num [abs_le]
  refine ⟨h0, h1, ?_⟩
  rw [h1]
  norm_num

/-- C15 (amended): in the end-to-end scenario (rectangle 2 by 10, linear notch of half
width 1 and depth 0.5 centred at `y = 5` on the face `x = 2`) every vertex `(2, y)` with
`y` in `[4, 6]` is moved to `x = 2 − Offset(|y − 5|)`: the vertex at `(2, 5)` moves to
`x = 1.5`, the vertex at `(2, 5.9)` to `x = 1.95`, the vertex at `(2, 4)` on the edge of
the band keeps `x = 2`, and the vertex at `y = 6.5` is unchanged. -/
theorem C15_end_to_end_linear_notch :
    (∀ y : ℚ, 4 ≤ y → y ≤ 6 →
      notch_vertex_linear end_to_end_notch 1 ⟨2, y, 0⟩ =
        ⟨2 - linear_offset (1 / 2) 1 |y - 5|, y, 0⟩)
    ∧ notch_vertex_linear end_to_end_notch 1 ⟨2, 5, 0⟩ = ⟨3 / 2, 5, 0⟩
    ∧ notch_vertex_linear end_to_end_notch 1 ⟨2, 59 / 10, 0⟩ = ⟨39 / 20, 59 / 10, 0⟩
    ∧ notch_vertex_linear end_to_end_notch 1 ⟨2, 4, 0⟩ = ⟨2, 4, 0⟩
    ∧ notch_vertex_linear end_to_end_notch 1 ⟨2, 13 / 2, 0⟩ = ⟨2, 13 / 2, 0⟩ := by
  have hgen : ∀ y : ℚ, 4 ≤ y → y ≤ 6 →
      notch_vertex_linear end_to_end_notch 1 ⟨2, y, 0⟩ =
        ⟨2 - linear_offset (1 / 2) 1 |y - 5|, y, 0⟩ := by
    intro y h4 h6
    have hband : |y - 5| ≤ 1 := abs_le.mpr ⟨by linarith, by linarith⟩
    unfold notch_vertex_linear
    simp only [end_to_end_notch, Point.coord]
    rw [if_pos ⟨by ring, hband⟩]
    simp
  refine ⟨hgen, ?_, ?_, ?_, ?_⟩
  · rw [hgen 5 (by norm_num) (by norm_num)]
    norm_num [linear_offset]
  · rw [hgen (59 / 10) (by norm_num) (by norm_num)]
    have habs : |(59 : ℚ) / 10 - 5| = 9 / 10 := by
      rw [abs_of_pos (by norm_num)]; norm_num
    rw [habs]
    norm_num [linear_offset]
  · rw [hgen 4 (by norm_num) (by norm_num)]
    have habs : |(4 : ℚ) - 5| = 1 := by
      rw [abs_of_neg (by norm_num)]; norm_num
    rw [habs]
    norm_num [linear_offset]
  · unfold notch_vertex_linear
    simp only [end_to_end_notch, Point.coord]
    have hout : ¬ |(13 : ℚ) / 2 - 5| ≤ 1 := by
      rw [abs_of_pos (by norm_num)]; norm_num
    rw [if_neg (fun h => hout h.2)]

/-- C15 (amended) at the vertex `(2, 9/2)`. -/
theorem C15_end_to_end_linear_notch_witness :
    notch_vertex_linear end_to_end_notch 1 ⟨2, 9 / 2, 0⟩ =
      ⟨2 - linear_offset (1 / 2) 1 |(9 : ℚ) / 2 - 5|, 9 / 2, 0⟩ :=
  C15_end_to_end_linear_notch.1 (9 / 2) (by norm_num) (by norm_num)

/-! ## Notch geometry: where it is checked -/

/-- The constructor rejects exactly the invalid geometries. -/
theorem NotchClass_construct_eq (n : NotchClass) :
    (notch_geometry_invalid n.notch_type (n.length / 2) n.depth →
        NotchClass.construct n = .error .invalid_notch_geometry)
    ∧ (¬ notch_geometry_invalid n.notch_type (n.length / 2) n.depth →
        NotchClass.construct n = .ok n) := by
  unfold NotchClass.construct
  constructor
  · intro h
    rw [if_pos h]
  · intro h
    rw [if_neg h]

/-- The helpers `Rod.validating_helpers` meet the failure semantics. -/
theorem validating_helpers_fails_fast (move : Rod.NotchArgs → Triangulation → Triangulation) :
    Rod.fails_fast (Rod.validating_helpers move) := by
  intro arguments tria h
  simp only [Rod.validating_helpers, h, ↓reduceIte]

/-- C18 (code evaluated at the failing input): with `refine_special = 1` the loop bound
`std::max(0, int(5 - nbr_global_refinements))` gives 3, 2, 1 passes for 2, 3, 4 global
refinements and none for 5 up to `2^31 - 1`, but 4 passes for 1 global refinement and
5 passes for none, where the strategy comment of the source says "for everything else,
don't refine in this special manner". Without `refine_special = 1` there is no pass. -/
theorem C18_special_refinement_passes :
    QuarterHyperCube_Merged.n_special_refinements true 2 = 3
    ∧ QuarterHyperCube_Merged.n_special_refinements true 3 = 2
    ∧ QuarterHyperCube_Merged.n_special_refinements true 4 = 1
    ∧ (∀ n, 5 ≤ n → n < 2 ^ 31 → QuarterHyperCube_Merged.n_special_refinements true n = 0)
    ∧ QuarterHyperCube_Merged.n_special_refinements true 1 = 4
    ∧ QuarterHyperCube_Merged.n_special_refinements true 0 = 5
    ∧ (∀ n, QuarterHyperCube_Merged.n_special_refinements false n = 0) := by
  refine ⟨by decide, by decide, by decide, ?_, by decide, by decide, fun _ => rfl⟩
  intro n h5 hn
  unfold QuarterHyperCube_Merged.n_special_refinements
    QuarterHyperCube_Merged.n_special_refinement_loops QuarterHyperCube_Merged.int_5_minus
  rw [if_pos rfl, Int.toNat_eq_zero, max_le_iff]
  refine ⟨le_rfl, ?_⟩
  split_ifs <;> omega

/-! ## HyperRectangle: the namespace variable `refine_special` -/

/-- C19 (code evaluated at the failing input): the 3D `make_grid` builds its flat base
mesh from the namespace variable `refine_special`, which only the 2D `make_grid`
assigns. For the record asking for the coarse-and-fine brick, a 3D call in the initial
state builds the uniform 2-by-10 brick, the same 3D call after a 2D call builds the
coarse-and-fine brick, and the 2D call itself builds the coarse-and-fine brick. -/
theorem C19_refine_special_survives_calls :
    (∀ (g : HyperRectangle.Globals) (p : Parameter.GeneralParameters),
        (HyperRectangle.make_grid_3d g p).base =
            HyperRectangle.make_grid_flat_base g.refine_special p.height p.width
              p.grid_y_repetitions p.nbr_global_refinements p.nbr_holeEdge_refinements
        ∧ (HyperRectangle.make_grid_3d g p).globals.refine_special = g.refine_special
        ∧ (HyperRectangle.make_grid_2d g p).base =
            HyperRectangle.make_grid_flat_base p.refine_special p.height p.width
              p.grid_y_repetitions p.nbr_global_refinements p.nbr_holeEdge_refinements
        ∧ (HyperRectangle.make_grid_2d g p).globals.refine_special = p.refine_special)
    ∧ (HyperRectangle.make_grid_3d HyperRectangle.initial_globals
          coarse_and_fine_parameters).base =
        .uniform (2, 10) ⟨0, 0, 0⟩ ⟨2, 10, 0⟩
    ∧ (HyperRectangle.make_grid_3d
          (HyperRectangle.make_grid_2d HyperRectangle.initial_globals
            coarse_and_fine_parameters).globals
          coarse_and_fine_parameters).base =
        .coarse_and_fine (10, 10) (10, 10) ⟨0, 0, 0⟩ ⟨2, 10 / 6, 0⟩ ⟨0, 10, 0⟩
    ∧ (HyperRectangle.make_grid_2d HyperRectangle.initial_globals
          coarse_and_fine_parameters).base =
        .coarse_and_fine (10, 10) (10, 10) ⟨0, 0, 0⟩ ⟨2, 10 / 6, 0⟩ ⟨0, 10, 0⟩
    ∧ (HyperRectangle.make_grid_3d HyperRectangle.initial_globals
          coarse_and_fine_parameters).base ≠
        (HyperRectangle.make_grid_3d
          (HyperRectangle.make_grid_2d HyperRectangle.initial_globals
            coarse_and_fine_parameters).globals
          coarse_and_fine_parameters).base := by
  have hceil : ⌈(10 : ℚ) / 2⌉ = 5 := by norm_num
  have h1 : (HyperRectangle.make_grid_3d HyperRectangle.initial_globals
      coarse_and_fine_parameters).base = .uniform (2, 10) ⟨0, 0, 0⟩ ⟨2, 10, 0⟩ := by
    have hy : HyperRectangle.n_elements_in_y_for_homogeneous_mesh 10 2 2 = 10 := by
      unfold HyperRectangle.n_elements_in_y_for_homogeneous_mesh
      rw [hceil]
      rfl
    show HyperRectangle.make_grid_flat_base .Mesh_refine_special_standard 10 2 2 0 0 = _
    unfold HyperRectangle.make_grid_flat_base
    rw [if_neg (by decide), hy]
    norm_num [HyperRectangle.notch_twice, HyperRectangle.DENP_Laura]
  have h2 : (HyperRectangle.make_grid_2d HyperRectangle.initial_globals
      coarse_and_fine_parameters).base =
      .coarse_and_fine (10, 10) (10, 10) ⟨0, 0, 0⟩ ⟨2, 10 / 6, 0⟩ ⟨0, 10, 0⟩ := by
    simp only [HyperRectangle.make_grid_2d, HyperRectangle.make_grid_flat_base,
      coarse_and_fine_parameters, HyperRectangle.Neto_planeStrain,
      HyperRectangle.length_refined, ↓reduceIte]
  have h3 : (HyperRectangle.make_grid_3d
      (HyperRectangle.make_grid_2d HyperRectangle.initial_globals
        coarse_and_fine_parameters).globals coarse_and_fine_parameters).base =
      .coarse_and_fine (10, 10) (10, 10) ⟨0, 0, 0⟩ ⟨2, 10 / 6, 0⟩ ⟨0, 10, 0⟩ := by
    simp only [HyperRectangle.make_grid_3d, HyperRectangle.make_grid_2d,
      HyperRectangle.make_grid_flat_base, coarse_and_fine_parameters,
      HyperRectangle.Neto_planeStrain, HyperRectangle.length_refined, ↓reduceIte]
  refine ⟨fun g p => ⟨rfl, rfl, rfl, rfl⟩, h1, h3, h2, ?_⟩
  rw [h1, h3]
  intro h
  cases h

/-! ## Rod: the guard on the number of refinements -/

/-- C20: with `refine_special = Mesh_refine_special_standard` the 2D and the 3D rod
builder raise the "Mesh not implemented for only 4 elements in total" error if and only
if `nbr_holeEdge_refinements = 0`, and pass the guard otherwise (the 3D assertion taken
as executed). -/
theorem C20_rod_refinement_guard (parameter : Parameter.GeneralParameters)
    (hstd : parameter.refine_special = .Mesh_refine_special_standard) :
    (Rod.make_grid_2d_assert parameter = .error .not_implemented
        ↔ parameter.nbr_holeEdge_refinements = 0)
    ∧ (Rod.make_grid_3d_assert parameter = .error .not_implemented
        ↔ parameter.nbr_holeEdge_refinements = 0)
    ∧ (parameter.nbr_holeEdge_refinements ≠ 0 →
        Rod.make_grid_2d_assert parameter = .ok ()
        ∧ Rod.make_grid_3d_assert parameter = .ok ()) := by
  have hn : Rod.n_additional_refinements parameter = parameter.nbr_holeEdge_refinements := by
    simp [Rod.n_additional_refinements, hstd]
  unfold Rod.make_grid_2d_assert Rod.make_grid_3d_assert
  rw [hn, if_pos hstd]
  by_cases h0 : parameter.nbr_holeEdge_refinements = 0
  · simp [h0]
  · have hpos : parameter.nbr_holeEdge_refinements > 0 := Nat.pos_of_ne_zero h0
    simp [h0, hpos]

/-- C20 for the rod record with one additional refinement. -/
theorem C20_rod_refinement_guard_witness :
    (Rod.make_grid_2d_assert deep_notch_parameters = .error .not_implemented
        ↔ deep_notch_parameters.nbr_holeEdge_refinements = 0)
    ∧ (Rod.make_grid_3d_assert deep_notch_parameters = .error .not_implemented
        ↔ deep_notch_parameters.nbr_holeEdge_refinements = 0)
    ∧ (deep_notch_parameters.nbr_holeEdge_refinements ≠ 0 →
        Rod.make_grid_2d_assert deep_notch_parameters = .ok ()
        ∧ Rod.make_grid_3d_assert deep_notch_parameters = .ok ()) :=
  C20_rod_refinement_guard deep_notch_parameters rfl

/-! ## Rod: the layer shifting -/

theorem ceil_half (Y : ℕ) : ⌈((Y : ℕ) : ℚ) / 2⌉ = (((Y + 1) / 2 : ℕ) : ℤ) := by
  rw [Int.ceil_eq_iff]
  have h1 : 2 * ((Y + 1) / 2) ≤ Y + 1 := Nat.mul_div_le (Y + 1) 2
  have h2 : Y ≤ 2 * ((Y + 1) / 2) := by omega
  generalize (Y + 1) / 2 = q at h1 h2
  have h1' : (2 : ℚ) * (q : ℚ) ≤ (Y : ℚ) + 1 := by exact_mod_cast h1
  have h2' : (Y : ℚ) ≤ 2 * (q : ℚ) := by exact_mod_cast h2
  rw [Int.cast_natCast]
  constructor <;> linarith

/-- The number of coarse cells in y for the constant `6`: `min(ceil((4+n)/2), 6)`. -/
theorem nbr_of_coarse_y_cells_eq (n : ℕ) :
    Rod.nbr_of_coarse_y_cells 6 n = min ((n + 5) / 2) 6 := by
  unfold Rod.nbr_of_coarse_y_cells Rod.nbr_of_y_cells
  rw [ceil_half]
  have : (4 + n + 1) / 2 = (n + 5) / 2 := by congr 1; omega
  rw [this]
  omega

theorem nbr_of_fine_y_cells_eq (n : ℕ) (hn : 1 ≤ n) :
    Rod.nbr_of_fine_y_cells 6 n = n + 4 - min ((n + 5) / 2) 6 := by
  unfold Rod.nbr_of_fine_y_cells
  rw [nbr_of_coarse_y_cells_eq]
  unfold usub Rod.nbr_of_y_cells
  rw [if_pos (by omega)]
  omega

theorem usub_of_le (a b : ℕ) (h : b ≤ a) : usub a b = a - b := by
  unfold usub
  rw [if_pos h]

theorem loop_range_1_3 : loop_range 1 3 = [1, 2, 3] := by decide

/-- The targets of the first two loops: `k = C-1` down to `1` for `C = 4, 5, 6`. -/
theorem coarse_loops_targets (C : ℕ) (h4 : 4 ≤ C) (h6 : C ≤ 6) (hl hn : ℚ) :
    (Rod.coarse_shifts C hl hn ++ Rod.additional_coarse_shifts C hl hn).map
        LayerShift.new_pos =
      (List.range (C - 1)).map fun j => ((C - 1 - j : ℕ) : ℚ) / C * (hl - hn) + hn := by
  have h31 : loop_range 3 3 = [3] := by decide
  have h34 : loop_range 3 4 = [3, 4] := by decide
  interval_cases C
  · simp [Rod.coarse_shifts, Rod.additional_coarse_shifts, loop_range_1_3, usub_of_le,
      List.range_succ]
  · simp [Rod.coarse_shifts, Rod.additional_coarse_shifts, loop_range_1_3, usub_of_le,
      List.range_succ, h31]
  · simp [Rod.coarse_shifts, Rod.additional_coarse_shifts, loop_range_1_3, usub_of_le,
      List.range_succ, h34]

/-- The targets of the first two loops for `C = 3`: `k = 2, 1, 0`. -/
theorem coarse_loops_targets_three (hl hn : ℚ) :
    (Rod.coarse_shifts 3 hl hn ++ Rod.additional_coarse_shifts 3 hl hn).map
        LayerShift.new_pos =
      (List.range 3).map fun j => ((3 - 1 - j : ℕ) : ℚ) / (3 : ℕ) * (hl - hn) + hn := by
  simp [Rod.coarse_shifts, Rod.additional_coarse_shifts, loop_range_1_3, usub_of_le,
    List.range_succ]

/-- The targets of the third loop, started at `i = C-1`: `(n+4-C-j)/F` of the notch
length for `j = 0 .. n+3-C`. -/
theorem notch_loop_targets (C F n : ℕ) (h1 : 1 ≤ C) (h2 : C ≤ n + 3) (hl hn : ℚ) :
    (Rod.notch_shifts C F n hl hn).map LayerShift.new_pos =
      (List.range (n + 4 - C)).map fun j => ((n + 4 - C - j : ℕ) : ℚ) / F * hn := by
  unfold Rod.notch_shifts loop_range
  rw [usub_of_le C 1 h1, List.map_map, List.map_map]
  have hlen : n + 2 + 1 - (C - 1) = n + 4 - C := by omega
  rw [hlen]
  apply List.map_congr_left
  intro j hj
  rw [List.mem_range] at hj
  have e1 : usub (Rod.nbr_of_y_cells n) 1 = n + 3 := by
    rw [usub_of_le _ _ (by unfold Rod.nbr_of_y_cells; omega)]
    unfold Rod.nbr_of_y_cells
    omega
  have e2 : usub (n + 3) (C - 1 + j) = n + 4 - C - j := by
    rw [usub_of_le _ _ (by omega)]
    omega
  simp only [Function.comp, e1, e2]

/-- The shape of the target list: the coarse targets `k/C` of the outer length above
the notch length for `k = C-1 .. 0`, followed by the notch targets `k/F` of the notch
length for `k = F-1 .. 1`. -/
theorem shift_targets_shape (n : ℕ) (hn1 : 1 ≤ n) (hl hn : ℚ) :
    Rod.shift_targets 6 n hl hn =
      ((List.range (Rod.nbr_of_coarse_y_cells 6 n)).map fun j =>
        ((Rod.nbr_of_coarse_y_cells 6 n - 1 - j : ℕ) : ℚ)
          / (Rod.nbr_of_coarse_y_cells 6 n : ℕ) * (hl - hn) + hn)
      ++ ((List.range (Rod.nbr_of_fine_y_cells 6 n - 1)).map fun j =>
        ((Rod.nbr_of_fine_y_cells 6 n - 1 - j : ℕ) : ℚ)
          / (Rod.nbr_of_fine_y_cells 6 n : ℕ) * hn) := by
  have hC := nbr_of_coarse_y_cells_eq n
  have hF := nbr_of_fine_y_cells_eq n hn1
  unfold Rod.shift_targets Rod.layer_shifts
  rw [List.map_append]
  by_cases hsmall : n ≤ 2
  · have hC3 : Rod.nbr_of_coarse_y_cells 6 n = 3 := by rw [hC]; omega
    have hF' : Rod.nbr_of_fine_y_cells 6 n - 1 = n := by rw [hF]; omega
    rw [hC3, coarse_loops_targets_three, hF']
    have hC' : Rod.nbr_of_coarse_y_cells_for_notch 3 n = 4 := by
      unfold Rod.nbr_of_coarse_y_cells_for_notch
      rw [if_pos hsmall]
    rw [hC', notch_loop_targets 4 _ n (by omega) (by omega)]
    have e : n + 4 - 4 = n := by omega
    rw [e]
  · have hC4 : 4 ≤ Rod.nbr_of_coarse_y_cells 6 n := by rw [hC]; omega
    have hC6 : Rod.nbr_of_coarse_y_cells 6 n ≤ 6 := by rw [hC]; omega
    have hCn : Rod.nbr_of_coarse_y_cells 6 n ≤ n + 3 := by rw [hC]; omega
    have hFpos : 2 ≤ Rod.nbr_of_fine_y_cells 6 n := by rw [hF]; omega
    have hFeq : n + 4 - Rod.nbr_of_coarse_y_cells 6 n = Rod.nbr_of_fine_y_cells 6 n := by
      rw [hF, hC]
    have hC' : Rod.nbr_of_coarse_y_cells_for_notch (Rod.nbr_of_coarse_y_cells 6 n) n =
        Rod.nbr_of_coarse_y_cells 6 n := by
      unfold Rod.nbr_of_coarse_y_cells_for_notch
      rw [if_neg hsmall]
    rw [hC', coarse_loops_targets _ hC4 hC6, notch_loop_targets _ _ n (by omega) hCn, hFeq]
    generalize Rod.nbr_of_coarse_y_cells 6 n = C at hC4 hC6
    generalize Rod.nbr_of_fine_y_cells 6 n = F at hFpos
    obtain ⟨c, rfl⟩ : ∃ c, C = c + 1 := ⟨C - 1, by omega⟩
    obtain ⟨f, rfl⟩ : ∃ f, F = f + 1 := ⟨F - 1, by omega⟩
    have hfne : ((f + 1 : ℕ) : ℚ) ≠ 0 := by positivity
    rw [List.range_succ (n := c), List.map_append, List.range_succ_eq_map (n := f),
      List.map_cons, List.map_map, List.append_assoc]
    simp only [Nat.add_sub_cancel, List.map_cons, List.map_nil, List.singleton_append,
      Nat.sub_self, Nat.sub_zero, Nat.cast_zero, zero_div, zero_mul, zero_add,
      div_self hfne, one_mul]
    congr 2
    apply List.map_congr_left
    intro j hj
    rw [List.mem_range] at hj
    simp only [Function.comp]
    have : f + 1 - Nat.succ j = f - j := by omega
    rw [this]

/-- Every coarse target lies at or above the notch length. -/
theorem coarse_part_ge (C : ℕ) (hl hn : ℚ) (h1 : hn < hl) :
    ∀ t ∈ (List.range C).map (fun j => ((C - 1 - j : ℕ) : ℚ) / (C : ℕ) * (hl - hn) + hn),
      hn ≤ t := by
  intro t ht
  rw [List.mem_map] at ht
  obtain ⟨j, _, rfl⟩ := ht
  have h : (0 : ℚ) ≤ ((C - 1 - j : ℕ) : ℚ) / (C : ℕ) := by positivity
  nlinarith

/-- Every notch target lies strictly between `0` and the notch length. -/
theorem fine_part_lt (F : ℕ) (hn : ℚ) (h0 : 0 < hn) :
    ∀ t ∈ (List.range (F - 1)).map (fun j => ((F - 1 - j : ℕ) : ℚ) / (F : ℕ) * hn),
      0 < t ∧ t < hn := by
  intro t ht
  rw [List.mem_map] at ht
  obtain ⟨j, hj, rfl⟩ := ht
  rw [List.mem_range] at hj
  have hF : (0 : ℚ) < (F : ℕ) := by exact_mod_cast (by omega : 0 < F)
  have hk : (0 : ℚ) < ((F - 1 - j : ℕ) : ℚ) := by exact_mod_cast (by omega : 0 < F - 1 - j)
  have hk' : ((F - 1 - j : ℕ) : ℚ) < (F : ℕ) := by exact_mod_cast (by omega : F - 1 - j < F)
  have h1 : ((F - 1 - j : ℕ) : ℚ) / (F : ℕ) < 1 := by rw [div_lt_one hF]; exact hk'
  have h2 : 0 < ((F - 1 - j : ℕ) : ℚ) / (F : ℕ) := by positivity
  constructor
  · positivity
  · nlinarith

/-- The number of fine cells is at least `2` for `n ≥ 1`. -/
theorem nbr_of_fine_y_cells_ge (n : ℕ) (hn : 1 ≤ n) : 2 ≤ Rod.nbr_of_fine_y_cells 6 n := by
  rw [nbr_of_fine_y_cells_eq n hn]
  omega

theorem mem_loop_range (a b i : ℕ) : i ∈ loop_range a b ↔ a ≤ i ∧ i ≤ b := by
  unfold loop_range
  rw [List.mem_map]
  constructor
  · rintro ⟨j, hj, rfl⟩
    rw [List.mem_range] at hj
    omega
  · rintro ⟨h1, h2⟩
    exact ⟨i - a, by rw [List.mem_range]; omega, by omega⟩

/-- The second loop performs a shift exactly when its guard `C > 4` holds. -/
theorem additional_coarse_shifts_ne_nil (C : ℕ) (hC : C ≤ 6) (hl hn : ℚ) :
    Rod.additional_coarse_shifts C hl hn ≠ [] ↔ 4 < C := by
  unfold Rod.additional_coarse_shifts
  constructor
  · intro h
    by_contra hc
    rw [if_neg hc] at h
    exact h rfl
  · intro h
    rw [if_pos h]
    have h3 : 3 ∈ loop_range 3 (usub C 2) := by
      rw [mem_loop_range, usub_of_le C 2 (by omega)]
      omega
    intro hnil
    rw [List.map_eq_nil_iff] at hnil
    rw [hnil] at h3
    exact List.not_mem_nil 3 h3

/-- C23, counterexample: with `n = 5` the rod has `4 + 5 = 9` cells in y, which is not
more than `9`, yet the additional coarse-layer loop performs a shift (`i = 3`, the
layer at `half_length/8`). -/
theorem C23_additional_shifts_counterexample :
    ¬ (Rod.additional_coarse_shifts
          (Rod.nbr_of_coarse_y_cells Rod.n_max_of_elements_in_the_coarse_area 5) 10 2 ≠ []
        ↔ 4 + 5 > 9) := by
  intro h
  have h1 : Rod.additional_coarse_shifts
      (Rod.nbr_of_coarse_y_cells Rod.n_max_of_elements_in_the_coarse_area 5) 10 2 ≠ [] := by
    show Rod.additional_coarse_shifts (Rod.nbr_of_coarse_y_cells 6 5) 10 2 ≠ []
    rw [nbr_of_coarse_y_cells_eq, additional_coarse_shifts_ne_nil _ (by omega)]
    omega
  have h2 := h.mp h1
  omega

/-- C23, amended: the additional coarse-layer loop performs a shift exactly when its
guard `nbr_of_coarse_y_cells > 4` holds, that is exactly when the rod has at least `9`
cells in y, `4 + n ≥ 9`; it then performs `nbr_of_coarse_y_cells − 4` shifts. -/
theorem C23_additional_shifts_iff_nine_cells (n : ℕ) (half_length half_notch_length : ℚ) :
    (Rod.additional_coarse_shifts
          (Rod.nbr_of_coarse_y_cells Rod.n_max_of_elements_in_the_coarse_area n)
          half_length half_notch_length ≠ []
        ↔ 4 + n ≥ 9) ∧
      (Rod.nbr_of_coarse_y_cells Rod.n_max_of_elements_in_the_coarse_area n > 4
        ↔ 4 + n ≥ 9) ∧
      (Rod.additional_coarse_shifts
          (Rod.nbr_of_coarse_y_cells Rod.n_max_of_elements_in_the_coarse_area n)
          half_length half_notch_length).length
        = Rod.nbr_of_coarse_y_cells Rod.n_max_of_elements_in_the_coarse_area n - 4 := by
  show (Rod.additional_coarse_shifts (Rod.nbr_of_coarse_y_cells 6 n)
        half_length half_notch_length ≠ [] ↔ 4 + n ≥ 9) ∧
    (Rod.nbr_of_coarse_y_cells 6 n > 4 ↔ 4 + n ≥ 9) ∧
    (Rod.additional_coarse_shifts (Rod.nbr_of_coarse_y_cells 6 n)
        half_length half_notch_length).length = Rod.nbr_of_coarse_y_cells 6 n - 4
  have hC := nbr_of_coarse_y_cells_eq n
  have hC6 : Rod.nbr_of_coarse_y_cells 6 n ≤ 6 := by rw [hC]; omega
  have hiff : Rod.nbr_of_coarse_y_cells 6 n > 4 ↔ 4 + n ≥ 9 := by rw [hC]; omega
  refine ⟨?_, hiff, ?_⟩
  · rw [additional_coarse_shifts_ne_nil _ hC6]
    exact hiff
  · generalize Rod.nbr_of_coarse_y_cells 6 n = C at hC6
    unfold Rod.additional_coarse_shifts
    split_ifs with h
    · rw [List.length_map]
      unfold loop_range
      rw [List.length_map, List.length_range, usub_of_le C 2 (by omega)]
      omega
    · simp only [List.length_nil]
      omega

/-- C28: with `n ≥ 1` additional refinements and the constant
`n_max_of_elements_in_the_coarse_area = 6` no unsigned subtraction of the layer shifting
wraps around: in the first loop `i ≤ 4` and `i ≤ nbr_of_coarse_y_cells`; in the second
loop `nbr_of_coarse_y_cells − 2` and `nbr_of_coarse_y_cells − 1 − i` do not wrap and the
latter is at least `1`; in the third loop `nbr_of_coarse_y_cells − 1` and
`nbr_of_y_cells − 1 − i` do not wrap and the latter is at least `1`;
`nbr_of_fine_y_cells = nbr_of_y_cells − nbr_of_coarse_y_cells` does not wrap and is at
least `2`; so both divisors are non-zero. -/
theorem C28_rod_no_unsigned_wrap (n : ℕ) (hn1 : 1 ≤ n) :
    (∀ i ∈ loop_range 1 3,
        i ≤ 4 ∧ i ≤ Rod.nbr_of_coarse_y_cells Rod.n_max_of_elements_in_the_coarse_area n) ∧
      (Rod.nbr_of_coarse_y_cells Rod.n_max_of_elements_in_the_coarse_area n > 4 →
        2 ≤ Rod.nbr_of_coarse_y_cells Rod.n_max_of_elements_in_the_coarse_area n ∧
        ∀ i ∈ loop_range 3
            (usub (Rod.nbr_of_coarse_y_cells Rod.n_max_of_elements_in_the_coarse_area n) 2),
          i ≤ usub (Rod.nbr_of_coarse_y_cells Rod.n_max_of_elements_in_the_coarse_area n) 1 ∧
          1 ≤ usub
            (usub (Rod.nbr_of_coarse_y_cells Rod.n_max_of_elements_in_the_coarse_area n) 1) i ∧
          usub (usub (Rod.nbr_of_coarse_y_cells Rod.n_max_of_elements_in_the_coarse_area n) 1) i
            < Rod.nbr_of_coarse_y_cells Rod.n_max_of_elements_in_the_coarse_area n) ∧
      (1 ≤ Rod.nbr_of_coarse_y_cells_for_notch
          (Rod.nbr_of_coarse_y_cells Rod.n_max_of_elements_in_the_coarse_area n) n ∧
        1 ≤ Rod.nbr_of_y_cells n ∧
        ∀ i ∈ loop_range
            (usub (Rod.nbr_of_coarse_y_cells_for_notch
              (Rod.nbr_of_coarse_y_cells Rod.n_max_of_elements_in_the_coarse_area n) n) 1)
            (n + 2),
          i ≤ usub (Rod.nbr_of_y_cells n) 1 ∧
          1 ≤ usub (usub (Rod.nbr_of_y_cells n) 1) i ∧
          usub (usub (Rod.nbr_of_y_cells n) 1) i < Rod.nbr_of_y_cells n) ∧
      (Rod.nbr_of_coarse_y_cells Rod.n_max_of_elements_in_the_coarse_area n
          ≤ Rod.nbr_of_y_cells n ∧
        Rod.nbr_of_fine_y_cells Rod.n_max_of_elements_in_the_coarse_area n
          = Rod.nbr_of_y_cells n
            - Rod.nbr_of_coarse_y_cells Rod.n_max_of_elements_in_the_coarse_area n ∧
        2 ≤ Rod.nbr_of_fine_y_cells Rod.n_max_of_elements_in_the_coarse_area n) ∧
      ((Rod.nbr_of_coarse_y_cells Rod.n_max_of_elements_in_the_coarse_area n : ℕ) : ℚ) ≠ 0 ∧
      ((Rod.nbr_of_fine_y_cells Rod.n_max_of_elements_in_the_coarse_area n : ℕ) : ℚ) ≠ 0 := by
  have hC : Rod.nbr_of_coarse_y_cells Rod.n_max_of_elements_in_the_coarse_area n
      = min ((n + 5) / 2) 6 := nbr_of_coarse_y_cells_eq n
  have hF : Rod.nbr_of_fine_y_cells Rod.n_max_of_elements_in_the_coarse_area n
      = n + 4 - min ((n + 5) / 2) 6 := nbr_of_fine_y_cells_eq n hn1
  have hY : Rod.nbr_of_y_cells n = 4 + n := rfl
  rw [hC, hF, hY]
  have hC3 : 3 ≤ min ((n + 5) / 2) 6 := by omega
  have hC6 : min ((n + 5) / 2) 6 ≤ 6 := by omega
  have hCn : min ((n + 5) / 2) 6 + 2 ≤ n + 4 := by omega
  generalize min ((n + 5) / 2) 6 = C at hC3 hC6 hCn
  refine ⟨?_, ?_, ⟨?_, by omega, ?_⟩, ⟨by omega, by omega, by omega⟩, ?_, ?_⟩
  · intro i hi
    rw [mem_loop_range] at hi
    omega
  · intro h4
    refine ⟨by omega, ?_⟩
    intro i hi
    rw [mem_loop_range, usub_of_le C 2 (by omega)] at hi
    rw [usub_of_le C 1 (by omega), usub_of_le (C - 1) i (by omega)]
    omega
  · unfold Rod.nbr_of_coarse_y_cells_for_notch
    split_ifs <;> omega
  · intro i hi
    have hC1 : 1 ≤ Rod.nbr_of_coarse_y_cells_for_notch C n := by
      unfold Rod.nbr_of_coarse_y_cells_for_notch
      split_ifs <;> omega
    rw [mem_loop_range, usub_of_le _ 1 hC1] at hi
    rw [usub_of_le (4 + n) 1 (by omega), usub_of_le (4 + n - 1) i (by omega)]
    omega
  · have : 0 < C := by omega
    positivity
  · have : 0 < n + 4 - C := by omega
    positivity

theorem C28_rod_no_unsigned_wrap_witness :
    1 ≤ 1 ∧ 2 ≤ Rod.nbr_of_fine_y_cells Rod.n_max_of_elements_in_the_coarse_area 1 :=
  ⟨by decide, (C28_rod_no_unsigned_wrap 1 (by decide)).2.2.2.1.2.2⟩

/-! ## Quarter plate: which faces receive the manifold id -/

/-- C24, counterexample: in the ring cell `hole_cell_reversed` around the hole of radius
`1`, face 0 joins `(1,0)` and `(2,0)`; its centre `(3/2, 0)` lies on `y = 0`, so the
if-chain tags it `id_boundary_yMinus`, and the manifold loop, which runs for every
boundary face whatever its tag, finds the vertex `(1,0)` on the hole and gives the face
`manifold_id_hole`. -/
theorem C24_plane_face_receives_manifold_counterexample :
    hole_cell_reversed.faces.head? = some (line_face ⟨1, 0, 0⟩ ⟨2, 0, 0⟩ true) ∧
      (QuarterHyperCube_Merged.set_ids_face_2d QuarterHyperCube_Merged.search_tolerance 100 1
          hole_cell_reversed.vertices (line_face ⟨1, 0, 0⟩ ⟨2, 0, 0⟩ true)).1 =
        { line_face ⟨1, 0, 0⟩ ⟨2, 0, 0⟩ true with
            boundary_id := .id .id_boundary_yMinus,
            manifold_id := some QuarterHyperCube_Merged.manifold_id_hole } := by
  have hr : QuarterHyperCube_Merged.vertex_on_hole_2d QuarterHyperCube_Merged.search_tolerance 1
      hole_cell_reversed.vertices = true := by
    norm_num [QuarterHyperCube_Merged.vertex_on_hole_2d, hole_cell_reversed, quad_cell,
      vertices_per_face, near_radius, Point.distance_sq,
      QuarterHyperCube_Merged.search_tolerance]
  refine ⟨rfl, ?_⟩
  simp only [QuarterHyperCube_Merged.set_ids_face_2d,
    QuarterHyperCube_Merged.set_boundary_id_2d, QuarterHyperCube_Merged.set_manifold_id, hr]
  norm_num [line_face, face_center, Point.coord, abs_lt,
    QuarterHyperCube_Merged.search_tolerance]

/-- The if-chain of the 2D pass leaves the manifold id of the face alone. -/
theorem set_boundary_id_2d_manifold_id (tol width holeRadius : ℚ) (cv : List Point) (f : Face) :
    (QuarterHyperCube_Merged.set_boundary_id_2d tol width holeRadius cv f).1.manifold_id
      = f.manifold_id := by
  unfold QuarterHyperCube_Merged.set_boundary_id_2d
  split_ifs <;> rfl

/-- The if-chain of the 2D pass tags a cleared face `boundary_id_hole` only when the
vertex test holds. -/
theorem set_boundary_id_2d_hole (tol width holeRadius : ℚ) (cv : List Point) (f : Face)
    (hc : f.boundary_id = .cleared)
    (h : (QuarterHyperCube_Merged.set_boundary_id_2d tol width holeRadius cv f).1.boundary_id
      = .boundary_id_hole) :
    QuarterHyperCube_Merged.vertex_on_hole_2d tol holeRadius cv = true := by
  unfold QuarterHyperCube_Merged.set_boundary_id_2d at h
  split_ifs at h with h1 h2 h3 h4 h5
  · exact h5
  · change f.boundary_id = _ at h
    rw [hc] at h
    cases h

/-- The if-chain of the 2D pass tags a face for which the vertex test holds either with
a plane tag or with `boundary_id_hole`. -/
theorem set_boundary_id_2d_not_plane (tol width holeRadius : ℚ) (cv : List Point) (f : Face)
    (hv : QuarterHyperCube_Merged.vertex_on_hole_2d tol holeRadius cv = true)
    (h : ∀ e, (QuarterHyperCube_Merged.set_boundary_id_2d tol width holeRadius cv f).1.boundary_id
      ≠ .id e) :
    (QuarterHyperCube_Merged.set_boundary_id_2d tol width holeRadius cv f).1.boundary_id
      = .boundary_id_hole := by
  unfold QuarterHyperCube_Merged.set_boundary_id_2d at h ⊢
  split_ifs at h ⊢ with h1 h2 h3 h4
  · exact absurd rfl (h _)
  · exact absurd rfl (h _)
  · exact absurd rfl (h _)
  · exact absurd rfl (h _)
  · rfl

/-- The if-chain of the 3D pass leaves the manifold id of the face alone. -/
theorem set_boundary_id_3d_manifold_id (tol width half_thickness holeRadius : ℚ)
    (cv : List Point) (f : Face) :
    (QuarterHyperCube_Merged.set_boundary_id_3d tol width half_thickness holeRadius cv
      f).1.manifold_id = f.manifold_id := by
  unfold QuarterHyperCube_Merged.set_boundary_id_3d
  split_ifs <;> rfl

/-- The if-chain of the 3D pass tags a cleared face `boundary_id_hole` only when the
vertex test holds. -/
theorem set_boundary_id_3d_hole (tol width half_thickness holeRadius : ℚ) (cv : List Point)
    (f : Face) (hc : f.boundary_id = .cleared)
    (h : (QuarterHyperCube_Merged.set_boundary_id_3d tol width half_thickness holeRadius cv
      f).1.boundary_id = .boundary_id_hole) :
    QuarterHyperCube_Merged.vertex_on_hole_3d tol holeRadius cv = true := by
  unfold QuarterHyperCube_Merged.set_boundary_id_3d at h
  split_ifs at h with h1 h2 h3 h4 h5 h6 h7
  · exact h7
  · change f.boundary_id = _ at h
    rw [hc] at h
    cases h

/-- The if-chain of the 3D pass tags a face for which the vertex test holds either with
a plane tag or with `boundary_id_hole`. -/
theorem set_boundary_id_3d_not_plane (tol width half_thickness holeRadius : ℚ)
    (cv : List Point) (f : Face)
    (hv : QuarterHyperCube_Merged.vertex_on_hole_3d tol holeRadius cv = true)
    (h : ∀ e, (QuarterHyperCube_Merged.set_boundary_id_3d tol width half_thickness holeRadius cv
      f).1.boundary_id ≠ .id e) :
    (QuarterHyperCube_Merged.set_boundary_id_3d tol width half_thickness holeRadius cv
      f).1.boundary_id = .boundary_id_hole := by
  unfold QuarterHyperCube_Merged.set_boundary_id_3d at h ⊢
  split_ifs at h ⊢ with h1 h2 h3 h4 h5 h6
  · exact absurd rfl (h _)
  · exact absurd rfl (h _)
  · exact absurd rfl (h _)
  · exact absurd rfl (h _)
  · exact absurd rfl (h _)
  · exact absurd rfl (h _)
  · rfl

/-- The manifold loop keeps the tag of the face and sets the manifold id when the vertex
test holds. -/
theorem set_manifold_id_fields (b : Bool) (g : Face) :
    (QuarterHyperCube_Merged.set_manifold_id b g).boundary_id = g.boundary_id
      ∧ (QuarterHyperCube_Merged.set_manifold_id b g).manifold_id
        = if b then some QuarterHyperCube_Merged.manifold_id_hole else g.manifold_id := by
  unfold QuarterHyperCube_Merged.set_manifold_id
  cases b <;> simp

/-- The 2D loop body on a cleared boundary face: the manifold id follows the vertex
test, the hole tag implies the vertex test, and the vertex test without a plane tag
gives the hole tag. -/
theorem set_ids_face_2d_cleared (tol width holeRadius : ℚ) (cv : List Point) (g : Face)
    (hb : g.at_boundary = true) (hc : g.boundary_id = .cleared) :
    (QuarterHyperCube_Merged.set_ids_face_2d tol width holeRadius cv g).1.manifold_id
        = (if QuarterHyperCube_Merged.vertex_on_hole_2d tol holeRadius cv = true
            then some QuarterHyperCube_Merged.manifold_id_hole else g.manifold_id)
      ∧ ((QuarterHyperCube_Merged.set_ids_face_2d tol width holeRadius cv g).1.boundary_id
          = .boundary_id_hole →
        QuarterHyperCube_Merged.vertex_on_hole_2d tol holeRadius cv = true
        ∧ (QuarterHyperCube_Merged.set_ids_face_2d tol width holeRadius cv g).1.manifold_id
          = some QuarterHyperCube_Merged.manifold_id_hole)
      ∧ (QuarterHyperCube_Merged.vertex_on_hole_2d tol holeRadius cv = true →
        (∀ e, (QuarterHyperCube_Merged.set_ids_face_2d tol width holeRadius cv g).1.boundary_id
          ≠ .id e) →
        (QuarterHyperCube_Merged.set_ids_face_2d tol width holeRadius cv g).1.boundary_id
          = .boundary_id_hole) := by
  simp only [QuarterHyperCube_Merged.set_ids_face_2d, hb, ↓reduceIte]
  have hf := set_manifold_id_fields (QuarterHyperCube_Merged.vertex_on_hole_2d tol holeRadius cv)
    (QuarterHyperCube_Merged.set_boundary_id_2d tol width holeRadius cv g).1
  rw [hf.1, hf.2, set_boundary_id_2d_manifold_id]
  refine ⟨rfl, ?_, set_boundary_id_2d_not_plane tol width holeRadius cv g⟩
  intro h
  have hv := set_boundary_id_2d_hole tol width holeRadius cv g hc h
  exact ⟨hv, by rw [if_pos hv]⟩

/-- The 3D loop body on a cleared boundary face, as `set_ids_face_2d_cleared`. -/
theorem set_ids_face_3d_cleared (tol width half_thickness holeRadius : ℚ) (cv : List Point)
    (g : Face) (hb : g.at_boundary = true) (hc : g.boundary_id = .cleared) :
    (QuarterHyperCube_Merged.set_ids_face_3d tol width half_thickness holeRadius cv
          g).1.manifold_id
        = (if QuarterHyperCube_Merged.vertex_on_hole_3d tol holeRadius cv = true
            then some QuarterHyperCube_Merged.manifold_id_hole else g.manifold_id)
      ∧ ((QuarterHyperCube_Merged.set_ids_face_3d tol width half_thickness holeRadius cv
          g).1.boundary_id = .boundary_id_hole →
        QuarterHyperCube_Merged.vertex_on_hole_3d tol holeRadius cv = true
        ∧ (QuarterHyperCube_Merged.set_ids_face_3d tol width half_thickness holeRadius cv
            g).1.manifold_id = some QuarterHyperCube_Merged.manifold_id_hole)
      ∧ (QuarterHyperCube_Merged.vertex_on_hole_3d tol holeRadius cv = true →
        (∀ e, (QuarterHyperCube_Merged.set_ids_face_3d tol width half_thickness holeRadius cv
          g).1.boundary_id ≠ .id e) →
        (QuarterHyperCube_Merged.set_ids_face_3d tol width half_thickness holeRadius cv
          g).1.boundary_id = .boundary_id_hole) := by
  simp only [QuarterHyperCube_Merged.set_ids_face_3d, hb, ↓reduceIte]
  have hf := set_manifold_id_fields (QuarterHyperCube_Merged.vertex_on_hole_3d tol holeRadius cv)
    (QuarterHyperCube_Merged.set_boundary_id_3d tol width half_thickness holeRadius cv g).1
  rw [hf.1, hf.2, set_boundary_id_3d_manifold_id]
  refine ⟨rfl, ?_, set_boundary_id_3d_not_plane tol width half_thickness holeRadius cv g⟩
  intro h
  have hv := set_boundary_id_3d_hole tol width half_thickness holeRadius cv g hc h
  exact ⟨hv, by rw [if_pos hv]⟩

/-- C24, amended: in the 2D and the 3D `make_grid` the manifold loop sets
`manifold_id_hole` on a boundary face (cleared before the pass) exactly when its vertex
test succeeds, whatever tag the if-chain gave the face, and otherwise leaves the
manifold id the face entered with; every face the pass tags `boundary_id_hole` passes
the vertex test and is set to the manifold id, and a face that passes the vertex test
and carries none of the plane tags x-minus .. z-plus is tagged `boundary_id_hole`. -/
theorem C24_manifold_id_follows_vertex_test (tol width half_thickness holeRadius : ℚ)
    (cell_vertices : List Point) (f : Face) (hb : f.at_boundary = true) :
    ((QuarterHyperCube_Merged.set_ids_face_2d tol width holeRadius cell_vertices
          { f with boundary_id := .cleared }).1.manifold_id
        = (if QuarterHyperCube_Merged.vertex_on_hole_2d tol holeRadius cell_vertices = true
            then some QuarterHyperCube_Merged.manifold_id_hole else f.manifold_id)
      ∧ ((QuarterHyperCube_Merged.set_ids_face_2d tol width holeRadius cell_vertices
          { f with boundary_id := .cleared }).1.boundary_id = .boundary_id_hole →
        QuarterHyperCube_Merged.vertex_on_hole_2d tol holeRadius cell_vertices = true
        ∧ (QuarterHyperCube_Merged.set_ids_face_2d tol width holeRadius cell_vertices
            { f with boundary_id := .cleared }).1.manifold_id
          = some QuarterHyperCube_Merged.manifold_id_hole)
      ∧ (QuarterHyperCube_Merged.vertex_on_hole_2d tol holeRadius cell_vertices = true →
        (∀ e, (QuarterHyperCube_Merged.set_ids_face_2d tol width holeRadius cell_vertices
          { f with boundary_id := .cleared }).1.boundary_id ≠ .id e) →
        (QuarterHyperCube_Merged.set_ids_face_2d tol width holeRadius cell_vertices
          { f with boundary_id := .cleared }).1.boundary_id = .boundary_id_hole))
    ∧ ((QuarterHyperCube_Merged.set_ids_face_3d tol width half_thickness holeRadius
          cell_vertices { f with boundary_id := .cleared }).1.manifold_id
        = (if QuarterHyperCube_Merged.vertex_on_hole_3d tol holeRadius cell_vertices = true
            then some QuarterHyperCube_Merged.manifold_id_hole else f.manifold_id)
      ∧ ((QuarterHyperCube_Merged.set_ids_face_3d tol width half_thickness holeRadius
          cell_vertices { f with boundary_id := .cleared }).1.boundary_id = .boundary_id_hole →
        QuarterHyperCube_Merged.vertex_on_hole_3d tol holeRadius cell_vertices = true
        ∧ (QuarterHyperCube_Merged.set_ids_face_3d tol width half_thickness holeRadius
            cell_vertices { f with boundary_id := .cleared }).1.manifold_id
          = some QuarterHyperCube_Merged.manifold_id_hole)
      ∧ (QuarterHyperCube_Merged.vertex_on_hole_3d tol holeRadius cell_vertices = true →
        (∀ e, (QuarterHyperCube_Merged.set_ids_face_3d tol width half_thickness holeRadius
          cell_vertices { f with boundary_id := .cleared }).1.boundary_id ≠ .id e) →
        (QuarterHyperCube_Merged.set_ids_face_3d tol width half_thickness holeRadius
          cell_vertices { f with boundary_id := .cleared }).1.boundary_id
          = .boundary_id_hole)) :=
  ⟨set_ids_face_2d_cleared tol width holeRadius cell_vertices
      { f with boundary_id := .cleared } hb rfl,
    set_ids_face_3d_cleared tol width half_thickness holeRadius cell_vertices
      { f with boundary_id := .cleared } hb rfl⟩

/-- C24, amended, at the outer face joining `(2,0)` and `(0,2)` of `hole_cell_reversed`
entering with the manifold id 10 on it: the vertex test holds and the face leaves the
pass with `manifold_id_hole`. -/
theorem C24_manifold_id_follows_vertex_test_witness :
    ({ line_face ⟨2, 0, 0⟩ ⟨0, 2, 0⟩ true with manifold_id := some 10 } : Face).at_boundary
        = true
    ∧ (QuarterHyperCube_Merged.set_ids_face_2d QuarterHyperCube_Merged.search_tolerance 100 1
          hole_cell_reversed.vertices
          { ({ line_face ⟨2, 0, 0⟩ ⟨0, 2, 0⟩ true with manifold_id := some 10 } : Face) with
            boundary_id := .cleared }).1.manifold_id
        = (if QuarterHyperCube_Merged.vertex_on_hole_2d QuarterHyperCube_Merged.search_tolerance
              1 hole_cell_reversed.vertices = true
            then some QuarterHyperCube_Merged.manifold_id_hole else some 10) :=
  ⟨rfl,
    (C24_manifold_id_follows_vertex_test QuarterHyperCube_Merged.search_tolerance 100 1 1
      hole_cell_reversed.vertices
      { line_face ⟨2, 0, 0⟩ ⟨0, 2, 0⟩ true with manifold_id := some 10 } rfl).1.1⟩

/-! ## Quarter plate: the step sizes of the outer plate -/

theorem foldl_add_replicate (n : ℕ) (a x : ℚ) :
    (List.replicate n x).foldl (fun acc s => acc + s) a = a + n * x := by
  induction n generalizing a with
  | zero => simp
  | succ k ih =>
    rw [List.replicate_succ, List.foldl_cons, ih]
    push_cast
    ring

/-- The number of outer subdivisions is at least `1`. -/
theorem n_subs_pos (remaining iw : ℚ) : 1 ≤ QuarterHyperCube_Merged.n_subs remaining iw := by
  unfold QuarterHyperCube_Merged.n_subs
  have h : (1 : ℤ) ≤ max 1 ⌈remaining / (iw / 2)⌉ := le_max_left _ _
  omega

/-- The step sizes of one direction add up to half the extent. -/
theorem accumulate_subdivision (extent iw : ℚ) :
    accumulate (QuarterHyperCube_Merged.subdivision extent iw) = extent / 2 := by
  unfold accumulate QuarterHyperCube_Merged.subdivision
  rw [List.foldl_cons, foldl_add_replicate]
  have h := n_subs_pos ((extent - iw) / 2) iw
  have hne : ((QuarterHyperCube_Merged.n_subs ((extent - iw) / 2) iw : ℕ) : ℚ) ≠ 0 := by
    have : 0 < QuarterHyperCube_Merged.n_subs ((extent - iw) / 2) iw := by omega
    positivity
  field_simp
  ring

/-- The two checks of one direction never fire. -/
theorem checked_subdivision_ok (extent iw : ℚ) :
    QuarterHyperCube_Merged.checked_subdivision extent iw
      = .ok (QuarterHyperCube_Merged.subdivision extent iw) := by
  unfold QuarterHyperCube_Merged.checked_subdivision
  have h := n_subs_pos ((extent - iw) / 2) iw
  rw [if_neg (by omega), accumulate_subdivision, sub_self, abs_zero, if_pos (by norm_num)]

/-- Every outer step is at most half the internal width when the latter is positive. -/
theorem outer_step_le (extent iw : ℚ) (hiw : 0 < iw) :
    ∀ s ∈ (QuarterHyperCube_Merged.subdivision extent iw).tail, s ≤ iw / 2 := by
  intro s hs
  unfold QuarterHyperCube_Merged.subdivision at hs
  rw [List.tail_cons] at hs
  have hs' := List.eq_of_mem_replicate hs
  rw [hs']
  have h := n_subs_pos ((extent - iw) / 2) iw
  have hpos : (0 : ℚ) < (QuarterHyperCube_Merged.n_subs ((extent - iw) / 2) iw : ℕ) := by
    have : 0 < QuarterHyperCube_Merged.n_subs ((extent - iw) / 2) iw := by omega
    positivity
  have hhalf : (0 : ℚ) < iw / 2 := by linarith
  rw [div_le_iff₀ hpos]
  have hceil : (extent - iw) / 2 / (iw / 2) ≤ (⌈(extent - iw) / 2 / (iw / 2)⌉ : ℚ) :=
    Int.le_ceil _
  have hmax : (⌈(extent - iw) / 2 / (iw / 2)⌉ : ℤ)
      ≤ (QuarterHyperCube_Merged.n_subs ((extent - iw) / 2) iw : ℕ) := by
    unfold QuarterHyperCube_Merged.n_subs
    have : ⌈(extent - iw) / 2 / (iw / 2)⌉ ≤ max 1 ⌈(extent - iw) / 2 / (iw / 2)⌉ :=
      le_max_right _ _
    omega
  have hmax' : (⌈(extent - iw) / 2 / (iw / 2)⌉ : ℚ)
      ≤ ((QuarterHyperCube_Merged.n_subs ((extent - iw) / 2) iw : ℕ) : ℚ) := by
    exact_mod_cast hmax
  have h1 : (extent - iw) / 2 / (iw / 2)
      ≤ ((QuarterHyperCube_Merged.n_subs ((extent - iw) / 2) iw : ℕ) : ℚ) := le_trans hceil hmax'
  rw [div_le_iff₀ hhalf] at h1
  linarith

/-- C25: in the branch `hole_division_fraction != 1` of
`make_2d_quarter_plate_with_hole`, for `hole_radius > 0`, `0 ≤ fraction` and width at
least the hole diameter (in particular for `0 ≤ fraction < 1` and width and length at
least the hole diameter), in exact arithmetic: `n_subs ≥ 1` in both directions, the step
sizes add up exactly to `width/2` resp. `length/2`, neither check fires, so that
`step_sizes` is produced, and every outer step is at most `internal_width/2`. -/
theorem C25_step_sizes_sum_and_bound (half_length half_width hole_radius
    hole_division_fraction : ℚ) (hr : 0 < hole_radius)
    (hf0 : 0 ≤ hole_division_fraction) (hw : 2 * hole_radius ≤ 2 * half_width) :
    (1 ≤ QuarterHyperCube_Merged.n_subs
        ((2 * half_width - QuarterHyperCube_Merged.internal_width half_width hole_radius
          hole_division_fraction) / 2)
        (QuarterHyperCube_Merged.internal_width half_width hole_radius hole_division_fraction)
      ∧ 1 ≤ QuarterHyperCube_Merged.n_subs
        ((2 * half_length - QuarterHyperCube_Merged.internal_width half_width hole_radius
          hole_division_fraction) / 2)
        (QuarterHyperCube_Merged.internal_width half_width hole_radius hole_division_fraction))
    ∧ (accumulate (QuarterHyperCube_Merged.subdivision (2 * half_width)
          (QuarterHyperCube_Merged.internal_width half_width hole_radius
            hole_division_fraction)) = 2 * half_width / 2
      ∧ accumulate (QuarterHyperCube_Merged.subdivision (2 * half_length)
          (QuarterHyperCube_Merged.internal_width half_width hole_radius
            hole_division_fraction)) = 2 * half_length / 2)
    ∧ QuarterHyperCube_Merged.step_sizes half_length half_width hole_radius
        hole_division_fraction
      = .ok [QuarterHyperCube_Merged.subdivision (2 * half_width)
              (QuarterHyperCube_Merged.internal_width half_width hole_radius
                hole_division_fraction),
             QuarterHyperCube_Merged.subdivision (2 * half_length)
              (QuarterHyperCube_Merged.internal_width half_width hole_radius
                hole_division_fraction)]
    ∧ (∀ s ∈ (QuarterHyperCube_Merged.subdivision (2 * half_width)
          (QuarterHyperCube_Merged.internal_width half_width hole_radius
            hole_division_fraction)).tail,
        s ≤ QuarterHyperCube_Merged.internal_width half_width hole_radius
          hole_division_fraction / 2)
    ∧ (∀ s ∈ (QuarterHyperCube_Merged.subdivision (2 * half_length)
          (QuarterHyperCube_Merged.internal_width half_width hole_radius
            hole_division_fraction)).tail,
        s ≤ QuarterHyperCube_Merged.internal_width half_width hole_radius
          hole_division_fraction / 2) := by
  have hiw : 0 < QuarterHyperCube_Merged.internal_width half_width hole_radius
      hole_division_fraction := by
    unfold QuarterHyperCube_Merged.internal_width
    have : 0 ≤ hole_division_fraction * (2 * half_width - 2 * hole_radius) :=
      mul_nonneg hf0 (by linarith)
    linarith
  refine ⟨⟨n_subs_pos _ _, n_subs_pos _ _⟩,
    ⟨accumulate_subdivision _ _, accumulate_subdivision _ _⟩, ?_,
    outer_step_le _ _ hiw, outer_step_le _ _ hiw⟩
  unfold QuarterHyperCube_Merged.step_sizes
  rw [checked_subdivision_ok, checked_subdivision_ok]

/-- C25 at `half_length = half_width = 5`, `hole_radius = 1`, fraction `1/2`:
`internal_width = 6`, one outer step of size `2` in each direction. -/
theorem C25_step_sizes_sum_and_bound_witness :
    ((0 : ℚ) < 1 ∧ (0 : ℚ) ≤ 1 / 2 ∧ (2 * 1 : ℚ) ≤ 2 * 5)
    ∧ QuarterHyperCube_Merged.step_sizes 5 5 1 (1 / 2)
      = .ok [QuarterHyperCube_Merged.subdivision (2 * 5)
              (QuarterHyperCube_Merged.internal_width 5 1 (1 / 2)),
             QuarterHyperCube_Merged.subdivision (2 * 5)
              (QuarterHyperCube_Merged.internal_width 5 1 (1 / 2))] :=
  ⟨⟨by norm_num, by norm_num, by norm_num⟩,
    (C25_step_sizes_sum_and_bound 5 5 1 (1 / 2) (by norm_num) (by norm_num)
      (by norm_num)).2.2.1⟩

/-! ## Quarter plate 2D: the local refinement passes -/

/-- C26: in the 2D `make_grid` the number of executed local refinement passes is
exactly `n = nbr_holeEdge_refinements`: none for `n = 0`, and for `n = m + 1` one
isotropic pass followed by `m = n - 1` `cut_x` passes; the unsigned difference `n - 1`
stands under the guard `n > 0`, where it does not wrap around and equals `m`. -/
theorem C26_local_refinement_passes :
    (∀ n, (QuarterHyperCube_Merged.local_refinement_passes n).length = n)
    ∧ QuarterHyperCube_Merged.local_refinement_passes 0 = []
    ∧ (∀ m, QuarterHyperCube_Merged.local_refinement_passes (m + 1)
        = .isotropic_refinement :: List.replicate m .cut_x)
    ∧ (∀ m, 1 ≤ m + 1 ∧ usub (m + 1) 1 = m) := by
  have hu : ∀ m, usub (m + 1) 1 = m := by
    intro m
    rw [usub_of_le _ _ (by omega)]
    omega
  have hs : ∀ m, QuarterHyperCube_Merged.local_refinement_passes (m + 1)
      = .isotropic_refinement :: List.replicate m .cut_x := by
    intro m
    unfold QuarterHyperCube_Merged.local_refinement_passes
    rw [if_pos (by omega), hu]
    congr 1
    apply List.ext_getElem
    · simp
    · intro i h1 h2
      simp
  refine ⟨?_, rfl, hs, fun m => ⟨by omega, hu m⟩⟩
  intro n
  cases n with
  | zero => rfl
  | succ m => rw [hs]; simp

/-! ## HyperRectangle: the length of the refined part -/

/-- C27, counterexample: for a plate of length `10` and width `2` the refined length is
`10/6 = 5/3`, not `min(2, 0.9·10) = 2`. -/
theorem C27_length_refined_counterexample :
    HyperRectangle.length_refined 10 2 = 5 / 3
      ∧ HyperRectangle.length_refined 10 2 ≠ min 2 (9 / 10 * 10) := by
  have h : HyperRectangle.length_refined 10 2 = 5 / 3 := by
    unfold HyperRectangle.length_refined HyperRectangle.Neto_planeStrain
    norm_num
  refine ⟨h, ?_⟩
  rw [h]
  norm_num

/-- C27, amended: in `make_grid_flat` the length of the finely meshed part is declared
as `min(width, 0.9·length)` and then, the constant `Neto_planeStrain` being `true`,
overwritten by `length/6`, so `length_refined = length/6`; the declared value is `width`
whenever `width ≤ 0.9·length` and `0.9·length` when the plate is wider. -/
theorem C27_length_refined_is_sixth (length width : ℚ) :
    HyperRectangle.length_refined length width
        = (if HyperRectangle.Neto_planeStrain then length / 6
            else HyperRectangle.length_refined_declared length width)
    ∧ HyperRectangle.Neto_planeStrain = true
    ∧ HyperRectangle.length_refined length width = length / 6
    ∧ HyperRectangle.length_refined_declared length width = min width (9 / 10 * length) := by
  refine ⟨?_, rfl, ?_, ?_⟩
  · unfold HyperRectangle.length_refined HyperRectangle.length_refined_declared
    rfl
  · unfold HyperRectangle.length_refined HyperRectangle.Neto_planeStrain
    simp
  · unfold HyperRectangle.length_refined_declared
    rw [one_mul]
